import Mathlib

/-!
# KWLctl: program scheduler, temperature sensors and network client

A shallow embedding of `ProgramManager.cpp`, `TempSensors.cpp` and
`NetworkClient.cpp` of the ventilation controller, followed by the properties
proved about them.

Conventions of the embedding:

* `uint8_t`, `int8_t` and `unsigned` values are natural numbers or integers;
  the conversions of the source are the functions `uint8_t`, `int8_t` and
  `unsigned` below (the target is an ATmega, where `unsigned` has 16 bits).
* C strings are lists of characters without the terminating NUL.
* The collaborators (persistent configuration, time source, fan control,
  publish tasks) are part of the state: what the code reads from them are
  fields, what the code calls on them is appended to a trace of events.
  Where a collaborator answers during a step (sensor bus, link, broker client,
  transport), the answers are an argument of the step.
* The jobs handed to the publish tasks are embedded as step functions on their
  captured variables; the publish task that holds and polls them (`PublishTask`,
  not among the sources) is modelled from the spec.
* A function that builds a text in a fixed-size array returns `none` where the
  source writes beyond the array.
* Temperatures are exact rational numbers; `int` has 16 bits.
* Diagnostic output on `Serial` is not modelled.
-/

namespace KWL

/-! ## Machine integers -/

/-- Conversion to `uint8_t`: the value modulo 2^8. -/
def uint8_t (n : Nat) : Nat := n % 256

/-- Conversion to `int8_t`: the value wrapped into -128..127. -/
def int8_t (x : Int) : Int := (x + 128) % 256 - 128

/-- Conversion to `unsigned`, 16 bits wide on the target. -/
def unsigned (x : Int) : Nat := (x % 65536).toNat

/-! ## Time of day -/

/-- Time of day and weekday as delivered by `MicroNTP::currentTimeHMS`;
`HMS(h, m)` is `⟨h, m, 0, 0⟩`. -/
structure HMS where
  h : Nat
  m : Nat
  s : Nat
  wd : Nat
deriving DecidableEq, Repr

/-- Modelled from the spec: `HMS::compareTime` of MicroNTP.h, which is not among
the sources. It is the "time-of-day comparison" of the spec: negative, zero or
positive as this time of day lies before, at or after the other one; the
weekday takes no part in it. -/
def HMS.compareTime (a other : HMS) : Int :=
  if a.h < other.h then -1
  else if other.h < a.h then 1
  else if a.m < other.m then -1
  else if other.m < a.m then 1
  else if a.s < other.s then -1
  else if other.s < a.s then 1
  else 0

/-! ## Program data -/

/-- Record of `ProgramData.h` (not among the sources); the fields are the ones
`ProgramManager.cpp` reads and writes, all of them `uint8_t`. -/
structure ProgramData where
  start_h_ : Nat
  start_m_ : Nat
  end_h_ : Nat
  end_m_ : Nat
  fan_mode_ : Nat
  weekdays_ : Nat
  enabled_progsets_ : Nat
  reserved_ : Nat
deriving DecidableEq, Repr

/-- Modelled from the spec: `ProgramData::is_enabled` of ProgramData.h, which is
not among the sources: the program-set bit of the program is enabled for the
set selected by `mask`. -/
def ProgramData.is_enabled (p : ProgramData) (mask : Nat) : Bool :=
  p.enabled_progsets_ &&& mask != 0

/-- `ProgramData::matches`, ProgramManager.cpp lines 126-156. -/
def ProgramData.matches (p : ProgramData) (hms : HMS) : Bool :=
  let start : HMS := ⟨p.start_h_, p.start_m_, 0, 0⟩
  let stop : HMS := ⟨p.end_h_, p.end_m_, 0, 0⟩
  let wd_bit := uint8_t (1 <<< hms.wd)
  if start.compareTime stop > 0 then
    -- program crossing midnight
    if hms.compareTime start ≥ 0 then
      -- day 1
      if p.weekdays_ &&& wd_bit = 0 then false else true
    else if hms.compareTime stop < 0 then
      -- day 2
      let wd_bit := uint8_t (wd_bit <<< 1)
      let wd_bit := if wd_bit = 0x80 then 1 else wd_bit
      if p.weekdays_ &&& wd_bit = 0 then false else true
    else false
  else
    -- normal program
    if hms.compareTime start < 0 ∨ hms.compareTime stop ≥ 0 then false
    else if p.weekdays_ &&& wd_bit = 0 then false else true

/-! ## Program manager -/

/-- Constants of `KWLConfig` (KWLConfig.h is not among the sources) that the
program manager uses; they are parameters of the embedding. -/
structure KWLConfig where
  MaxProgramCount : Nat
  StandardModeCnt : Nat
  StandardKwlMode : Nat
deriving DecidableEq, Repr

/-- Job handed to the program publisher `publisher_`. -/
inductive ProgramJob where
  /-- the "send all programs" job of the get/all command -/
  | sendAll
  /-- the per-slot job of `publishProgram(index)` -/
  | sendProgram (index : Nat)
deriving DecidableEq, Repr

/-- Call made by the program manager on one of its collaborators. -/
inductive Event where
  /-- `fan_.setVentilationMode(mode)` -/
  | setVentilationMode (mode : Nat)
  /-- `config_.setProgram(index, program)` -/
  | configSetProgram (index : Nat) (program : ProgramData)
  /-- `config_.enableProgram(index, progsetmask)` -/
  | configEnableProgram (index : Nat) (progsetmask : Nat)
  /-- `config_.setProgramSetIndex(set)` -/
  | configSetProgramSetIndex (set : Nat)
  /-- `publisher_.publish(job)` -/
  | publish (job : ProgramJob)
  /-- `prognum_publisher_.publish(job)` with the captured program and set -/
  | publishIndex (program : Int) (set : Nat)
deriving DecidableEq, Repr

/-- State of the program manager together with what its collaborators hold. -/
structure ProgramManager where
  /-- index of the currently running program, -2 before the first run -/
  current_program_ : Int
  /-- `config_.getProgram(index)` -/
  getProgram : Nat → ProgramData
  /-- `config_.getProgramSetIndex()` -/
  getProgramSetIndex : Nat
  /-- `ntp_.hasTime()` -/
  hasTime : Bool
  /-- `ntp_.currentTimeHMS(...)` -/
  currentTimeHMS : HMS
  /-- calls made on the collaborators so far, oldest first -/
  trace : List Event

namespace ProgramManager

/-- Modelled from the spec: `KWLPersistentConfig::setProgram`, not among the
sources: the persistence collaborator stores the data in the slot, so that
`getProgram(index)` returns it afterwards. The call is recorded in the trace. -/
def config_setProgram (index : Nat) (program : ProgramData) (s : ProgramManager) :
    ProgramManager :=
  { s with
    getProgram := fun i => if i = index then program else s.getProgram i
    trace := s.trace ++ [Event.configSetProgram index program] }

/-- Modelled from the spec: `KWLPersistentConfig::enableProgram`, not among the
sources: the persistence collaborator replaces the enabled-set mask of the
slot. The call is recorded in the trace. -/
def config_enableProgram (index : Nat) (progsetmask : Nat) (s : ProgramManager) :
    ProgramManager :=
  { s with
    getProgram := fun i =>
      if i = index then { s.getProgram i with enabled_progsets_ := progsetmask }
      else s.getProgram i
    trace := s.trace ++ [Event.configEnableProgram index progsetmask] }

/-- Modelled from the spec: `KWLPersistentConfig::setProgramSetIndex`, not among
the sources: the persistence collaborator stores the selected program set. The
call is recorded in the trace. -/
def config_setProgramSetIndex (set : Nat) (s : ProgramManager) : ProgramManager :=
  { s with
    getProgramSetIndex := set
    trace := s.trace ++ [Event.configSetProgramSetIndex set] }

/-- `fan_.setVentilationMode(mode)`: recorded in the trace. -/
def setVentilationMode (mode : Nat) (s : ProgramManager) : ProgramManager :=
  { s with trace := s.trace ++ [Event.setVentilationMode mode] }

/-- `ProgramManager::publishProgram`, lines 331-335: hands the per-slot job to
`publisher_`. -/
def publishProgram (index : Nat) (s : ProgramManager) : ProgramManager :=
  { s with trace := s.trace ++ [Event.publish (ProgramJob.sendProgram index)] }

/-- `ProgramManager::publishProgramIndex`, lines 337-352: hands a job that
captured the current program and the program-set index to `prognum_publisher_`. -/
def publishProgramIndex (s : ProgramManager) : ProgramManager :=
  { s with
    trace := s.trace ++ [Event.publishIndex s.current_program_ s.getProgramSetIndex] }

/-- The loop of `ProgramManager::run`, lines 91-99: the slots are scanned in
increasing order and every hit overwrites `program`. The counter `i` is an
`int8_t`, so the loop of the source ends only for `MaxProgramCount ≤ 127`. -/
def run_program (k : KWLConfig) (s : ProgramManager) : Int :=
  let time := s.currentTimeHMS
  let set_index := s.getProgramSetIndex
  let setmask := uint8_t (1 <<< set_index)
  (List.range k.MaxProgramCount).foldl
    (fun program i =>
      if (s.getProgram i).is_enabled setmask && (s.getProgram i).matches time
      then int8_t i else program)
    (-1)

/-- `ProgramManager::run`, lines 73-124. -/
def run (k : KWLConfig) (s : ProgramManager) : ProgramManager :=
  if !s.hasTime then s
  else
    let program := run_program k s
    if program ≠ s.current_program_ then
      -- switch programs
      let s :=
        if program ≥ 0 then
          s.setVentilationMode (s.getProgram (unsigned program)).fan_mode_
        else
          s.setVentilationMode k.StandardKwlMode
      publishProgramIndex { s with current_program_ := program }
    else s

/-- `ProgramManager::setProgram`, lines 50-60. -/
def setProgram (k : KWLConfig) (index : Nat) (program : ProgramData)
    (s : ProgramManager) : ProgramManager :=
  if index > k.MaxProgramCount then s -- ERROR
  else
    let s := s.config_setProgram index program
    let s := if index = unsigned s.current_program_ then { s with current_program_ := -1 } else s
    let s := s.run k
    let s := s.publishProgram index
    s.publishProgramIndex

/-- `ProgramManager::enableProgram`, lines 62-71. -/
def enableProgram (k : KWLConfig) (index : Nat) (progsetmask : Nat)
    (s : ProgramManager) : ProgramManager :=
  if index > k.MaxProgramCount then s -- ERROR
  else
    let s := s.config_enableProgram index progsetmask
    let s := if index = unsigned s.current_program_ then { s with current_program_ := -1 } else s
    let s := s.run k
    s.publishProgram index

end ProgramManager

/-! ## Text form of a program -/

/-- `isspace` of the C library in the "C" locale: blank, `\t`, `\n`, `\v`,
`\f` and `\r`. -/
def isspace (c : Char) : Bool := c.toNat = 32 || (9 ≤ c.toNat && c.toNat ≤ 13)

/-- `isdigit` of the C library. -/
def isdigit (c : Char) : Bool := 48 ≤ c.toNat && c.toNat ≤ 57

/-- Value of a sequence of decimal digits. -/
def digitsValue (ds : List Char) : Nat :=
  ds.foldl (fun v c => 10 * v + (c.toNat - 48)) 0

/-- The character `char(d + '0')`. -/
def digitChar (d : Nat) : Char := Char.ofNat (uint8_t (d + 48))

/-- Modelled from the spec: `HMS::writeHM` of MicroNTP.h, which is not among the
sources: hours and minutes in the fixed format `HH:MM` of the program text,
two decimal digits each. -/
def HMS.writeHM (t : HMS) : List Char :=
  [digitChar (t.h / 10), digitChar (t.h % 10), ':', digitChar (t.m / 10), digitChar (t.m % 10)]

/-- The loops of `mqttSendProgram` that write a mask as characters `0` and `1`,
lowest bit first: `n` is 7 for the weekdays (`bit < 0x80`) and 8 for the program
sets (`bit != 0`). -/
def maskChars (mask : Nat) (n : Nat) : List Char :=
  (List.range n).map (fun i => if mask &&& uint8_t (1 <<< i) ≠ 0 then '1' else '0')

/-- The text `"HH:MM HH:MM M wwwwwww pppppppp"` that `mqttSendProgram` builds in
`buffer`, lines 379-393. -/
def mqttSendProgram_buffer (prog : ProgramData) : List Char :=
  HMS.writeHM ⟨prog.start_h_, prog.start_m_, 0, 0⟩ ++ ' ' ::
    (HMS.writeHM ⟨prog.end_h_, prog.end_m_, 0, 0⟩ ++ ' ' ::
      digitChar prog.fan_mode_ :: ' ' ::
        (maskChars prog.weekdays_ 7 ++ ' ' :: maskChars prog.enabled_progsets_ 8))

/-- The conversion `%u` of `sscanf` (C library): white space is skipped, then an
optional sign and the longest run of decimal digits are read. The result is the
value as an `unsigned` and the unread input, or `none` when no digit is found.
A value that does not fit is taken modulo 2^16. -/
def scan_u (s : List Char) : Option (Nat × List Char) :=
  let s := s.dropWhile isspace
  let negative := s.head? = some '-'
  let s := if s.head? = some '-' ∨ s.head? = some '+' then s.tail else s
  let ds := s.takeWhile isdigit
  if ds = [] then none
  else
    let v : Int := digitsValue ds
    some (unsigned (if negative then -v else v), s.dropWhile isdigit)

/-- The conversion `%Ns` of `sscanf` (C library) with field width `width`: white
space is skipped, then characters are read up to the next white space, at most
`width` of them. The result is the characters stored (a NUL follows them in the
buffer) and the unread input, or `none` at the end of the input. -/
def scan_s (width : Nat) (s : List Char) : Option (List Char × List Char) :=
  let s := s.dropWhile isspace
  let token := (s.takeWhile (fun c => !isspace c)).take width
  if token = [] then none else some (token, s.drop token.length)

/-- What `sscanf` delivers for `FORMAT`: the number of items assigned and the
items. An item that was not assigned is indeterminate in the source and is
never read there; here it keeps the value 0 or the empty text. -/
structure ProgramScan where
  rc : Nat
  start_h : Nat
  start_m : Nat
  end_h : Nat
  end_m : Nat
  mode : Nat
  wd_buf : List Char
  ps_buf : List Char
deriving DecidableEq, Repr

/-- `sscanf(s.c_str(), "%u:%u %u:%u %u %7s %8s", ...)` of the C library, lines
221-223. Items are converted from left to right until one fails; `rc` counts
the items assigned. (When the input ends before the first item the C function
returns EOF, which is negative; the model reports 0: both are below 5.) -/
def sscanf_FORMAT (s : List Char) : ProgramScan :=
  let r : ProgramScan := ⟨0, 0, 0, 0, 0, 0, [], []⟩
  match scan_u s with
  | none => r
  | some (start_h, s) =>
    let r := { r with rc := 1, start_h := start_h }
    match s with
    | [] => r
    | c :: s =>
      if c ≠ ':' then r
      else
        match scan_u s with
        | none => r
        | some (start_m, s) =>
          let r := { r with rc := 2, start_m := start_m }
          match scan_u (s.dropWhile isspace) with
          | none => r
          | some (end_h, s) =>
            let r := { r with rc := 3, end_h := end_h }
            match s with
            | [] => r
            | c :: s =>
              if c ≠ ':' then r
              else
                match scan_u s with
                | none => r
                | some (end_m, s) =>
                  let r := { r with rc := 4, end_m := end_m }
                  match scan_u (s.dropWhile isspace) with
                  | none => r
                  | some (mode, s) =>
                    let r := { r with rc := 5, mode := mode }
                    match scan_s 7 (s.dropWhile isspace) with
                    | none => r
                    | some (wd_buf, s) =>
                      let r := { r with rc := 6, wd_buf := wd_buf }
                      match scan_s 8 (s.dropWhile isspace) with
                      | none => r
                      | some (ps_buf, _) => { r with rc := 7, ps_buf := ps_buf }

/-- The loops of lines 256-271, 278-293 and 304-319 of `mqttReceiveMsg`: the
first `n` characters of the buffer are read, the one at position `i` standing
for the bit `1 << i`; `none` is the `default:` case, reached for every character
other than `0` and `1`, the terminating NUL of a shorter text included. -/
def parse_mask (buf : List Char) (n : Nat) : Option Nat :=
  (List.range n).foldl
    (fun acc i =>
      match acc with
      | none => none
      | some mask =>
        if buf.getD i (Char.ofNat 0) = '0' then some mask
        else if buf.getD i (Char.ofNat 0) = '1' then some (mask ||| uint8_t (1 <<< i))
        else none)
    (some 0)

/-- Lines 219-298 of `mqttReceiveMsg`: the program record built from the
payload, or `none` where the source leaves with `return true` before reaching
`setProgram`. -/
def parse_program (k : KWLConfig) (valid_index : Bool) (s : List Char) :
    Option ProgramData :=
  let r := sscanf_FORMAT s
  if r.rc < 5 ∨ valid_index = false then none
  else if r.start_h > 23 ∨ r.start_m > 59 then none
  else if r.end_h > 23 ∨ r.end_m > 59 then none
  else if r.mode ≥ k.StandardModeCnt then none
  else
    match (if r.rc ≥ 6 then parse_mask r.wd_buf 7 else some 0x7f) with
    | none => none
    | some weekdays =>
      match (if r.rc ≥ 7 then parse_mask r.ps_buf 8 else some 0xff) with
      | none => none
      | some enabled_progsets =>
        some ⟨uint8_t r.start_h, uint8_t r.start_m, uint8_t r.end_h, uint8_t r.end_m,
          uint8_t r.mode, weekdays, enabled_progsets, 0⟩

/-! ## Message handler of the program manager -/

/-- Topic constants of MQTTTopic.hpp (not among the sources) that the handler
compares with; they are parameters of the embedding. -/
structure MQTTTopic where
  CmdSetProgramSet : List Char
  CmdSetProgram : List Char
  SubtopicProgramGet : List Char
  SubtopicProgramData : List Char
  SubtopicProgramEnable : List Char
deriving DecidableEq, Repr

/-- `strtoul(command, &parse_end, 10)` of the C library: white space is skipped,
then an optional sign and the longest run of decimal digits are read. The
result is the value as an `unsigned long` of 32 bits (`ULONG_MAX` when it does
not fit) and the offset of `parse_end`, which is 0 when no digit is found. -/
def strtoul (s : List Char) : Nat × Nat :=
  let blanks := (s.takeWhile isspace).length
  let s := s.dropWhile isspace
  let negative := s.head? = some '-'
  let sign := if s.head? = some '-' ∨ s.head? = some '+' then 1 else 0
  let s := s.drop sign
  let ds := s.takeWhile isdigit
  if ds = [] then (0, 0)
  else
    let v := digitsValue ds
    let v :=
      if v > 4294967295 then 4294967295
      else if negative then (4294967296 - v) % 4294967296
      else v
    (v, blanks + sign + ds.length)

/-- `strchr(s, c)` of the C library: offset of the first `c`, if there is one. -/
def strchr (s : List Char) (c : Char) : Option Nat :=
  if s.contains c then some (s.indexOf c) else none

/-- Modelled from the spec: `StringView::toInt` of StringView.h, which is not
among the sources: the payload read as decimal ASCII text, with optional sign,
0 when it does not start with a number. -/
def StringView_toInt (s : List Char) : Int :=
  let s := s.dropWhile isspace
  let negative := s.head? = some '-'
  let s := if s.head? = some '-' ∨ s.head? = some '+' then s.tail else s
  let v : Int := digitsValue (s.takeWhile isdigit)
  if negative then -v else v

/-- Line 185 of `mqttReceiveMsg`: `unsigned(strtoul(command, &parse_end, 10))`. -/
def decode_index (command : List Char) : Nat :=
  unsigned (strtoul command).1

/-- Line 186 of `mqttReceiveMsg`, where `stop` is the offset of `end` in
`command`: `(parse_end == end) && (end != command) && (index < MaxProgramCount)`. -/
def valid_index (k : KWLConfig) (command : List Char) (stop : Nat) : Bool :=
  decide ((strtoul command).2 = stop ∧ stop ≠ 0 ∧ decode_index command < k.MaxProgramCount)

namespace ProgramManager

/-- `ProgramManager::mqttReceiveMsg`, lines 158-329: the result of the handler
and the state it leaves. -/
def mqttReceiveMsg (k : KWLConfig) (t : MQTTTopic) (topic s : List Char)
    (pm : ProgramManager) : Bool × ProgramManager :=
  if topic = t.CmdSetProgramSet then
    -- set program index
    let set := StringView_toInt s
    if set < 0 ∨ set > 7 then (true, pm)
    else
      let pm := pm.config_setProgramSetIndex (uint8_t set.toNat)
      let pm := pm.run k
      (true, pm.publishProgramIndex)
  else if topic.take t.CmdSetProgram.length ≠ t.CmdSetProgram then (false, pm) -- wrong topic
  else
    -- strip the command and decode index
    let command := topic.drop t.CmdSetProgram.length
    match strchr command '/' with
    | none => (false, pm) -- wrong topic
    | some stop =>
      let index := decode_index command
      let valid_index := valid_index k command stop
      let index_str := command.take stop
      let command_str := command.drop (stop + 1)
      if command_str = t.SubtopicProgramGet then
        -- get specified program or ALL
        let pm :=
          if index_str = ['a', 'l', 'l'] then
            { pm with trace := pm.trace ++ [Event.publish ProgramJob.sendAll] }
          else if valid_index then pm.publishProgram index
          else pm
        (true, pm.publishProgramIndex)
      else if command_str = t.SubtopicProgramData then
        match parse_program k valid_index s with
        | none => (true, pm)
        | some prog => (true, pm.setProgram k index prog)
      else if command_str = t.SubtopicProgramEnable then
        -- enable or disable a program
        if valid_index then
          match parse_mask s 8 with
          | none => (true, pm)
          | some progset => (true, pm.enableProgram k index progset)
        else (true, pm)
      else (false, pm)

end ProgramManager

/-! ## Publishing the programs -/

/-- Message handed to the transport by `publish(topic, payload, retain)`. -/
structure Message where
  topic : List Char
  payload : List Char
deriving DecidableEq, Repr

/-- The transport as the publish jobs see it: `outcome n` is the result of the
`n`-th `publish` call (counted from 0), `log` holds the calls made so far with
their results, oldest first. -/
structure Transport where
  outcome : Nat → Bool
  log : List (Message × Bool)

/-- Modelled from the spec: `MessageHandler::publish(topic, payload, retain)` of
MessageHandler.h, which is not among the sources: the message is handed to the
transport and the failure or success of the transport write is returned as a
boolean. -/
def Transport.publish (topic payload : List Char) (tr : Transport) : Bool × Transport :=
  (tr.outcome tr.log.length,
    { tr with log := tr.log ++ [(⟨topic, payload⟩, tr.outcome tr.log.length)] })

/-! ## Temperature sensor -/

/-- Constants of TempSensors.h and of the DallasTemperature library (neither is
among the sources) that the sensor state machine uses; they are parameters of
the embedding. Temperatures are rational numbers. -/
structure TempSensorConfig where
  MAX_WAIT_TIME : Int
  MAX_RETRIES : Nat
  INVALID : ℚ
  DEVICE_DISCONNECTED_C : ℚ

/-- State of `TempSensors::TempSensor`: the state code, the retry counter and
the stored reading. -/
structure TempSensor where
  state_ : Int
  retry_count_ : Nat
  t_ : ℚ
deriving DecidableEq

/-- Answers of the sensor bus during one step of the state machine. -/
structure SensorBus where
  /-- `sensor_.getAddress(address_, 0)` -/
  getAddress : Bool
  /-- `sensor_.isConversionComplete()` -/
  isConversionComplete : Bool
  /-- `sensor_.getTempC(address_)` -/
  getTempC : ℚ

namespace TempSensor

/-- `TempSensors::TempSensor::retry`, TempSensors.cpp lines 81-89. -/
def retry (c : TempSensorConfig) (s : TempSensor) : TempSensor :=
  let s :=
    if s.retry_count_ ≥ c.MAX_RETRIES then { s with t_ := c.INVALID }
    else { s with retry_count_ := s.retry_count_ + 1 }
  { s with state_ := -1 } -- start next retry

/-- `TempSensors::TempSensor::loop`, TempSensors.cpp lines 49-79: the result
("new data available") and the state after the step. -/
def loop (c : TempSensorConfig) (bus : SensorBus) (s : TempSensor) : Bool × TempSensor :=
  if s.state_ = 0 then
    -- new reading requested
    (false, { s with state_ := 1 })
  else if s.state_ < 0 then
    -- request address again upon retry
    if bus.getAddress then (false, { s with state_ := 0 })
    else (false, s)
  else if s.state_ ≤ c.MAX_WAIT_TIME then
    if bus.isConversionComplete then
      -- data can be read
      let res := bus.getTempC
      if res > c.DEVICE_DISCONNECTED_C then
        -- successful reading, start next read next time
        (true, { s with t_ := res, state_ := 0 })
      else
        -- error reading data
        (false, s.retry c)
    else (false, s)
  else
    -- retry read next time, it took too long
    (false, s.retry c)

end TempSensor

/-! ## Temperature sensors: round robin, efficiency and export -/

/-- Constants of `KWLConfig` (KWLConfig.h is not among the sources) that the export
of the temperatures uses; they are parameters of the embedding. -/
structure TempMqttConfig where
  MaxIntervalMqttTemp : Nat
  MinIntervalMqttTemp : Nat
  MinDiffMqttTemp : ℚ

/-- Message handed to `publish` by `TempSensors::sendMQTT`, named after its topic. -/
inductive TempMessage where
  | KwlTemperaturAussenluft (value : ℚ)
  | KwlTemperaturZuluft (value : ℚ)
  | KwlTemperaturAbluft (value : ℚ)
  | KwlTemperaturFortluft (value : ℚ)
  | KwlEffiency (value : Int)
deriving DecidableEq

/-- Outcomes of the five `publish` calls of one export. -/
structure PublishResults where
  r1 : Bool
  r2 : Bool
  r3 : Bool
  r4 : Bool
  r5 : Bool
deriving DecidableEq, Repr

/-- State of `TempSensors`: the four sensors, the round-robin position, the
efficiency, the export bookkeeping, and the messages handed to `publish` so far
(oldest first). The tick counter is a natural number: it is reset whenever it
reaches `MaxIntervalMqttTemp`. -/
structure TempSensors where
  t1_ : TempSensor
  t2_ : TempSensor
  t3_ : TempSensor
  t4_ : TempSensor
  next_sensor_ : Nat
  force_send_ : Bool
  efficiency_ : Int
  mqtt_ticks_ : Nat
  last_mqtt_t1_ : ℚ
  last_mqtt_t2_ : ℚ
  last_mqtt_t3_ : ℚ
  last_mqtt_t4_ : ℚ
  published : List TempMessage
deriving DecidableEq

/-- Truncation of a rational number toward zero: the fractional part is
discarded. -/
def truncate (x : ℚ) : Int := if 0 ≤ x then ⌊x⌋ else ⌈x⌉

/-- Conversion `int(x)` of a floating-point value to the `int` of the target,
16 bits wide, on exact rationals: the fractional part is discarded; a value
beyond the range -32768..32767 of `int`, for which C leaves the conversion
undefined, wraps modulo 2^16 into that range. -/
def int_of (x : ℚ) : Int := (truncate x + 32768) % 65536 - 32768

/-- The macro `constrain(amt, low, high)` of Arduino.h. -/
def constrain (amt low high : Int) : Int :=
  if amt < low then low else if amt > high then high else amt

namespace TempSensors

/-- Modelled from the spec: `get_t1_outside()` of TempSensors.h, which is not
among the sources: the reading of sensor 1, the outside air. -/
def get_t1_outside (s : TempSensors) : ℚ := s.t1_.t_

/-- Modelled from the spec: `get_t2_inlet()` of TempSensors.h, which is not
among the sources: the reading of sensor 2, the inlet air. -/
def get_t2_inlet (s : TempSensors) : ℚ := s.t2_.t_

/-- Modelled from the spec: `get_t3_outlet()` of TempSensors.h, which is not
among the sources: the reading of sensor 3, the outlet air. -/
def get_t3_outlet (s : TempSensors) : ℚ := s.t3_.t_

/-- Modelled from the spec: `get_t4_exhaust()` of TempSensors.h, which is not
among the sources: the reading of sensor 4, the exhaust air. -/
def get_t4_exhaust (s : TempSensors) : ℚ := s.t4_.t_

/-- The export condition of `sendMQTT`, lines 176-183, on the incremented tick
counter. -/
def sendMQTT_due (k : TempMqttConfig) (s : TempSensors) : Prop :=
  s.mqtt_ticks_ ≥ k.MaxIntervalMqttTemp ∨ s.force_send_ = true ∨
    (s.mqtt_ticks_ ≥ k.MinIntervalMqttTemp ∧
      (|s.get_t1_outside - s.last_mqtt_t1_| > k.MinDiffMqttTemp ∨
        |s.get_t2_inlet - s.last_mqtt_t2_| > k.MinDiffMqttTemp ∨
        |s.get_t3_outlet - s.last_mqtt_t3_| > k.MinDiffMqttTemp ∨
        |s.get_t4_exhaust - s.last_mqtt_t4_| > k.MinDiffMqttTemp))

instance (k : TempMqttConfig) (s : TempSensors) : Decidable (sendMQTT_due k s) := by
  unfold sendMQTT_due; exact inferInstance

/-- `TempSensors::sendMQTT`, lines 169-199; `r` holds the outcomes of the five
`publish` calls, which are read only when the export takes place. -/
def sendMQTT (k : TempMqttConfig) (r : PublishResults) (s : TempSensors) : TempSensors :=
  let s := { s with mqtt_ticks_ := s.mqtt_ticks_ + 1 }
  if sendMQTT_due k s then
    let s := { s with
      last_mqtt_t1_ := s.get_t1_outside
      last_mqtt_t2_ := s.get_t2_inlet
      last_mqtt_t3_ := s.get_t3_outlet
      last_mqtt_t4_ := s.get_t4_exhaust }
    let s := { s with published := s.published ++
      [TempMessage.KwlTemperaturAussenluft s.last_mqtt_t1_,
        TempMessage.KwlTemperaturZuluft s.last_mqtt_t2_,
        TempMessage.KwlTemperaturAbluft s.last_mqtt_t3_,
        TempMessage.KwlTemperaturFortluft s.last_mqtt_t4_,
        TempMessage.KwlEffiency s.efficiency_] }
    -- NOTE: in case we can't send something, force sending next time
    { s with mqtt_ticks_ := 0, force_send_ := !(r.r1 && r.r2 && r.r3 && r.r4 && r.r5) }
  else s

/-- Lines 116-123 of `TempSensors::run`: the sensor selected by `next_sensor_`
makes one step and `next_sensor_` moves on; the result is `new_temp`. -/
def run_sensor (c : TempSensorConfig) (bus : SensorBus) (s : TempSensors) :
    Bool × TempSensors :=
  match s.next_sensor_ with
  | 0 => ((s.t1_.loop c bus).1, { s with t1_ := (s.t1_.loop c bus).2, next_sensor_ := 1 })
  | 1 => ((s.t2_.loop c bus).1, { s with t2_ := (s.t2_.loop c bus).2, next_sensor_ := 2 })
  | 2 => ((s.t3_.loop c bus).1, { s with t3_ := (s.t3_.loop c bus).2, next_sensor_ := 3 })
  | _ => ((s.t4_.loop c bus).1, { s with t4_ := (s.t4_.loop c bus).2, next_sensor_ := 0 })

/-- Lines 126-133 of `TempSensors::run`: the efficiency computed from the
three readings. -/
def compute_efficiency (outside inlet outlet : ℚ) : Int :=
  let diff_out := outlet - outside
  if |diff_out| > 1 / 10 then
    let diff_in := inlet - outside
    let efficiency := int_of ((100 * diff_in) / diff_out)
    constrain efficiency 0 100
  else 0

/-- `TempSensors::run`, lines 113-137. -/
def run (c : TempSensorConfig) (k : TempMqttConfig) (bus : SensorBus) (r : PublishResults)
    (s : TempSensors) : TempSensors :=
  -- sensor reading handling
  let new_temp := (s.run_sensor c bus).1
  let s := (s.run_sensor c bus).2
  let s :=
    if new_temp ∨ s.force_send_ then
      -- compute efficiency
      { s with efficiency_ :=
          compute_efficiency s.get_t1_outside s.get_t2_inlet s.get_t3_outlet }
    else s
  s.sendMQTT k r

end TempSensors

/-! ## Network client -/

/-- Constants of MQTTTopic.hpp and NetworkClient.h (neither is among the
sources) that the network client uses; they are parameters of the embedding.
`SERIAL_BUFFER_SIZE` is the size of the console line buffer, at least 1. -/
structure NetworkConfig where
  Command : List Char
  CommandDebug : List Char
  SERIAL_BUFFER_SIZE : Nat
deriving DecidableEq, Repr

/-- Interval for checking LAN network OK (10 seconds), in microseconds. -/
def LAN_CHECK_INTERVAL : Nat := 10000000

/-- Interval for reconnecting MQTT (15 seconds), in microseconds. -/
def MQTT_RECONNECT_INTERVAL : Nat := 15000000

/-- Difference of two `unsigned long` values of `micros()`, 32 bits wide. -/
def elapsed (current_time last : Nat) : Nat := (current_time + 4294967296 - last) % 4294967296

/-- Call made by the network client on one of its collaborators. -/
inductive NetEvent where
  /-- `initEthernet(...)`: the link collaborator is asked to bring the link up -/
  | initEthernet
  /-- `timer_task_.cancel()`: the heartbeat task is cancelled -/
  | timerCancel
  /-- `timer_task_.runRepeated(1, MQTT_HEARTBEAT_PERIOD)`: the heartbeat task is armed -/
  | timerRunRepeated
  /-- `ntp_.loop()` -/
  | ntpLoop
  /-- `mqtt_client_.connect(...)` with the client identifier -/
  | mqttConnect (id : List Char)
  /-- `mqtt_client_.subscribe(topic)` -/
  | mqttSubscribe (topic : List Char)
  /-- `mqtt_client_.loop()`: the broker client is polled -/
  | mqttLoop
  /-- `MessageHandler::mqttMessageReceived(topic, payload, length)` -/
  | mqttMessageReceived (topic : List Char) (payload : List Char)
deriving DecidableEq, Repr

/-- What the collaborators answer during one `NetworkClient::loop`; an answer is
read only where the code asks for it. -/
structure Tick where
  /-- `Serial.available()` and, if so, the character `Serial.read()` delivers -/
  serial : Option Char
  /-- `micros()` at the start of the link check -/
  micros : Nat
  /-- `WiFi.status() == WL_CONNECTED` -/
  wifi_connected : Bool
  /-- `mqtt_client_.connected()` in `loop` -/
  connected : Bool
  /-- result of `mqtt_client_.connect(...)` in `mqttConnect` -/
  connect : Bool
  /-- `config_.getMQTTPrefix()` in `mqttConnect` -/
  getMQTTPrefix : List Char
  /-- results of the two `subscribe` calls of `resubscribe` in `mqttConnect` -/
  subscribe_connect : Bool × Bool
  /-- `micros()` at the end of `mqttConnect` -/
  micros_connect : Nat
  /-- `mqtt_client_.connected()` at the end of `mqttConnect` -/
  connected_after : Bool
  /-- results of the two `subscribe` calls of `resubscribe` in `loop` -/
  subscribe_loop : Bool × Bool
deriving DecidableEq, Repr

/-- State of `NetworkClient` with the file-level variables `s_mqtt_prefix` (here
`s_mqtt_prefix_`) and `s_mqtt_prefix_len`. `serial_data_` holds the
`serial_data_size_` characters stored in the line buffer. `wifi_status_` is left out: it is written from
`WiFi.status()` before every read. The trace holds the calls made on the
collaborators so far, oldest first. -/
structure NetworkClient where
  lan_ok_ : Bool
  mqtt_ok_ : Bool
  last_lan_reconnect_attempt_time_ : Nat
  last_mqtt_reconnect_attempt_time_ : Nat
  subscribed_command_ : Bool
  subscribed_debug_ : Bool
  serial_data_ : List Char
  s_mqtt_prefix_ : List Char
  s_mqtt_prefix_len : Nat
  trace : List NetEvent
deriving DecidableEq, Repr

/-- `memcmp(a, b, n) == 0` on the buffers of two C strings, each followed by its
terminating NUL. -/
def memcmp_eq (a b : List Char) (n : Nat) : Bool :=
  (a ++ [Char.ofNat 0]).take n == (b ++ [Char.ofNat 0]).take n

/-- The inbound callback installed by `NetworkClient::begin`, lines 100-121: the
topic handed to `MessageHandler::mqttMessageReceived`, or `none` when the
message is not dispatched. -/
def inbound_callback (p : NetworkConfig) (s_mqtt_prefix_ : List Char) (s_mqtt_prefix_len : Nat)
    (topic : List Char) : Option (List Char) :=
  -- first check whether it's for us
  if memcmp_eq topic s_mqtt_prefix_ s_mqtt_prefix_len then
    let t := topic.drop s_mqtt_prefix_len
    if t.take p.Command.length = p.Command then
      -- yes, it's our command, cut off the leading part
      some (topic.drop (s_mqtt_prefix_len + p.Command.length))
    else if t.take p.CommandDebug.length = p.CommandDebug then
      -- yes, it's our debug command, keep leading '/' to differentiate
      some (topic.drop (s_mqtt_prefix_len + p.CommandDebug.length - 1))
    else none
  else none

namespace NetworkClient

/-- Append a call to the trace. -/
def emit (e : NetEvent) (s : NetworkClient) : NetworkClient :=
  { s with trace := s.trace ++ [e] }

/-- `NetworkClient::resubscribe`, lines 393-410; `r` holds the results of the
two `subscribe` calls. -/
def resubscribe (p : NetworkConfig) (r : Bool × Bool) (s : NetworkClient) : NetworkClient :=
  let buffer := s.s_mqtt_prefix_.take s.s_mqtt_prefix_len
  let s :=
    if !s.subscribed_command_ then
      { s.emit (NetEvent.mqttSubscribe (buffer ++ p.Command ++ ['#'])) with
        subscribed_command_ := r.1 }
    else s
  if !s.subscribed_debug_ then
    { s.emit (NetEvent.mqttSubscribe (buffer ++ p.CommandDebug ++ ['#'])) with
      subscribed_debug_ := r.2 }
  else s

/-- `NetworkClient::mqttConnect`, lines 224-260: the result and the state. -/
def mqttConnect (p : NetworkConfig) (tick : Tick) (s : NetworkClient) :
    Bool × NetworkClient :=
  let s := s.emit (NetEvent.mqttConnect ("kwlClient:".toList ++ tick.getMQTTPrefix))
  let s :=
    if tick.connect then
      -- reset prefix, if it was changed in the meantime
      let s := { s with
        s_mqtt_prefix_ := tick.getMQTTPrefix
        s_mqtt_prefix_len := uint8_t tick.getMQTTPrefix.length }
      -- subscribe
      let s := { s with subscribed_command_ := false, subscribed_debug_ := false }
      let s := s.resubscribe p tick.subscribe_connect
      s.emit NetEvent.timerRunRepeated -- next run should send heartbeat
    else s
  let s := { s with last_mqtt_reconnect_attempt_time_ := tick.micros_connect }
  if tick.connected_after then (true, s)
  else (false, s.emit NetEvent.timerCancel)

/-- The console part of `NetworkClient::loop`, lines 264-293. -/
def loop_serial (p : NetworkConfig) (tick : Tick) (s : NetworkClient) : NetworkClient :=
  match tick.serial with
  | none => s
  | some c =>
    if c.toNat = 10 ∨ c.toNat = 13 then
      -- process command in form <topic> <value>
      if s.serial_data_.length ≠ 0 then
        let line := s.serial_data_.takeWhile (fun c => c ≠ Char.ofNat 0)
        let s :=
          match strchr line ' ' with
          | none => s.emit (NetEvent.mqttMessageReceived line "<no value>".toList)
          | some delim =>
            s.emit (NetEvent.mqttMessageReceived (s.serial_data_.take delim)
              ((s.serial_data_.drop (delim + 1)).dropWhile
                (fun c => c = ' ' ∨ c = Char.ofNat 9)))
        { s with serial_data_ := [] }
      else s
    else if s.serial_data_.length < p.SERIAL_BUFFER_SIZE - 1 then
      { s with serial_data_ := s.serial_data_ ++ [c] }
    else s

/-- The session part of `NetworkClient::loop`, lines 362-389, reached when the
link is up. -/
def loop_session (p : NetworkConfig) (tick : Tick) (s : NetworkClient) : NetworkClient :=
  let current_time := tick.micros
  let s := s.emit NetEvent.ntpLoop
  if s.mqtt_ok_ then
    if !tick.connected then
      let s := s.emit NetEvent.timerCancel
      let s := { (s.mqttConnect p tick).2 with mqtt_ok_ := (s.mqttConnect p tick).1 }
      if !s.mqtt_ok_ then s -- couldn't connect now, cannot continue
      else
        -- Make sure we are subscribed, if after connect we didn't succeed
        (s.resubscribe p tick.subscribe_loop).emit NetEvent.mqttLoop
    else
      -- have MQTT receive messages
      (s.resubscribe p tick.subscribe_loop).emit NetEvent.mqttLoop
  else
    -- no MQTT previously, check if now connected
    if elapsed current_time s.last_mqtt_reconnect_attempt_time_ ≥ MQTT_RECONNECT_INTERVAL then
      -- new reconnect attempt
      let s := { (s.mqttConnect p tick).2 with mqtt_ok_ := (s.mqttConnect p tick).1 }
      if !s.mqtt_ok_ then s
      else (s.resubscribe p tick.subscribe_loop).emit NetEvent.mqttLoop
    else s -- not connected

/-- `NetworkClient::loop`, lines 262-391, with `WIFI_SUPPORT` defined and
`NO_ETHERNET` not defined, as in the source. -/
def loop (p : NetworkConfig) (tick : Tick) (s : NetworkClient) : NetworkClient :=
  let s := s.loop_serial p tick
  let current_time := tick.micros
  if s.lan_ok_ then
    if !tick.wifi_connected then
      let s := { s with lan_ok_ := false }
      let s := s.emit NetEvent.timerCancel
      let s := s.emit NetEvent.initEthernet -- nothing more to do now
      { s with last_lan_reconnect_attempt_time_ := current_time }
    else
      -- have Ethernet, do other checks
      s.loop_session p tick
  else
    -- no Ethernet previously, check if now connected
    if tick.wifi_connected then
      let s := { s with lan_ok_ := true }
      let s := { s with mqtt_ok_ := true } -- to force check and immediate reconnect
      s.loop_session p tick
    else
      -- still no Ethernet
      if elapsed current_time s.last_lan_reconnect_attempt_time_ ≥ LAN_CHECK_INTERVAL then
        -- try reconnecting
        let s := s.emit NetEvent.initEthernet
        { s with last_lan_reconnect_attempt_time_ := current_time }
      else s

/-- `NetworkClient::begin`, lines 78-150, on the object as constructed:
`getMQTTPrefix` is the configured prefix, `t0` and `t1` are the two values of
`micros()`, and `tick` holds the answers for the first `loop`. -/
def begin (p : NetworkConfig) (getMQTTPrefix : List Char) (t0 t1 : Nat) (tick : Tick)
    (s : NetworkClient) : NetworkClient :=
  let s := s.emit NetEvent.initEthernet
  let s := { s with last_lan_reconnect_attempt_time_ := t0 }
  let s := { s with lan_ok_ := true }
  let s := { s with
    s_mqtt_prefix_ := getMQTTPrefix
    s_mqtt_prefix_len := uint8_t getMQTTPrefix.length }
  let s := { s with last_mqtt_reconnect_attempt_time_ := t1 }
  let s := { s with mqtt_ok_ := true }
  s.loop p tick -- first run call here to connect MQTT

end NetworkClient

/-! ## The job of `publishProgramIndex` -/

/-- Modelled from the spec: `MessageHandler::publish(topic, value)` for an
integer value, of MessageHandler.h, which is not among the sources: a numeric
payload is decimal ASCII text. -/
def decimal (x : Int) : List Char :=
  if x < 0 then '-' :: Nat.toDigits 10 x.natAbs else Nat.toDigits 10 x.natAbs

namespace ProgramManager

/-- State captured by the job of `publishProgramIndex`, lines 339-342. -/
structure IndexJob where
  program : Int
  set : Nat
  state : Nat
deriving DecidableEq, Repr

/-- The job that `publishProgramIndex` hands to `prognum_publisher_`, lines
339-342: it captures the current program, the program-set index and state 0. -/
def publishProgramIndex_job (s : ProgramManager) : IndexJob :=
  ⟨s.current_program_, s.getProgramSetIndex, 0⟩

/-- One step of the job of `publishProgramIndex`, lines 343-350; the topics
`KwlProgramIndex` and `KwlProgramSet` are constants of MQTTTopic.hpp, parameters
here. The result is the result of the step (true: complete), the captured state
and the transport. -/
def indexJob_step (KwlProgramIndex KwlProgramSet : List Char) (job : IndexJob)
    (tr : Transport) : Bool × IndexJob × Transport :=
  if job.state = 0 then
    (false,
      if (tr.publish KwlProgramIndex (decimal job.program)).1 then { job with state := 1 }
      else job,
      (tr.publish KwlProgramIndex (decimal job.program)).2)
  else if job.state = 1 then
    ((tr.publish KwlProgramSet (decimal job.set)).1, job,
      (tr.publish KwlProgramSet (decimal job.set)).2)
  else (true, job, tr)

/-- Modelled from the spec: the publish task (`PublishTask`, not among the
sources) polls the installed step function once per tick until it returns
"complete". The job is the one created by `publishProgramIndex` in state `pm`;
`n` is the number of ticks, the first component tells whether the job has
reported completion. -/
def indexJob_poll (KwlProgramIndex KwlProgramSet : List Char) (pm : ProgramManager)
    (outcome : Nat → Bool) : Nat → Bool × IndexJob × Transport
  | 0 => (false, pm.publishProgramIndex_job, ⟨outcome, []⟩)
  | n + 1 =>
    if (indexJob_poll KwlProgramIndex KwlProgramSet pm outcome n).1 = true then
      indexJob_poll KwlProgramIndex KwlProgramSet pm outcome n
    else
      indexJob_step KwlProgramIndex KwlProgramSet
        (indexJob_poll KwlProgramIndex KwlProgramSet pm outcome n).2.1
        (indexJob_poll KwlProgramIndex KwlProgramSet pm outcome n).2.2

end ProgramManager

/-! ## Start of the temperature sensors -/

/-- `TempSensors::TempSensor::start`, TempSensors.cpp lines 38-47: after
`begin`, `setResolution` and `setWaitForConversion` on the bus, the address is
queried; `getAddress` is the answer to that query, `bus` holds the answers
during the call of `loop`. -/
def TempSensor.start (c : TempSensorConfig) (getAddress : Bool) (bus : SensorBus)
    (s : TempSensor) : TempSensor :=
  if !getAddress then { s with state_ := -1 } -- re-request later
  else (s.loop c bus).2 -- initial temperature request

/-- `TempSensors::start`, TempSensors.cpp lines 99-111: the calls of
`TempSensor::start` in the order of the source, each with the answers of its
bus; the registration with the scheduler is not part of the state. -/
def TempSensors.start (c : TempSensorConfig) (a b d e : Bool × SensorBus) (s : TempSensors) :
    TempSensors :=
  -- initialize sensors and request temperature reading at startup
  let s := { s with t1_ := s.t1_.start c a.1 a.2 }
  let s := { s with t1_ := s.t1_.start c b.1 b.2 }
  let s := { s with t2_ := s.t2_.start c d.1 d.2 }
  { s with t4_ := s.t4_.start c e.1 e.2 }

/-! ## The publish jobs for the programs -/

namespace ProgramManager

/-- The topic that `mqttSendProgram` builds in `char topic[len + 8]`, lines
360-366 with line 369 or 378: `KwlProgramData` (a constant of MQTTTopic.hpp of
`len` characters, a parameter here), the index in two digits, a `/`, and the
subtopic with its terminating NUL. The array has room for a subtopic of at most
4 characters; with a longer one the source writes beyond the array, and the
result is `none`. -/
def mqttSendProgram_topic (KwlProgramData : List Char) (index : Nat) (subtopic : List Char) :
    Option (List Char) :=
  if 3 + subtopic.length + 1 ≤ 8 then
    some (KwlProgramData ++ [digitChar (index / 10), digitChar (index % 10), '/'] ++ subtopic)
  else none

/-- `ProgramManager::mqttSendProgram`, lines 354-398: the result, the flag `all`
(passed by reference) and the transport after the call; `none` when the topic
does not fit its array. -/
def mqttSendProgram (k : KWLConfig) (t : MQTTTopic) (KwlProgramData : List Char)
    (pm : ProgramManager) (index : Nat) (all : Bool) (tr : Transport) :
    Option (Bool × Bool × Transport) :=
  if index ≥ k.MaxProgramCount then some (true, all, tr)
  else
    let prog := pm.getProgram index
    if all then
      -- Send enabled flags only
      match mqttSendProgram_topic KwlProgramData index t.SubtopicProgramEnable with
      | none => none
      | some topic =>
        some ((tr.publish topic (maskChars prog.enabled_progsets_ 8)).1, all,
          (tr.publish topic (maskChars prog.enabled_progsets_ 8)).2)
    else
      -- Build program string "HH:MM HH:MM M wwwwwww pppppppp"
      match mqttSendProgram_topic KwlProgramData index t.SubtopicProgramData with
      | none => none
      | some topic =>
        some (false, -- we need to send enable flag
          (tr.publish topic (mqttSendProgram_buffer prog)).1,
          (tr.publish topic (mqttSendProgram_buffer prog)).2)

/-- State captured by the "send all programs" job, lines 194-196. -/
structure SendAllJob where
  i : Nat
  all : Bool
deriving DecidableEq, Repr

/-- The loop `while (i < KWLConfig::MaxProgramCount)` of the "send all programs"
job, lines 197-203, by recursion on `MaxProgramCount - i`: the result of the
job step (true: all sent), the captured state and the transport. -/
def sendAll_while (k : KWLConfig) (t : MQTTTopic) (KwlProgramData : List Char)
    (pm : ProgramManager) :
    Nat → SendAllJob → Transport → Option (Bool × SendAllJob × Transport)
  | 0, job, tr => some (true, job, tr) -- all sent
  | remaining + 1, job, tr =>
    match mqttSendProgram k t KwlProgramData pm job.i job.all tr with
    | none => none
    | some r =>
      if r.1 = false then some (false, ⟨job.i, r.2.1⟩, r.2.2) -- continue next time
      else sendAll_while k t KwlProgramData pm remaining ⟨job.i + 1, false⟩ r.2.2

/-- One step of the "send all programs" job installed by the get/all command,
lines 196-204. -/
def sendAll_step (k : KWLConfig) (t : MQTTTopic) (KwlProgramData : List Char)
    (pm : ProgramManager) (job : SendAllJob) (tr : Transport) :
    Option (Bool × SendAllJob × Transport) :=
  sendAll_while k t KwlProgramData pm (k.MaxProgramCount - job.i) job tr

/-- Modelled from the spec: the publish task (`PublishTask`, not among the
sources) polls the installed step function once per tick until it returns
"complete". The job starts with `i = 0` and `all = false`; `n` is the number
of ticks, the first component tells whether the job has reported completion. -/
def sendAll_poll (k : KWLConfig) (t : MQTTTopic) (KwlProgramData : List Char)
    (pm : ProgramManager) (outcome : Nat → Bool) :
    Nat → Option (Bool × SendAllJob × Transport)
  | 0 => some (false, ⟨0, false⟩, ⟨outcome, []⟩)
  | n + 1 =>
    match sendAll_poll k t KwlProgramData pm outcome n with
    | none => none
    | some r =>
      if r.1 = true then some r
      else sendAll_step k t KwlProgramData pm r.2.1 r.2.2

end ProgramManager

/-! ## The publish task of the program manager -/

/-- A job in flight in `publisher_`, with its captured variables. -/
inductive PublisherJob where
  /-- the "send all programs" job, lines 194-204, with its `i` and `all` -/
  | sendAll (job : ProgramManager.SendAllJob)
  /-- the per-slot job of `publishProgram`, lines 333-334, with its `index` and `all` -/
  | sendProgram (index : Nat) (all : Bool)
deriving DecidableEq, Repr

/-- The job as it is handed to `publisher_.publish`: the "send all programs"
job starts with `i = 0` and `all = false`, the per-slot job with `all = false`. -/
def ProgramJob.install : ProgramJob → PublisherJob
  | ProgramJob.sendAll => PublisherJob.sendAll ⟨0, false⟩
  | ProgramJob.sendProgram index => PublisherJob.sendProgram index false

/-- One call of the step function of a job: the lambda of lines 196-204 or the
lambda of line 334, with the program manager `pm` as the call finds it. -/
def PublisherJob.step (k : KWLConfig) (t : MQTTTopic) (KwlProgramData : List Char)
    (pm : ProgramManager) : PublisherJob → Transport → Option (Bool × PublisherJob × Transport)
  | PublisherJob.sendAll job, tr =>
    match ProgramManager.sendAll_step k t KwlProgramData pm job tr with
    | none => none
    | some r => some (r.1, PublisherJob.sendAll r.2.1, r.2.2)
  | PublisherJob.sendProgram index all, tr =>
    match ProgramManager.mqttSendProgram k t KwlProgramData pm index all tr with
    | none => none
    | some r => some (r.1, PublisherJob.sendProgram index r.2.1, r.2.2)

/-- Modelled from the spec: `PublishTask` of MessageHandler.h, which is not
among the sources: a job slot that holds at most one job in flight. -/
structure PublishTask where
  job : Option PublisherJob
deriving DecidableEq, Repr

/-- Modelled from the spec: `PublishTask::publish`, not among the sources, with
the policy that the spec gives for the program scheduler: the step function is
installed, a per-slot announcement job still in flight is overwritten (discarded
unfinished), and a "send all programs" job still in flight is not interrupted by
a per-slot request, which is rejected. The source hands both kinds of job to
`publisher_.publish` by the same call; how the task tells them apart is not in
the sources. -/
def PublishTask.publish (job : ProgramJob) (task : PublishTask) : PublishTask :=
  match task.job, job with
  | some (PublisherJob.sendAll _), ProgramJob.sendProgram _ => task
  | _, _ => ⟨some job.install⟩

/-- Modelled from the spec: one tick of `PublishTask`, not among the sources:
the installed step function is polled once; when it returns "complete" the slot
is free, otherwise the job stays in flight with its captured state. -/
def PublishTask.poll (k : KWLConfig) (t : MQTTTopic) (KwlProgramData : List Char)
    (pm : ProgramManager) (task : PublishTask) (tr : Transport) :
    Option (PublishTask × Transport) :=
  match task.job with
  | none => some (task, tr)
  | some job =>
    match job.step k t KwlProgramData pm tr with
    | none => none
    | some r => some (if r.1 = true then ⟨none⟩ else ⟨some r.2.1⟩, r.2.2)

/-- What happens to `publisher_`: a tick of the scheduler, with the program
manager as the step function finds it at this tick, or a call of
`publisher_.publish` by the program manager. -/
inductive PublisherAction where
  | tick (pm : ProgramManager)
  | publish (job : ProgramJob)

/-- One action on the publish task and the transport; `none` once a step
function has written beyond its topic array. -/
def PublishTask.act (k : KWLConfig) (t : MQTTTopic) (KwlProgramData : List Char) :
    Option (PublishTask × Transport) → PublisherAction → Option (PublishTask × Transport)
  | none, _ => none
  | some st, PublisherAction.tick pm => st.1.poll k t KwlProgramData pm st.2
  | some st, PublisherAction.publish job => some (st.1.publish job, st.2)

/-- The publish task and the transport after a sequence of actions, first
action first. -/
def PublishTask.run (k : KWLConfig) (t : MQTTTopic) (KwlProgramData : List Char)
    (acts : List PublisherAction) (st : PublishTask × Transport) :
    Option (PublishTask × Transport) :=
  acts.foldl (PublishTask.act k t KwlProgramData) (some st)

/-! ## Properties of `ProgramData::matches` -/

/-- Time-of-day order of the statements, written out on hours, minutes and
seconds: `a` is strictly earlier in the day than `b`. -/
def HMS.before (a b : HMS) : Prop :=
  a.h < b.h ∨ (a.h = b.h ∧ (a.m < b.m ∨ (a.m = b.m ∧ a.s < b.s)))

instance (a b : HMS) : Decidable (a.before b) := by
  unfold HMS.before; exact inferInstance

/-- Time-of-day order of the statements: `a` is not later in the day than `b`. -/
def HMS.notAfter (a b : HMS) : Prop := ¬ b.before a

instance (a b : HMS) : Decidable (a.notAfter b) := by
  unfold HMS.notAfter; exact inferInstance

/-- Start time of a program as a time of day, `HMS start(start_h_, start_m_)`. -/
def ProgramData.start (p : ProgramData) : HMS := ⟨p.start_h_, p.start_m_, 0, 0⟩

/-- End time of a program as a time of day, `HMS end(end_h_, end_m_)`. -/
def ProgramData.stop (p : ProgramData) : HMS := ⟨p.end_h_, p.end_m_, 0, 0⟩

/-- Bit `wd` of the weekday mask of the program is set. -/
def ProgramData.onWeekday (p : ProgramData) (wd : Nat) : Prop :=
  p.weekdays_.testBit wd = true

instance (p : ProgramData) (wd : Nat) : Decidable (p.onWeekday wd) := by
  unfold ProgramData.onWeekday; exact inferInstance

/-! ## Vocabulary of the statements about `ProgramManager::run` -/

namespace ProgramManager

/-- Slot `i` qualifies: it is one of the `MaxProgramCount` slots, bit
`getProgramSetIndex` of its enabled-set mask is set and its program matches the
current time. -/
def Qualifies (k : KWLConfig) (s : ProgramManager) (i : Nat) : Prop :=
  i < k.MaxProgramCount ∧
    (s.getProgram i).enabled_progsets_.testBit s.getProgramSetIndex = true ∧
    (s.getProgram i).matches s.currentTimeHMS = true

instance (k : KWLConfig) (s : ProgramManager) (i : Nat) : Decidable (Qualifies k s i) := by
  unfold Qualifies; exact inferInstance

/-- The index `r` is the highest qualifying slot, or -1 when no slot qualifies. -/
def IsWinner (k : KWLConfig) (s : ProgramManager) (r : Int) : Prop :=
  (r = -1 ∧ ∀ i, ¬ Qualifies k s i) ∨
    (∃ i : Nat, r = (i : Int) ∧ Qualifies k s i ∧ ∀ j, i < j → ¬ Qualifies k s j)

end ProgramManager

/-! ## Vocabulary of the statements about program-data messages -/

/-- The text is exactly `n` characters drawn from `0` and `1`. -/
def IsMaskText (buf : List Char) (n : Nat) : Prop :=
  buf.length = n ∧ ∀ c ∈ buf, c = '0' ∨ c = '1'

instance (buf : List Char) (n : Nat) : Decidable (IsMaskText buf n) := by
  unfold IsMaskText; exact inferInstance

/-- The payload of a program-data message is refused by what `sscanf` delivers
for it: fewer than five items, an hour above 23, a minute above 59, a mode not
below `StandardModeCnt`, or a weekday or program-set item that is not exactly 7
or 8 characters `0` and `1`. The numbers are the `unsigned` values that `%u`
stores, that is the written numbers modulo 2^16; the items are the characters
that `%7s` and `%8s` store. -/
def Refused (k : KWLConfig) (s : List Char) : Prop :=
  (sscanf_FORMAT s).rc < 5 ∨
    (sscanf_FORMAT s).start_h > 23 ∨ (sscanf_FORMAT s).start_m > 59 ∨
    (sscanf_FORMAT s).end_h > 23 ∨ (sscanf_FORMAT s).end_m > 59 ∨
    (sscanf_FORMAT s).mode ≥ k.StandardModeCnt ∨
    ((sscanf_FORMAT s).rc ≥ 6 ∧ ¬ IsMaskText (sscanf_FORMAT s).wd_buf 7) ∨
    ((sscanf_FORMAT s).rc ≥ 7 ∧ ¬ IsMaskText (sscanf_FORMAT s).ps_buf 8)

instance (k : KWLConfig) (s : List Char) : Decidable (Refused k s) := by
  unfold Refused; exact inferInstance

/-! ## Vocabulary of the statements about the temperature sensors -/

/-- Efficiency as the statements describe it: 0 when outlet and outside differ
by at most 0.1, otherwise 100 * (inlet - outside) / (outlet - outside),
truncated toward zero and clamped to 0..100. -/
def efficiencySpec (outside inlet outlet : ℚ) : Int :=
  if |outlet - outside| ≤ 1 / 10 then 0
  else min 100 (max 0 (truncate (100 * (inlet - outside) / (outlet - outside))))

/-- The number truncated toward zero lies in the range of the 16-bit `int` of
the target. -/
def FitsInt (x : ℚ) : Prop := -32768 ≤ truncate x ∧ truncate x ≤ 32767

instance (x : ℚ) : Decidable (FitsInt x) := by
  unfold FitsInt; exact inferInstance

/-- The five messages of one export: the four readings and the efficiency. -/
def TempSensors.exportMessages (s : TempSensors) : List TempMessage :=
  [TempMessage.KwlTemperaturAussenluft s.t1_.t_, TempMessage.KwlTemperaturZuluft s.t2_.t_,
    TempMessage.KwlTemperaturAbluft s.t3_.t_, TempMessage.KwlTemperaturFortluft s.t4_.t_,
    TempMessage.KwlEffiency s.efficiency_]

/-- The export condition as the statements describe it, on the tick counter
after its increment: the maximum interval has elapsed, or the force-send flag
is set, or the minimum interval has elapsed and one of the four readings
differs from its last exported value by more than `MinDiffMqttTemp`. -/
def TempSensors.ExportDue (k : TempMqttConfig) (s : TempSensors) : Prop :=
  s.mqtt_ticks_ + 1 ≥ k.MaxIntervalMqttTemp ∨ s.force_send_ = true ∨
    (s.mqtt_ticks_ + 1 ≥ k.MinIntervalMqttTemp ∧
      (|s.t1_.t_ - s.last_mqtt_t1_| > k.MinDiffMqttTemp ∨
        |s.t2_.t_ - s.last_mqtt_t2_| > k.MinDiffMqttTemp ∨
        |s.t3_.t_ - s.last_mqtt_t3_| > k.MinDiffMqttTemp ∨
        |s.t4_.t_ - s.last_mqtt_t4_| > k.MinDiffMqttTemp))

/-! ## Vocabulary of the statements about the network client -/

/-- The call is a session-level operation on the broker client: a connect, a
subscribe or a poll. -/
def NetEvent.isSession : NetEvent → Bool
  | NetEvent.mqttConnect _ => true
  | NetEvent.mqttSubscribe _ => true
  | NetEvent.mqttLoop => true
  | _ => false

/-- The call is a broker connect. -/
def NetEvent.isConnect : NetEvent → Bool
  | NetEvent.mqttConnect _ => true
  | _ => false

/-- Effect of one call on the heartbeat task: `runRepeated` arms it, `cancel`
disarms it, any other call leaves it as it is. -/
def heartbeatStep (armed : Bool) : NetEvent → Bool
  | NetEvent.timerRunRepeated => true
  | NetEvent.timerCancel => false
  | _ => armed

/-- The heartbeat task is armed after the calls of the trace: the last call on
`timer_task_` is `runRepeated`, not `cancel`. -/
def heartbeatArmed (trace : List NetEvent) : Bool :=
  trace.foldl heartbeatStep false

/-- The subscribe calls that `resubscribe` makes in a state: one for each topic
class that is not subscribed. -/
def NetworkClient.resubscribe_calls (p : NetworkConfig) (s : NetworkClient) : List NetEvent :=
  (if s.subscribed_command_ = false then
      [NetEvent.mqttSubscribe (s.s_mqtt_prefix_.take s.s_mqtt_prefix_len ++ p.Command ++ ['#'])]
    else []) ++
    (if s.subscribed_debug_ = false then
      [NetEvent.mqttSubscribe
        (s.s_mqtt_prefix_.take s.s_mqtt_prefix_len ++ p.CommandDebug ++ ['#'])]
    else [])

/-- The calls that `mqttConnect` makes: the connect; if it succeeds, the two
subscribes under the configured prefix and the arming of the heartbeat task; if
the client does not report connected at the end, the cancelling of that task. -/
def NetworkClient.mqttConnect_calls (p : NetworkConfig) (tick : Tick) : List NetEvent :=
  NetEvent.mqttConnect ("kwlClient:".toList ++ tick.getMQTTPrefix) ::
    ((if tick.connect = true then
        [NetEvent.mqttSubscribe
            (tick.getMQTTPrefix.take (uint8_t tick.getMQTTPrefix.length) ++ p.Command ++ ['#']),
          NetEvent.mqttSubscribe
            (tick.getMQTTPrefix.take (uint8_t tick.getMQTTPrefix.length) ++ p.CommandDebug ++
              ['#']),
          NetEvent.timerRunRepeated]
      else []) ++
      (if tick.connected_after = true then [] else [NetEvent.timerCancel]))

/-- States reachable from `NetworkClient::begin` by `NetworkClient::loop` ticks,
under any answers of the collaborators. -/
inductive NetworkClient.Reachable (p : NetworkConfig) : NetworkClient → Prop where
  | begin (getMQTTPrefix : List Char) (t0 t1 : Nat) (tick : Tick) (s : NetworkClient) :
      NetworkClient.Reachable p (NetworkClient.begin p getMQTTPrefix t0 t1 tick s)
  | loop (tick : Tick) (s : NetworkClient) :
      NetworkClient.Reachable p s → NetworkClient.Reachable p (NetworkClient.loop p tick s)

/-! ## Vocabulary of the statements about the publish jobs -/

/-- The messages of the log that were published successfully, in order. -/
def published_ok (log : List (Message × Bool)) : List Message :=
  (log.filter (fun e => e.2)).map (fun e => e.1)

/-- Every publish call of the log sent the message that follows the ones
published successfully before it: call number `j` sent message number `m`,
where `m` counts the successful calls among the first `j`. -/
def FaithfulLog (msg : Nat → Message) (log : List (Message × Bool)) : Prop :=
  ∀ j e, log[j]? = some e → e.1 = msg (published_ok (log.take j)).length

/-! ## Vocabulary of the statements about the job of `publishProgramIndex` -/

namespace ProgramManager

/-- The message with the active program index and the message with the
program-set index, for the values that the state `pm` holds. -/
def indexJob_message (KwlProgramIndex KwlProgramSet : List Char) (pm : ProgramManager)
    (m : Nat) : Message :=
  if m = 0 then ⟨KwlProgramIndex, decimal pm.current_program_⟩
  else ⟨KwlProgramSet, decimal pm.getProgramSetIndex⟩

end ProgramManager

/-- Number of successful outcomes among the first `n` publish calls. -/
def successes (outcome : Nat → Bool) (n : Nat) : Nat :=
  ((List.range n).filter outcome).length

/-- What holds between the steps of the job of `publishProgramIndex`. -/
def ProgramManager.IndexJobInv (KwlProgramIndex KwlProgramSet : List Char) (pm : ProgramManager)
    (outcome : Nat → Bool) (n : Nat) (r : Bool × ProgramManager.IndexJob × Transport) : Prop :=
  r.2.1.program = pm.current_program_ ∧ r.2.1.set = pm.getProgramSetIndex ∧
    r.2.2.outcome = outcome ∧
    FaithfulLog (ProgramManager.indexJob_message KwlProgramIndex KwlProgramSet pm) r.2.2.log ∧
    (∀ j e, r.2.2.log[j]? = some e → e.2 = outcome j) ∧
    (r.1 = false → r.2.1.state = successes outcome n ∧ r.2.1.state ≤ 1 ∧ r.2.2.log.length = n ∧
      (published_ok r.2.2.log).length = r.2.1.state) ∧
    (r.1 = true → 2 ≤ successes outcome n ∧ (published_ok r.2.2.log).length = 2)

/-! ## Vocabulary of the statements about omitted fields of a program text -/

/-- The program text `HH:MM HH:MM M` without the optional fields: start time,
end time and one digit for the fan mode. -/
def programText (start_h start_m end_h end_m mode : Nat) : List Char :=
  HMS.writeHM ⟨start_h, start_m, 0, 0⟩ ++ ' ' ::
    (HMS.writeHM ⟨end_h, end_m, 0, 0⟩ ++ [' ', digitChar mode])

/-! ## Vocabulary of the statements about the round robin of the sensors -/

/-- Between the states `s` and `s'` sensor number `j` (1 to 4) made one step of
its state machine with the bus answers `bus`, and the other sensors are as they
were. -/
def TempSensors.SteppedOnly (c : TempSensorConfig) (bus : SensorBus) (j : Nat)
    (s s' : TempSensors) : Prop :=
  s'.t1_ = (if j = 1 then (s.t1_.loop c bus).2 else s.t1_) ∧
    s'.t2_ = (if j = 2 then (s.t2_.loop c bus).2 else s.t2_) ∧
    s'.t3_ = (if j = 3 then (s.t3_.loop c bus).2 else s.t3_) ∧
    s'.t4_ = (if j = 4 then (s.t4_.loop c bus).2 else s.t4_)

/-! ## Vocabulary of the statements about the retry counter -/

/-- The step of the state machine in state `s` with the answers `bus` is a
failure: the sensor is waiting for a conversion and either the conversion is
complete with a value not above `DEVICE_DISCONNECTED_C`, or the waiting time
`MAX_WAIT_TIME` is exceeded. -/
def TempSensor.Failure (c : TempSensorConfig) (bus : SensorBus) (s : TempSensor) : Prop :=
  0 < s.state_ ∧
    ((s.state_ ≤ c.MAX_WAIT_TIME ∧ bus.isConversionComplete = true ∧
        bus.getTempC ≤ c.DEVICE_DISCONNECTED_C) ∨
      c.MAX_WAIT_TIME < s.state_)

instance (c : TempSensorConfig) (bus : SensorBus) (s : TempSensor) :
    Decidable (TempSensor.Failure c bus s) := by
  unfold TempSensor.Failure; exact inferInstance

/-- The state of a sensor after the `loop` steps with the given bus answers,
first answer first. -/
def TempSensor.loops (c : TempSensorConfig) (buses : List SensorBus) (s : TempSensor) :
    TempSensor :=
  buses.foldl (fun s bus => (s.loop c bus).2) s

/-- Number of failures among the `loop` steps with the given bus answers. -/
def TempSensor.failures (c : TempSensorConfig) : List SensorBus → TempSensor → Nat
  | [], _ => 0
  | bus :: rest, s =>
    (if TempSensor.Failure c bus s then 1 else 0) + TempSensor.failures c rest (s.loop c bus).2

/-! ## Vocabulary of the statements about the console input -/

/-- The console part of `loop` on a sequence of console characters, one
character per call, first character first. -/
def NetworkClient.feed (p : NetworkConfig) (tick : Tick) (cs : List Char) (s : NetworkClient) :
    NetworkClient :=
  cs.foldl (fun s c => s.loop_serial p { tick with serial := some c }) s

/-- The dispatch of a console line as the statements describe it: nothing for
an empty line; for a line with a space the topic is the text before the first
space and the value the text after it without leading spaces and tabs; for a
line without a space the value is the marker `<no value>` and the topic is the
line, which the message handler reads as a C string, up to its first NUL if it
has one. -/
def consoleDispatch (line : List Char) : List NetEvent :=
  if line = [] then []
  else if ' ' ∈ line then
    [NetEvent.mqttMessageReceived (line.takeWhile (fun c => c ≠ ' '))
      (((line.dropWhile (fun c => c ≠ ' ')).drop 1).dropWhile
        (fun c => c = ' ' ∨ c = Char.ofNat 9))]
  else [NetEvent.mqttMessageReceived (line.takeWhile (fun c => c ≠ Char.ofNat 0))
    "<no value>".toList]

/-! ## Vocabulary of the statements about the "send all programs" job -/

/-- The subtopics for the data record and for the enabled-set mask fit the
array in which `mqttSendProgram` builds the topic: at most 4 characters each. -/
def TopicsFit (t : MQTTTopic) : Prop :=
  t.SubtopicProgramData.length ≤ 4 ∧ t.SubtopicProgramEnable.length ≤ 4

instance (t : MQTTTopic) : Decidable (TopicsFit t) := by
  unfold TopicsFit; exact inferInstance

namespace ProgramManager

/-- The `n`-th message of a complete export of all programs (counted from 0):
the data record of slot `n / 2` for even `n`, the enabled-set mask of slot
`n / 2` for odd `n`. -/
def sendAll_message (t : MQTTTopic) (KwlProgramData : List Char) (pm : ProgramManager)
    (n : Nat) : Message :=
  if n % 2 = 0 then
    ⟨KwlProgramData ++ [digitChar (n / 2 / 10), digitChar (n / 2 % 10), '/'] ++
        t.SubtopicProgramData,
      mqttSendProgram_buffer (pm.getProgram (n / 2))⟩
  else
    ⟨KwlProgramData ++ [digitChar (n / 2 / 10), digitChar (n / 2 % 10), '/'] ++
        t.SubtopicProgramEnable,
      maskChars (pm.getProgram (n / 2)).enabled_progsets_ 8⟩

/-- Position of a job state in the export: two messages per slot, the data
record first. -/
def SendAllJob.position (job : SendAllJob) : Nat :=
  2 * job.i + (if job.all then 1 else 0)

/-- Every publish call of the log sent the message of the export that follows
the ones published successfully before it, for the program table of one of the
program managers `pms` (the states in which the job was polled). -/
def ExportLog (t : MQTTTopic) (KwlProgramData : List Char) (pms : List ProgramManager)
    (log : List (Message × Bool)) : Prop :=
  ∀ j e, log[j]? = some e →
    ∃ pm ∈ pms, e.1 = sendAll_message t KwlProgramData pm (published_ok (log.take j)).length

/-- What holds between the steps of the "send all programs" job: the slot index
is within the table, the second phase is pending only for an existing slot,
every call of the log sent the next message of the export, the job stands at
the position after the messages published successfully, and the log records the
outcomes of the transport. -/
def SendAllInv (k : KWLConfig) (t : MQTTTopic) (KwlProgramData : List Char)
    (pms : List ProgramManager) (job : SendAllJob) (tr : Transport) : Prop :=
  job.i ≤ k.MaxProgramCount ∧ (job.all = true → job.i < k.MaxProgramCount) ∧
    ExportLog t KwlProgramData pms tr.log ∧ (published_ok tr.log).length = job.position ∧
    ∀ j e, tr.log[j]? = some e → e.2 = tr.outcome j

end ProgramManager

/-! ## Vocabulary of the statements about the publish task -/

/-- The action is a tick of the scheduler. -/
def PublisherAction.isTick : PublisherAction → Bool
  | PublisherAction.tick _ => true
  | PublisherAction.publish _ => false

/-- The program managers that the ticks of a sequence of actions find, in
order. -/
def ticksOf (acts : List PublisherAction) : List ProgramManager :=
  acts.filterMap (fun a =>
    match a with
    | PublisherAction.tick pm => some pm
    | PublisherAction.publish _ => none)

/-- A "send all programs" job is in flight in the publish task. -/
def PublishTask.sendAllInFlight (task : PublishTask) : Bool :=
  match task.job with
  | some (PublisherJob.sendAll _) => true
  | _ => false

/-! ## Sample values -/

/-- A configuration with 16 program slots, 4 fan modes and default mode 1. -/
def sampleConfig : KWLConfig := ⟨16, 4, 1⟩

/-- A program manager before its first run, at 12:00:00 on weekday 3 with
program set 1 selected: the slots 2 and 5 hold a program 06:00-22:00 for every
weekday, enabled in set 1 only, with fan mode 2 and 3; every other slot holds
the empty program 00:00-00:00. -/
def sampleManager : ProgramManager where
  current_program_ := -2
  getProgram := fun i =>
    if i = 2 then ⟨6, 0, 22, 0, 2, 0x7f, 0x02, 0⟩
    else if i = 5 then ⟨6, 0, 22, 0, 3, 0x7f, 0x02, 0⟩
    else ⟨0, 0, 0, 0, 0, 0x7f, 0xff, 0⟩
  getProgramSetIndex := 1
  hasTime := true
  currentTimeHMS := ⟨12, 0, 0, 3⟩
  trace := []

/-- Topic constants used in the sample messages. -/
def sampleTopics : MQTTTopic where
  CmdSetProgramSet := "SetProgramSet".toList
  CmdSetProgram := "SetProgram/".toList
  SubtopicProgramGet := "get".toList
  SubtopicProgramData := "data".toList
  SubtopicProgramEnable := "enable".toList

/-- Sensor constants used in the sample values: at most 5 retries, 3 steps of
waiting, -127 for an invalid reading and for a disconnected device. -/
def sampleSensorConfig : TempSensorConfig := ⟨3, 5, -127, -127⟩

/-- Export constants used in the sample values: export at the latest every 60
ticks, at the earliest every 5 ticks, for a change of more than 0.5. -/
def sampleTempMqttConfig : TempMqttConfig := ⟨60, 5, 1 / 2⟩

/-- Answers of a sensor bus whose conversion is not complete. -/
def busConversionPending : SensorBus := ⟨true, false, 0⟩

/-- Temperature sensors with sensor 1 due next, all sensors idle with the
readings 5, 15, 20 and 8, the force-send flag set, one tick since the last
export of the same readings. -/
def sampleSensors : TempSensors where
  t1_ := ⟨0, 0, 5⟩
  t2_ := ⟨0, 0, 15⟩
  t3_ := ⟨0, 0, 20⟩
  t4_ := ⟨0, 0, 8⟩
  next_sensor_ := 0
  force_send_ := true
  efficiency_ := 0
  mqtt_ticks_ := 1
  last_mqtt_t1_ := 5
  last_mqtt_t2_ := 15
  last_mqtt_t3_ := 20
  last_mqtt_t4_ := 8
  published := []

/-- Network constants used in the sample values. -/
def sampleNetworkConfig : NetworkConfig where
  Command := "/cmd/".toList
  CommandDebug := "/cmddebug/".toList
  SERIAL_BUFFER_SIZE := 64

/-- A network client as constructed: flags down, empty line buffer, no calls. -/
def sampleNetworkClient : NetworkClient where
  lan_ok_ := false
  mqtt_ok_ := false
  last_lan_reconnect_attempt_time_ := 0
  last_mqtt_reconnect_attempt_time_ := 0
  subscribed_command_ := false
  subscribed_debug_ := false
  serial_data_ := []
  s_mqtt_prefix_ := []
  s_mqtt_prefix_len := 0
  trace := []

/-- Answers of a tick at time 2000000 on which the link is not connected. -/
def tickLinkDown : Tick where
  serial := none
  micros := 2000000
  wifi_connected := false
  connected := false
  connect := false
  getMQTTPrefix := "kwl".toList
  subscribe_connect := (false, false)
  micros_connect := 2000100
  connected_after := false
  subscribe_loop := (false, false)

/-- Answers of a tick at time 3000000 on which the link is connected and the
broker client reports that it is connected. -/
def tickLinkUpClientConnected : Tick where
  serial := none
  micros := 3000000
  wifi_connected := true
  connected := true
  connect := true
  getMQTTPrefix := "kwl".toList
  subscribe_connect := (true, true)
  micros_connect := 3000100
  connected_after := true
  subscribe_loop := (true, true)

/-- Answers of a tick at time 3000000 on which the link is connected, the
broker client reports that it is not connected, and the connect succeeds. -/
def tickLinkUpClientDisconnected : Tick where
  serial := none
  micros := 3000000
  wifi_connected := true
  connected := false
  connect := true
  getMQTTPrefix := "kwl".toList
  subscribe_connect := (true, true)
  micros_connect := 3000100
  connected_after := true
  subscribe_loop := (true, true)

/-- A network client that was started with link and broker available, so that
the session is up and the heartbeat task armed, and then lost the link on a
tick at time 5000000. -/
def sampleLinkLost : NetworkClient :=
  NetworkClient.loop sampleNetworkConfig { tickLinkDown with micros := 5000000 }
    (NetworkClient.begin sampleNetworkConfig "kwl".toList 1000000 1500000
      tickLinkUpClientDisconnected sampleNetworkClient)

/-- The sample program manager after its first evaluation: slot 5 is active. -/
def sampleManagerRunning : ProgramManager := ProgramManager.run sampleConfig sampleManager

/-- Answers of a sensor bus whose conversion is complete with the reading of a
disconnected device. -/
def busReadFailure : SensorBus := ⟨true, true, -127⟩

/-- Sensor constants with a single retry: 3 steps of waiting, -127 for an
invalid reading and for a disconnected device. -/
def sampleSingleRetryConfig : TempSensorConfig := ⟨3, 1, -127, -127⟩

/-- Four steps on a bus that delivers the reading of a disconnected device: an
idle sensor requests a conversion, fails to read it, gets its address again and
requests the next conversion. -/
def busesOneFailure : List SensorBus :=
  [busReadFailure, busReadFailure, busReadFailure, busReadFailure]

/-- A configuration with 2 program slots, 4 fan modes and default mode 1. -/
def sampleConfigTwoSlots : KWLConfig := ⟨2, 4, 1⟩

/-- Temperature sensors like `sampleSensors` with the readings 10 outside, 60
at the inlet and 10.125 at the outlet. -/
def sampleSensorsHotInlet : TempSensors :=
  { sampleSensors with t1_ := ⟨0, 0, 10⟩, t2_ := ⟨0, 0, 60⟩, t3_ := ⟨0, 0, 81 / 8⟩ }

/-- Topic constants whose subtopics fit the topic array of `mqttSendProgram`. -/
def sampleShortTopics : MQTTTopic where
  CmdSetProgramSet := "SetProgramSet".toList
  CmdSetProgram := "SetProgram/".toList
  SubtopicProgramGet := "get".toList
  SubtopicProgramData := "data".toList
  SubtopicProgramEnable := "en".toList

/-- Five ticks of the scheduler with two per-slot requests between them. -/
def sampleActions : List PublisherAction :=
  [PublisherAction.tick sampleManager, PublisherAction.publish (ProgramJob.sendProgram 1),
    PublisherAction.tick sampleManager, PublisherAction.publish (ProgramJob.sendProgram 0),
    PublisherAction.tick sampleManager, PublisherAction.tick sampleManager,
    PublisherAction.tick sampleManager]

/-! # Theorems -/

/-! ## Time-of-day comparison -/

theorem HMS.compareTime_neg_iff (a b : HMS) : a.compareTime b < 0 ↔ a.before b := by
  unfold HMS.compareTime HMS.before
  split_ifs <;> omega

theorem HMS.compareTime_pos_iff (a b : HMS) : a.compareTime b > 0 ↔ b.before a := by
  unfold HMS.compareTime HMS.before
  split_ifs <;> omega

theorem HMS.compareTime_nonneg_iff (a b : HMS) : a.compareTime b ≥ 0 ↔ b.notAfter a := by
  unfold HMS.notAfter
  rw [← HMS.compareTime_neg_iff]
  omega

theorem HMS.notAfter_of_before {a b : HMS} (h : a.before b) : a.notAfter b := by
  unfold HMS.notAfter HMS.before at *
  omega

/-! ## Weekday bits -/

theorem uint8_t_bit (wd : Nat) (h : wd ≤ 7) : uint8_t (1 <<< wd) = 2 ^ wd := by
  unfold uint8_t
  interval_cases wd <;> rfl

theorem and_two_pow_eq_zero_iff (w k : Nat) : w &&& 2 ^ k = 0 ↔ w.testBit k = false := by
  rw [Nat.and_two_pow]
  cases w.testBit k <;> simp

theorem weekday_bit_iff (p : ProgramData) (wd : Nat) (h : wd ≤ 7) :
    ¬ (p.weekdays_ &&& uint8_t (1 <<< wd) = 0) ↔ p.onWeekday wd := by
  rw [uint8_t_bit wd h, and_two_pow_eq_zero_iff]
  unfold ProgramData.onWeekday
  cases p.weekdays_.testBit wd <;> simp

/-- The bit tested in the early-morning segment of a midnight-crossing program:
the weekday bit shifted left by one, bit 7 wrapped to bit 0. -/
theorem shifted_bit (wd : Nat) (h : wd ≤ 6) :
    (if uint8_t (uint8_t (1 <<< wd) <<< 1) = 0x80 then 1
      else uint8_t (uint8_t (1 <<< wd) <<< 1)) = 2 ^ ((wd + 1) % 7) := by
  unfold uint8_t
  interval_cases wd <;> rfl

/-! ## `ProgramData::matches` -/

theorem ProgramData.matches_def (p : ProgramData) (hms : HMS) :
    p.matches hms =
      if p.start.compareTime p.stop > 0 then
        if hms.compareTime p.start ≥ 0 then
          if p.weekdays_ &&& uint8_t (1 <<< hms.wd) = 0 then false else true
        else if hms.compareTime p.stop < 0 then
          if p.weekdays_ &&& (if uint8_t (uint8_t (1 <<< hms.wd) <<< 1) = 0x80 then 1
              else uint8_t (uint8_t (1 <<< hms.wd) <<< 1)) = 0 then false else true
        else false
      else
        if hms.compareTime p.start < 0 ∨ hms.compareTime p.stop ≥ 0 then false
        else if p.weekdays_ &&& uint8_t (1 <<< hms.wd) = 0 then false else true := rfl

/-- What `matches` computes, case by case, in terms of the time-of-day order
and of the bits of the weekday mask. -/
theorem ProgramData.matches_eq (p : ProgramData) (hms : HMS) (hwd : hms.wd ≤ 6) :
    p.matches hms = true ↔
      if p.stop.before p.start then
        (p.start.notAfter hms ∧ p.onWeekday hms.wd) ∨
        (hms.before p.start ∧ hms.before p.stop ∧ p.onWeekday ((hms.wd + 1) % 7))
      else
        p.start.notAfter hms ∧ hms.before p.stop ∧ p.onWeekday hms.wd := by
  have e1 : (p.weekdays_ &&& uint8_t (1 <<< hms.wd) = 0) ↔ ¬ p.onWeekday hms.wd := by
    rw [← weekday_bit_iff p hms.wd (by omega), not_not]
  have e2 : (p.weekdays_ &&& (if uint8_t (uint8_t (1 <<< hms.wd) <<< 1) = 0x80 then 1
      else uint8_t (uint8_t (1 <<< hms.wd) <<< 1)) = 0) ↔
      ¬ p.onWeekday ((hms.wd + 1) % 7) := by
    rw [shifted_bit hms.wd hwd, and_two_pow_eq_zero_iff]
    unfold ProgramData.onWeekday
    cases p.weekdays_.testBit ((hms.wd + 1) % 7) <;> simp
  rw [ProgramData.matches_def]
  simp only [e1, e2, HMS.compareTime_pos_iff, HMS.compareTime_nonneg_iff,
    HMS.compareTime_neg_iff, gt_iff_lt]
  clear e1 e2 hwd
  have h6 : p.start.notAfter hms ↔ ¬ hms.before p.start := Iff.rfl
  have h7 : p.stop.notAfter hms ↔ ¬ hms.before p.stop := Iff.rfl
  simp only [h6, h7]
  clear h6 h7
  by_cases hA : hms.before p.start <;> by_cases hB : hms.before p.stop <;>
    by_cases hC : p.stop.before p.start <;> by_cases hD : p.onWeekday hms.wd <;>
    by_cases hE : p.onWeekday ((hms.wd + 1) % 7) <;> simp [hA, hB, hC, hD, hE]

/-- What the early-morning branch of a midnight-crossing program tests: the bit
of the weekday after the current one. -/
theorem ProgramData.matches_early_morning (p : ProgramData) (hms : HMS)
    (hcross : p.stop.before p.start) (hwd : hms.wd ≤ 6) (hearly : hms.before p.stop) :
    p.matches hms = true ↔ p.onWeekday ((hms.wd + 1) % 7) := by
  rw [ProgramData.matches_eq p hms hwd, if_pos hcross]
  have h1 : hms.before p.start := by
    unfold HMS.before at *
    omega
  have h2 : ¬ p.start.notAfter hms := fun h => h h1
  simp [h1, h2, hearly]

/-- C1: for a program whose start is not later than its end and a current time
with weekday 0..6, `matches` is true exactly when start <= now < end and bit
`wd` of the weekday mask is set. -/
theorem matches_normal_window (p : ProgramData) (hms : HMS)
    (hwin : p.start.notAfter p.stop) (hwd : hms.wd ≤ 6) :
    p.matches hms = true ↔
      (p.start.notAfter hms ∧ hms.before p.stop ∧ p.onWeekday hms.wd) := by
  rw [ProgramData.matches_eq p hms hwd, if_neg hwin]

theorem matches_normal_window_witness :
    (ProgramData.mk 8 0 10 30 1 0x05 0xff 0).start.notAfter
        (ProgramData.mk 8 0 10 30 1 0x05 0xff 0).stop ∧
      (HMS.mk 9 15 20 2).wd ≤ 6 ∧
      ((ProgramData.mk 8 0 10 30 1 0x05 0xff 0).matches (HMS.mk 9 15 20 2) = true ↔
        ((ProgramData.mk 8 0 10 30 1 0x05 0xff 0).start.notAfter (HMS.mk 9 15 20 2) ∧
          (HMS.mk 9 15 20 2).before (ProgramData.mk 8 0 10 30 1 0x05 0xff 0).stop ∧
          (ProgramData.mk 8 0 10 30 1 0x05 0xff 0).onWeekday (HMS.mk 9 15 20 2).wd)) :=
  ⟨by decide, by decide,
    matches_normal_window (ProgramData.mk 8 0 10 30 1 0x05 0xff 0) (HMS.mk 9 15 20 2)
      (by decide) (by decide)⟩

/-- C2 (the code at the failing input): whichever number `m` in 0..6 Monday has,
the program 22:00-06:00 enabled on Monday only does not match at 05:00 on the
day numbered `m + 1` modulo 7, which is Tuesday. -/
theorem matches_monday_night_tuesday_morning :
    ∀ m : Fin 7,
      (ProgramData.mk 22 0 6 0 1 (1 <<< m.val) 0xff 0).matches
        (HMS.mk 5 0 0 ((m.val + 1) % 7)) = false := by
  decide

/-- C3: for a midnight-crossing program, at a time not before the start
`matches` is true exactly when the bit of the current weekday is set, and at a
time from the end on and before the start it is false. -/
theorem matches_midnight_late_night (p : ProgramData) (hms : HMS)
    (hcross : p.stop.before p.start) (hwd : hms.wd ≤ 6) :
    (p.start.notAfter hms → (p.matches hms = true ↔ p.onWeekday hms.wd)) ∧
    (p.stop.notAfter hms → hms.before p.start → p.matches hms = false) := by
  constructor
  · intro hlate
    rw [ProgramData.matches_eq p hms hwd, if_pos hcross]
    have h1 : ¬ hms.before p.start := hlate
    simp [hlate, h1]
  · intro hge hlt
    rw [← Bool.not_eq_true, ProgramData.matches_eq p hms hwd, if_pos hcross]
    have h1 : ¬ p.start.notAfter hms := fun h => h hlt
    have h2 : ¬ hms.before p.stop := hge
    simp [h1, h2]

theorem matches_midnight_late_night_witness :
    (ProgramData.mk 22 0 6 0 1 0x01 0xff 0).stop.before
        (ProgramData.mk 22 0 6 0 1 0x01 0xff 0).start ∧
      (HMS.mk 23 0 0 0).wd ≤ 6 ∧
      (ProgramData.mk 22 0 6 0 1 0x01 0xff 0).matches (HMS.mk 23 0 0 0) = true ∧
      ((ProgramData.mk 22 0 6 0 1 0x01 0xff 0).start.notAfter (HMS.mk 23 0 0 0) →
        ((ProgramData.mk 22 0 6 0 1 0x01 0xff 0).matches (HMS.mk 23 0 0 0) = true ↔
          (ProgramData.mk 22 0 6 0 1 0x01 0xff 0).onWeekday (HMS.mk 23 0 0 0).wd)) ∧
      ((ProgramData.mk 22 0 6 0 1 0x01 0xff 0).stop.notAfter (HMS.mk 23 0 0 0) →
        (HMS.mk 23 0 0 0).before (ProgramData.mk 22 0 6 0 1 0x01 0xff 0).start →
        (ProgramData.mk 22 0 6 0 1 0x01 0xff 0).matches (HMS.mk 23 0 0 0) = false) :=
  ⟨by decide, by decide, by decide,
    matches_midnight_late_night (ProgramData.mk 22 0 6 0 1 0x01 0xff 0) (HMS.mk 23 0 0 0)
      (by decide) (by decide)⟩

/-- C4 as stated fails for a program whose start and end time coincide: the
program 08:00-08:00 on all weekdays does not match at 08:00, its start time,
although hours and minutes are valid and the weekday bit is set. -/
theorem matches_at_start_of_empty_window :
    (ProgramData.mk 8 0 8 0 1 0x7f 0xff 0).start_h_ ≤ 23 ∧
      (ProgramData.mk 8 0 8 0 1 0x7f 0xff 0).start_m_ ≤ 59 ∧
      (ProgramData.mk 8 0 8 0 1 0x7f 0xff 0).end_h_ ≤ 23 ∧
      (ProgramData.mk 8 0 8 0 1 0x7f 0xff 0).end_m_ ≤ 59 ∧
      (ProgramData.mk 8 0 8 0 1 0x7f 0xff 0).onWeekday (HMS.mk 8 0 0 0).wd ∧
      (HMS.mk 8 0 0 0).h = (ProgramData.mk 8 0 8 0 1 0x7f 0xff 0).start_h_ ∧
      (HMS.mk 8 0 0 0).m = (ProgramData.mk 8 0 8 0 1 0x7f 0xff 0).start_m_ ∧
      (HMS.mk 8 0 0 0).s = 0 ∧
      (ProgramData.mk 8 0 8 0 1 0x7f 0xff 0).matches (HMS.mk 8 0 0 0) = false := by
  decide

/-- C4 (amended): for every program and every current weekday 0..6 whose bit is
set in the weekday mask, `matches` is true at the start time (any second of
that minute) provided start and end time differ, and false at the end time
(any second of that minute). -/
theorem matches_window_boundaries (p : ProgramData) (hms : HMS)
    (hwd : hms.wd ≤ 6) (hbit : p.onWeekday hms.wd) :
    (hms.h = p.start_h_ → hms.m = p.start_m_ →
      (p.start_h_ ≠ p.end_h_ ∨ p.start_m_ ≠ p.end_m_) → p.matches hms = true) ∧
    (hms.h = p.end_h_ → hms.m = p.end_m_ → p.matches hms = false) := by
  constructor
  · intro hh hm hne
    rw [ProgramData.matches_eq p hms hwd]
    have h1 : p.start.notAfter hms := by
      unfold HMS.notAfter HMS.before ProgramData.start
      simp only [hh, hm]
      omega
    by_cases hc : p.stop.before p.start
    · rw [if_pos hc]
      exact Or.inl ⟨h1, hbit⟩
    · rw [if_neg hc]
      refine ⟨h1, ?_, hbit⟩
      unfold HMS.before ProgramData.start ProgramData.stop at *
      simp only [hh, hm] at *
      omega
  · intro hh hm
    rw [← Bool.not_eq_true, ProgramData.matches_eq p hms hwd]
    have h1 : ¬ hms.before p.stop := by
      unfold HMS.before ProgramData.stop
      simp only [hh, hm]
      omega
    by_cases hc : p.stop.before p.start
    · rw [if_pos hc]
      have h2 : hms.before p.start := by
        unfold HMS.before ProgramData.start ProgramData.stop at *
        simp only [hh, hm] at *
        omega
      have h3 : ¬ p.start.notAfter hms := fun h => h h2
      simp [h1, h3]
    · rw [if_neg hc]
      simp [h1]

theorem matches_window_boundaries_witness :
    (HMS.mk 22 0 30 0).wd ≤ 6 ∧
      (ProgramData.mk 22 0 6 0 1 0x01 0xff 0).onWeekday (HMS.mk 22 0 30 0).wd ∧
      (ProgramData.mk 22 0 6 0 1 0x01 0xff 0).matches (HMS.mk 22 0 30 0) = true ∧
      ((HMS.mk 22 0 30 0).h = (ProgramData.mk 22 0 6 0 1 0x01 0xff 0).start_h_ →
        (HMS.mk 22 0 30 0).m = (ProgramData.mk 22 0 6 0 1 0x01 0xff 0).start_m_ →
        ((ProgramData.mk 22 0 6 0 1 0x01 0xff 0).start_h_ ≠
            (ProgramData.mk 22 0 6 0 1 0x01 0xff 0).end_h_ ∨
          (ProgramData.mk 22 0 6 0 1 0x01 0xff 0).start_m_ ≠
            (ProgramData.mk 22 0 6 0 1 0x01 0xff 0).end_m_) →
        (ProgramData.mk 22 0 6 0 1 0x01 0xff 0).matches (HMS.mk 22 0 30 0) = true) ∧
      ((HMS.mk 22 0 30 0).h = (ProgramData.mk 22 0 6 0 1 0x01 0xff 0).end_h_ →
        (HMS.mk 22 0 30 0).m = (ProgramData.mk 22 0 6 0 1 0x01 0xff 0).end_m_ →
        (ProgramData.mk 22 0 6 0 1 0x01 0xff 0).matches (HMS.mk 22 0 30 0) = false) :=
  ⟨by decide, by decide, by decide,
    matches_window_boundaries (ProgramData.mk 22 0 6 0 1 0x01 0xff 0) (HMS.mk 22 0 30 0)
      (by decide) (by decide)⟩

/-! ## `ProgramManager::run` -/

theorem int8_t_of_small (i : Nat) (h : i ≤ 127) : int8_t (i : Int) = (i : Int) := by
  unfold int8_t
  omega

theorem unsigned_of_small (i : Nat) (h : i ≤ 127) : unsigned (i : Int) = i := by
  unfold unsigned
  omega

theorem is_enabled_iff (p : ProgramData) (set : Nat) (h : set ≤ 7) :
    p.is_enabled (uint8_t (1 <<< set)) = true ↔ p.enabled_progsets_.testBit set = true := by
  unfold ProgramData.is_enabled
  rw [uint8_t_bit set h]
  have := and_two_pow_eq_zero_iff p.enabled_progsets_ set
  cases hb : p.enabled_progsets_.testBit set <;> simp_all

/-- The scan keeps the last index on which the test succeeds. -/
theorem scan_last (q : Nat → Bool) (n : Nat) :
    let r := (List.range n).foldl (fun program i => if q i then int8_t i else program) (-1)
    (r = -1 ∧ ∀ i, i < n → q i = false) ∨
      (∃ i, i < n ∧ r = int8_t i ∧ q i = true ∧ ∀ j, i < j → j < n → q j = false) := by
  induction n with
  | zero => left; simp
  | succ n ih =>
    simp only [List.range_succ, List.foldl_append, List.foldl_cons, List.foldl_nil] at ih ⊢
    by_cases hq : q n = true
    · right
      refine ⟨n, by omega, by simp [hq], hq, ?_⟩
      intro j h1 h2
      omega
    · have hq2 : q n = false := by simpa using hq
      rw [if_neg hq]
      rcases ih with ⟨hr, hall⟩ | ⟨i, hi, hr, hqi, hall⟩
      · left
        refine ⟨hr, ?_⟩
        intro i hi
        by_cases hin : i = n
        · rw [hin]; exact hq2
        · exact hall i (by omega)
      · right
        refine ⟨i, by omega, hr, hqi, ?_⟩
        intro j h1 h2
        by_cases hjn : j = n
        · rw [hjn]; exact hq2
        · exact hall j h1 (by omega)

/-- The loop of `run` computes the highest qualifying slot. -/
theorem ProgramManager.run_program_isWinner (k : KWLConfig) (s : ProgramManager)
    (hN : k.MaxProgramCount ≤ 127) (hset : s.getProgramSetIndex ≤ 7) :
    ProgramManager.IsWinner k s (ProgramManager.run_program k s) := by
  have hq : ∀ i, ((s.getProgram i).is_enabled (uint8_t (1 <<< s.getProgramSetIndex)) &&
      (s.getProgram i).matches s.currentTimeHMS) = true ↔
      ((s.getProgram i).enabled_progsets_.testBit s.getProgramSetIndex = true ∧
        (s.getProgram i).matches s.currentTimeHMS = true) := by
    intro i
    rw [Bool.and_eq_true, is_enabled_iff _ _ hset]
  have h := scan_last (fun i => (s.getProgram i).is_enabled
      (uint8_t (1 <<< s.getProgramSetIndex)) && (s.getProgram i).matches s.currentTimeHMS)
    k.MaxProgramCount
  unfold ProgramManager.IsWinner ProgramManager.Qualifies
  change _ ∨ _ at h
  rcases h with ⟨hr, hall⟩ | ⟨i, hi, hr, hqi, hall⟩
  · left
    refine ⟨hr, ?_⟩
    rintro i ⟨hi, hrest⟩
    have := hall i hi
    rw [(hq i).mpr hrest] at this
    exact Bool.noConfusion this
  · right
    refine ⟨i, ?_, ⟨hi, (hq i).mp hqi⟩, ?_⟩
    · rw [← int8_t_of_small i (by omega)]; exact hr
    · rintro j hij ⟨hj, hrest⟩
      have := hall j hij hj
      rw [(hq j).mpr hrest] at this
      exact Bool.noConfusion this

/-- A winner is determined by the qualifying slots. -/
theorem ProgramManager.IsWinner.unique {k : KWLConfig} {s : ProgramManager} {r r' : Int}
    (h : ProgramManager.IsWinner k s r) (h' : ProgramManager.IsWinner k s r') : r = r' := by
  rcases h with ⟨hr, hall⟩ | ⟨i, hr, hqi, hall⟩ <;>
    rcases h' with ⟨hr', hall'⟩ | ⟨i', hr', hqi', hall'⟩
  · rw [hr, hr']
  · exact absurd hqi' (hall i')
  · exact absurd hqi (hall' i)
  · rcases Nat.lt_trichotomy i i' with hlt | heq | hgt
    · exact absurd hqi' (hall i' hlt)
    · rw [hr, hr', heq]
    · exact absurd hqi (hall' i hgt)

theorem ProgramManager.run_current_program (k : KWLConfig) (s : ProgramManager)
    (ht : s.hasTime = true) :
    (ProgramManager.run k s).current_program_ = ProgramManager.run_program k s := by
  unfold ProgramManager.run
  simp only [ht, Bool.not_true, Bool.false_eq_true, if_false]
  by_cases h : ProgramManager.run_program k s ≠ s.current_program_
  · rw [if_pos h]
    rfl
  · rw [if_neg h]
    exact (not_not.mp h).symm

/-- C5: with a valid time source and a program-set index in 0..7, `run` leaves
the active program index at the highest slot below `MaxProgramCount` whose
program is enabled for the set and matches the current time, or at -1 when no
slot qualifies; when exactly the slots 2 and 5 qualify it becomes 5. -/
theorem run_selects_highest_slot (k : KWLConfig) (s : ProgramManager)
    (hN : k.MaxProgramCount ≤ 127) (hset : s.getProgramSetIndex ≤ 7)
    (ht : s.hasTime = true) :
    ProgramManager.IsWinner k s (ProgramManager.run k s).current_program_ ∧
      ((∀ i, ProgramManager.Qualifies k s i ↔ (i = 2 ∨ i = 5)) →
        (ProgramManager.run k s).current_program_ = 5) := by
  have hw : ProgramManager.IsWinner k s (ProgramManager.run k s).current_program_ := by
    rw [ProgramManager.run_current_program k s ht]
    exact ProgramManager.run_program_isWinner k s hN hset
  refine ⟨hw, ?_⟩
  intro h25
  have h5 : ProgramManager.IsWinner k s 5 := by
    right
    refine ⟨5, rfl, (h25 5).mpr (Or.inr rfl), ?_⟩
    intro j hj hq
    have := (h25 j).mp hq
    omega
  exact hw.unique h5

theorem run_selects_highest_slot_witness :
    sampleConfig.MaxProgramCount ≤ 127 ∧
      sampleManager.getProgramSetIndex ≤ 7 ∧
      sampleManager.hasTime = true ∧
      (ProgramManager.run sampleConfig sampleManager).current_program_ = 5 ∧
      ProgramManager.IsWinner sampleConfig sampleManager
        (ProgramManager.run sampleConfig sampleManager).current_program_ :=
  ⟨by decide, by decide, rfl, by decide,
    (run_selects_highest_slot sampleConfig sampleManager (by decide) (by decide) rfl).1⟩

/-- C6: with a valid time source, if the highest qualifying slot `w` (-1 when
there is none) differs from the active index, `run` makes exactly one
`setVentilationMode` call, with the fan mode of program `w` or with
`StandardKwlMode` when no slot qualifies, hands the index job to its publisher
and sets the active index to `w`; if `w` equals the active index, `run` changes
nothing: no actuator call, no publish job, same active index. -/
theorem run_applies_winner (k : KWLConfig) (s : ProgramManager) (w : Int)
    (hN : k.MaxProgramCount ≤ 127) (hset : s.getProgramSetIndex ≤ 7)
    (ht : s.hasTime = true) (hw : ProgramManager.IsWinner k s w) :
    (w ≠ s.current_program_ →
      ∃ mode : Nat,
        ProgramManager.run k s =
          { s with
            current_program_ := w
            trace := s.trace ++
              [Event.setVentilationMode mode, Event.publishIndex w s.getProgramSetIndex] } ∧
        ((∀ i, ¬ ProgramManager.Qualifies k s i) → mode = k.StandardKwlMode) ∧
        (∀ i : Nat, w = (i : Int) → mode = (s.getProgram i).fan_mode_)) ∧
    (w = s.current_program_ → ProgramManager.run k s = s) := by
  have hwr : ProgramManager.run_program k s = w :=
    (ProgramManager.run_program_isWinner k s hN hset).unique hw
  constructor
  · intro hne
    have hne2 : ProgramManager.run_program k s ≠ s.current_program_ := by rw [hwr]; exact hne
    rcases hw with ⟨hr, hall⟩ | ⟨i, hr, hqi, hall⟩
    · refine ⟨k.StandardKwlMode, ?_, fun _ => rfl, ?_⟩
      · unfold ProgramManager.run
        simp only [ht, Bool.not_true, Bool.false_eq_true, if_false]
        rw [if_pos hne2, hwr, hr]
        simp [ProgramManager.publishProgramIndex, ProgramManager.setVentilationMode, ht]
      · intro i hi
        omega
    · refine ⟨(s.getProgram i).fan_mode_, ?_, ?_, ?_⟩
      · unfold ProgramManager.run
        simp only [ht, Bool.not_true, Bool.false_eq_true, if_false]
        rw [if_pos hne2, hwr, hr]
        have hi : i ≤ 127 := by
          have := hqi.1
          omega
        rw [unsigned_of_small i hi]
        simp [ProgramManager.publishProgramIndex, ProgramManager.setVentilationMode, ht]
      · intro hnone
        exact absurd hqi (hnone i)
      · intro i' hi'
        have : i = i' := by omega
        rw [this]
  · intro heq
    unfold ProgramManager.run
    simp only [ht, Bool.not_true, Bool.false_eq_true, if_false]
    rw [hwr, if_neg (not_not.mpr heq)]

theorem run_applies_winner_witness :
    sampleConfig.MaxProgramCount ≤ 127 ∧
      sampleManager.getProgramSetIndex ≤ 7 ∧
      sampleManager.hasTime = true ∧
      ProgramManager.IsWinner sampleConfig sampleManager 5 ∧
      (ProgramManager.run sampleConfig sampleManager).trace =
        [Event.setVentilationMode 3, Event.publishIndex 5 1] ∧
      ((5 : Int) ≠ sampleManager.current_program_ →
        ∃ mode : Nat,
          ProgramManager.run sampleConfig sampleManager =
            { sampleManager with
              current_program_ := 5
              trace := sampleManager.trace ++
                [Event.setVentilationMode mode,
                  Event.publishIndex 5 sampleManager.getProgramSetIndex] } ∧
          ((∀ i, ¬ ProgramManager.Qualifies sampleConfig sampleManager i) →
            mode = sampleConfig.StandardKwlMode) ∧
          (∀ i : Nat, (5 : Int) = (i : Int) → mode = (sampleManager.getProgram i).fan_mode_)) ∧
      ((5 : Int) = sampleManager.current_program_ →
        ProgramManager.run sampleConfig sampleManager = sampleManager) :=
  have hw : ProgramManager.IsWinner sampleConfig sampleManager 5 :=
    (show ProgramManager.run_program sampleConfig sampleManager = 5 by decide) ▸
      ProgramManager.run_program_isWinner sampleConfig sampleManager (by decide) (by decide)
  ⟨by decide, by decide, rfl, hw, by decide,
    run_applies_winner sampleConfig sampleManager 5 (by decide) (by decide) rfl hw⟩

/-! ## `ProgramManager::setProgram` and `ProgramManager::enableProgram` -/

/-- The two outcomes of `run`: nothing changes, or the mode is set, the active
index replaced and the index job published. -/
theorem ProgramManager.run_cases (k : KWLConfig) (s : ProgramManager) :
    ProgramManager.run k s = s ∨
      ∃ mode : Nat, ProgramManager.run k s =
        { s with
          current_program_ := ProgramManager.run_program k s
          trace := s.trace ++ [Event.setVentilationMode mode,
            Event.publishIndex (ProgramManager.run_program k s) s.getProgramSetIndex] } := by
  unfold ProgramManager.run
  by_cases ht : s.hasTime = true
  · simp only [ht, Bool.not_true, Bool.false_eq_true, if_false]
    by_cases hne : ProgramManager.run_program k s ≠ s.current_program_
    · rw [if_pos hne]
      right
      by_cases hp : ProgramManager.run_program k s ≥ 0
      · rw [if_pos hp]
        exact ⟨(s.getProgram (unsigned (ProgramManager.run_program k s))).fan_mode_, by
          simp [ProgramManager.publishProgramIndex, ProgramManager.setVentilationMode, ht]⟩
      · rw [if_neg hp]
        exact ⟨k.StandardKwlMode, by
          simp [ProgramManager.publishProgramIndex, ProgramManager.setVentilationMode, ht]⟩
    · rw [if_neg hne]
      exact Or.inl rfl
  · left
    simp [ht]

theorem ProgramManager.run_trace (k : KWLConfig) (s : ProgramManager) :
    ∃ l, (ProgramManager.run k s).trace = s.trace ++ l := by
  rcases ProgramManager.run_cases k s with h | ⟨mode, h⟩
  · exact ⟨[], by rw [h]; simp⟩
  · exact ⟨_, by rw [h]⟩

theorem ProgramManager.run_getProgramSetIndex (k : KWLConfig) (s : ProgramManager) :
    (ProgramManager.run k s).getProgramSetIndex = s.getProgramSetIndex := by
  rcases ProgramManager.run_cases k s with h | ⟨mode, h⟩ <;> rw [h]

theorem ProgramManager.run_getProgram (k : KWLConfig) (s : ProgramManager) :
    (ProgramManager.run k s).getProgram = s.getProgram := by
  rcases ProgramManager.run_cases k s with h | ⟨mode, h⟩ <;> rw [h]

/-- An index above `MaxProgramCount` is rejected by `setProgram`. -/
theorem ProgramManager.setProgram_of_gt (k : KWLConfig) (index : Nat) (program : ProgramData)
    (s : ProgramManager) (h : index > k.MaxProgramCount) :
    ProgramManager.setProgram k index program s = s := by
  unfold ProgramManager.setProgram
  rw [if_pos h]

/-- An index above `MaxProgramCount` is rejected by `enableProgram`. -/
theorem ProgramManager.enableProgram_of_gt (k : KWLConfig) (index : Nat) (progsetmask : Nat)
    (s : ProgramManager) (h : index > k.MaxProgramCount) :
    ProgramManager.enableProgram k index progsetmask s = s := by
  unfold ProgramManager.enableProgram
  rw [if_pos h]

/-- C9 (the code at the failing input): for the index `MaxProgramCount`, which
is not a slot index, `setProgram` and `enableProgram` do call the persistence
collaborator and go on to install publish jobs. -/
theorem setProgram_enableProgram_at_MaxProgramCount (k : KWLConfig) (program : ProgramData)
    (progsetmask : Nat) (s : ProgramManager) :
    (∃ l, (ProgramManager.setProgram k k.MaxProgramCount program s).trace =
        s.trace ++ Event.configSetProgram k.MaxProgramCount program :: l ++
          [Event.publish (ProgramJob.sendProgram k.MaxProgramCount),
            Event.publishIndex
              (ProgramManager.setProgram k k.MaxProgramCount program s).current_program_
              s.getProgramSetIndex]) ∧
    (∃ l, (ProgramManager.enableProgram k k.MaxProgramCount progsetmask s).trace =
        s.trace ++ Event.configEnableProgram k.MaxProgramCount progsetmask :: l ++
          [Event.publish (ProgramJob.sendProgram k.MaxProgramCount)]) := by
  constructor
  · unfold ProgramManager.setProgram
    rw [if_neg (lt_irrefl _)]
    simp only []
    split_ifs
    · obtain ⟨l, hl⟩ := ProgramManager.run_trace k
        { ProgramManager.config_setProgram k.MaxProgramCount program s with
          current_program_ := -1 }
      refine ⟨l, ?_⟩
      simp only [ProgramManager.publishProgramIndex, ProgramManager.publishProgram, hl,
        ProgramManager.run_getProgramSetIndex]
      simp [ProgramManager.config_setProgram]
    · obtain ⟨l, hl⟩ := ProgramManager.run_trace k
        (ProgramManager.config_setProgram k.MaxProgramCount program s)
      refine ⟨l, ?_⟩
      simp only [ProgramManager.publishProgramIndex, ProgramManager.publishProgram, hl,
        ProgramManager.run_getProgramSetIndex]
      simp [ProgramManager.config_setProgram]
  · unfold ProgramManager.enableProgram
    rw [if_neg (lt_irrefl _)]
    simp only []
    split_ifs
    · obtain ⟨l, hl⟩ := ProgramManager.run_trace k
        { ProgramManager.config_enableProgram k.MaxProgramCount progsetmask s with
          current_program_ := -1 }
      refine ⟨l, ?_⟩
      simp only [ProgramManager.publishProgram, hl]
      simp [ProgramManager.config_enableProgram]
    · obtain ⟨l, hl⟩ := ProgramManager.run_trace k
        (ProgramManager.config_enableProgram k.MaxProgramCount progsetmask s)
      refine ⟨l, ?_⟩
      simp only [ProgramManager.publishProgram, hl]
      simp [ProgramManager.config_enableProgram]

/-! ## Text form of a program: writing and scanning -/

theorem digitChar_facts : ∀ d, d < 10 →
    isdigit (digitChar d) = true ∧ isspace (digitChar d) = false ∧
    (digitChar d).toNat - 48 = d ∧ digitChar d ≠ '-' ∧ digitChar d ≠ '+' ∧ digitChar d ≠ ':' := by
  decide

theorem scan_u_two_digits (a b : Nat) (c : Char) (rest : List Char)
    (ha : a < 10) (hb : b < 10) (hc : isdigit c = false) :
    scan_u (digitChar a :: digitChar b :: c :: rest) = some (10 * a + b, c :: rest) := by
  obtain ⟨a1, a2, a3, a4, a5, a6⟩ := digitChar_facts a ha
  obtain ⟨b1, b2, b3, b4, b5, b6⟩ := digitChar_facts b hb
  unfold scan_u
  simp [List.dropWhile_cons, List.takeWhile_cons, a1, a2, a4, a5, b1, b2, hc, digitsValue, a3, b3,
    unsigned]
  omega

theorem scan_u_one_digit (a : Nat) (c : Char) (rest : List Char)
    (ha : a < 10) (hc : isdigit c = false) :
    scan_u (digitChar a :: c :: rest) = some (a, c :: rest) := by
  obtain ⟨a1, a2, a3, a4, a5, a6⟩ := digitChar_facts a ha
  unfold scan_u
  simp [List.dropWhile_cons, List.takeWhile_cons, a1, a2, a4, a5, hc, digitsValue, a3, unsigned]
  omega

theorem maskChars_length (mask n : Nat) : (maskChars mask n).length = n := by
  simp [maskChars]

theorem maskChars_not_space (mask n : Nat) : ∀ c ∈ maskChars mask n, isspace c = false := by
  intro c hc
  simp only [maskChars, List.mem_map] at hc
  obtain ⟨i, _, hi⟩ := hc
  split_ifs at hi <;> rw [← hi] <;> decide

theorem scan_s_token (width : Nat) (token rest : List Char)
    (hne : token ≠ []) (hlen : token.length ≤ width)
    (htok : ∀ c ∈ token, isspace c = false)
    (hrest : rest = [] ∨ ∃ c r, rest = c :: r ∧ isspace c = true) :
    scan_s width (token ++ rest) = some (token, rest) := by
  have hdrop : (token ++ rest).dropWhile isspace = token ++ rest := by
    cases token with
    | nil => exact absurd rfl hne
    | cons c cs =>
      have := htok c (List.mem_cons_self _ _)
      simp [List.dropWhile_cons, this]
  have htake : (token ++ rest).takeWhile (fun c => !isspace c) = token := by
    rw [List.takeWhile_append_of_pos]
    · rcases hrest with h | ⟨c, r, h, hc⟩
      · simp [h]
      · simp [h, List.takeWhile_cons, hc]
    · intro c hc
      simp [htok c hc]
  unfold scan_s
  simp only [hdrop, htake]
  rw [List.take_of_length_le hlen]
  simp [hne]

theorem parse_mask_maskChars_7 : ∀ w, w < 128 → parse_mask (maskChars w 7) 7 = some w := by
  decide

set_option maxRecDepth 8192 in
theorem parse_mask_maskChars_8 : ∀ w, w < 256 → parse_mask (maskChars w 8) 8 = some w := by
  decide

theorem maskChars_ne_nil (mask n : Nat) (h : 0 < n) : maskChars mask n ≠ [] := by
  intro h0
  have := maskChars_length mask n
  rw [h0] at this
  simp at this
  omega

theorem dropWhile_isspace_token (token rest : List Char) (hne : token ≠ [])
    (htok : ∀ c ∈ token, isspace c = false) :
    (token ++ rest).dropWhile isspace = token ++ rest := by
  cases token with
  | nil => exact absurd rfl hne
  | cons c cs =>
    have := htok c (List.mem_cons_self _ _)
    simp [List.dropWhile_cons, this]

theorem two_digits (n : Nat) : 10 * (n / 10) + n % 10 = n := by omega

theorem sscanf_FORMAT_buffer (p : ProgramData)
    (hsh : p.start_h_ ≤ 23) (hsm : p.start_m_ ≤ 59) (heh : p.end_h_ ≤ 23) (hem : p.end_m_ ≤ 59)
    (hmode : p.fan_mode_ ≤ 9) :
    sscanf_FORMAT (mqttSendProgram_buffer p) =
      ⟨7, p.start_h_, p.start_m_, p.end_h_, p.end_m_, p.fan_mode_,
        maskChars p.weekdays_ 7, maskChars p.enabled_progsets_ 8⟩ := by
  have hcolon : isdigit ':' = false := by decide
  have hblank : isdigit ' ' = false := by decide
  have hsp : isspace ' ' = true := by decide
  have d1 := digitChar_facts (p.end_h_ / 10) (by omega)
  have d2 := digitChar_facts p.fan_mode_ (by omega)
  have hwd : (' ' :: (maskChars p.weekdays_ 7 ++ ' ' :: maskChars p.enabled_progsets_ 8)).dropWhile
      isspace = maskChars p.weekdays_ 7 ++ ' ' :: maskChars p.enabled_progsets_ 8 := by
    rw [List.dropWhile_cons, if_pos hsp]
    exact dropWhile_isspace_token _ _ (maskChars_ne_nil _ _ (by omega)) (maskChars_not_space _ _)
  have hps : (' ' :: maskChars p.enabled_progsets_ 8).dropWhile isspace =
      maskChars p.enabled_progsets_ 8 ++ [] := by
    rw [List.dropWhile_cons, if_pos hsp]
    have := dropWhile_isspace_token (maskChars p.enabled_progsets_ 8) []
      (maskChars_ne_nil _ _ (by omega)) (maskChars_not_space _ _)
    simpa using this
  have hs7 := scan_s_token 7 (maskChars p.weekdays_ 7) (' ' :: maskChars p.enabled_progsets_ 8)
    (maskChars_ne_nil _ _ (by omega)) (by rw [maskChars_length]) (maskChars_not_space _ _)
    (Or.inr ⟨' ', _, rfl, hsp⟩)
  have hs8 := scan_s_token 8 (maskChars p.enabled_progsets_ 8) []
    (maskChars_ne_nil _ _ (by omega)) (by rw [maskChars_length]) (maskChars_not_space _ _)
    (Or.inl rfl)
  unfold sscanf_FORMAT mqttSendProgram_buffer HMS.writeHM
  simp only [List.cons_append, List.nil_append]
  rw [scan_u_two_digits _ _ _ _ (by omega) (by omega) hcolon]
  simp only [ne_eq, not_true_eq_false, if_false]
  rw [scan_u_two_digits _ _ _ _ (by omega) (by omega) hblank]
  simp only [List.dropWhile_cons, hsp, if_true, d1.2.1, Bool.false_eq_true, if_false]
  rw [scan_u_two_digits _ _ _ _ (by omega) (by omega) hcolon]
  simp only [ne_eq, not_true_eq_false, if_false]
  rw [scan_u_two_digits _ _ _ _ (by omega) (by omega) hblank]
  simp only [List.dropWhile_cons, hsp, if_true, d2.2.1, Bool.false_eq_true, if_false]
  rw [scan_u_one_digit _ _ _ (by omega) hblank]
  simp only []
  rw [hwd, hs7]
  simp only []
  rw [hps, hs8]
  simp only [two_digits]

theorem uint8_t_of_small (n : Nat) (h : n < 256) : uint8_t n = n := by
  unfold uint8_t
  omega

/-- Parsing the text built for a valid record gives the record back. -/
theorem parse_program_buffer (k : KWLConfig) (p : ProgramData)
    (hsh : p.start_h_ ≤ 23) (hsm : p.start_m_ ≤ 59) (heh : p.end_h_ ≤ 23) (hem : p.end_m_ ≤ 59)
    (hmode : p.fan_mode_ < k.StandardModeCnt) (hdigit : p.fan_mode_ ≤ 9)
    (hwd : p.weekdays_ < 128) (hps : p.enabled_progsets_ < 256) (hres : p.reserved_ = 0) :
    parse_program k true (mqttSendProgram_buffer p) = some p := by
  unfold parse_program
  simp only [sscanf_FORMAT_buffer p hsh hsm heh hem hdigit]
  rw [if_neg (by simp), if_neg (by omega), if_neg (by omega), if_neg (by omega)]
  simp only [ge_iff_le, Nat.reduceLeDiff, if_true, le_refl]
  rw [parse_mask_maskChars_7 _ hwd, parse_mask_maskChars_8 _ hps]
  simp only []
  rw [uint8_t_of_small _ (by omega), uint8_t_of_small _ (by omega),
    uint8_t_of_small _ (by omega), uint8_t_of_small _ (by omega),
    uint8_t_of_small _ (by omega), ← hres]

/-! ## `ProgramManager::mqttReceiveMsg`, program-data messages -/

theorem indexOf_slash (index_str sub : List Char) (h : '/' ∉ index_str) :
    (index_str ++ '/' :: sub).indexOf '/' = index_str.length := by
  induction index_str with
  | nil => simp [List.indexOf_cons]
  | cons c cs ih =>
    have hne : c ≠ '/' := fun hc => h (by rw [hc]; exact List.mem_cons_self _ _)
    have hcs : '/' ∉ cs := fun hc => h (List.mem_cons_of_mem _ hc)
    have hb : (c == '/') = false := by simpa using hne
    simp only [List.cons_append, List.indexOf_cons, hb, cond_false, List.length_cons]
    rw [ih hcs]

theorem strchr_slash (index_str sub : List Char) (h : '/' ∉ index_str) :
    strchr (index_str ++ '/' :: sub) '/' = some index_str.length := by
  unfold strchr
  have hc : (index_str ++ '/' :: sub).contains '/' = true := by simp
  rw [if_pos hc, indexOf_slash _ _ h]

/-- The handler on a message `<CmdSetProgram><index>/<data>`: it returns true,
and the state is left alone or handed to `setProgram` as the payload parses. -/
theorem ProgramManager.mqttReceiveMsg_data (k : KWLConfig) (t : MQTTTopic)
    (pm : ProgramManager) (index_str s : List Char)
    (hset : t.CmdSetProgram ++ index_str ++ '/' :: t.SubtopicProgramData ≠ t.CmdSetProgramSet)
    (hslash : '/' ∉ index_str)
    (hget : t.SubtopicProgramData ≠ t.SubtopicProgramGet) :
    ProgramManager.mqttReceiveMsg k t
        (t.CmdSetProgram ++ index_str ++ '/' :: t.SubtopicProgramData) s pm =
      match parse_program k
          (valid_index k (index_str ++ '/' :: t.SubtopicProgramData) index_str.length) s with
      | none => (true, pm)
      | some prog =>
        (true, pm.setProgram k (decode_index (index_str ++ '/' :: t.SubtopicProgramData)) prog) := by
  unfold ProgramManager.mqttReceiveMsg
  rw [if_neg hset]
  have htake : (t.CmdSetProgram ++ index_str ++ '/' :: t.SubtopicProgramData).take
      t.CmdSetProgram.length = t.CmdSetProgram := by
    rw [List.append_assoc, List.take_left]
  have hdrop : (t.CmdSetProgram ++ index_str ++ '/' :: t.SubtopicProgramData).drop
      t.CmdSetProgram.length = index_str ++ '/' :: t.SubtopicProgramData := by
    rw [List.append_assoc, List.drop_left]
  rw [if_neg (by rw [htake]; simp), hdrop]
  dsimp only
  rw [strchr_slash _ _ hslash]
  have hsub : (index_str ++ '/' :: t.SubtopicProgramData).drop (index_str.length + 1) =
      t.SubtopicProgramData := by
    rw [← List.drop_drop, List.drop_left]
    rfl
  simp only [hsub, hget, if_false, if_true]

/-- C7: for a record with hours up to 23, minutes up to 59, a fan mode below
`StandardModeCnt` that is one decimal digit, a 7-bit weekday mask, an 8-bit
program-set mask and reserved field 0, the program-data branch of
`mqttReceiveMsg` parses the text that `mqttSendProgram` builds for the record
into the same record, and hands that record to `setProgram` for the slot named
in the topic. -/
theorem program_text_roundtrip (k : KWLConfig) (t : MQTTTopic) (pm : ProgramManager)
    (index_str : List Char) (p : ProgramData)
    (hset : t.CmdSetProgram ++ index_str ++ '/' :: t.SubtopicProgramData ≠ t.CmdSetProgramSet)
    (hslash : '/' ∉ index_str)
    (hget : t.SubtopicProgramData ≠ t.SubtopicProgramGet)
    (hvalid : valid_index k (index_str ++ '/' :: t.SubtopicProgramData) index_str.length = true)
    (hsh : p.start_h_ ≤ 23) (hsm : p.start_m_ ≤ 59) (heh : p.end_h_ ≤ 23) (hem : p.end_m_ ≤ 59)
    (hmode : p.fan_mode_ < k.StandardModeCnt) (hdigit : p.fan_mode_ ≤ 9)
    (hwd : p.weekdays_ < 128) (hps : p.enabled_progsets_ < 256) (hres : p.reserved_ = 0) :
    parse_program k true (mqttSendProgram_buffer p) = some p ∧
      ProgramManager.mqttReceiveMsg k t
          (t.CmdSetProgram ++ index_str ++ '/' :: t.SubtopicProgramData)
          (mqttSendProgram_buffer p) pm =
        (true, pm.setProgram k (decode_index (index_str ++ '/' :: t.SubtopicProgramData)) p) := by
  have hp := parse_program_buffer k p hsh hsm heh hem hmode hdigit hwd hps hres
  refine ⟨hp, ?_⟩
  rw [ProgramManager.mqttReceiveMsg_data k t pm index_str _ hset hslash hget, hvalid, hp]

theorem program_text_roundtrip_witness :
    sampleTopics.CmdSetProgram ++ ['0', '3'] ++ '/' :: sampleTopics.SubtopicProgramData ≠
        sampleTopics.CmdSetProgramSet ∧
      '/' ∉ ['0', '3'] ∧
      sampleTopics.SubtopicProgramData ≠ sampleTopics.SubtopicProgramGet ∧
      valid_index sampleConfig (['0', '3'] ++ '/' :: sampleTopics.SubtopicProgramData)
        ['0', '3'].length = true ∧
      (ProgramData.mk 8 5 23 59 3 0x15 0x81 0).start_h_ ≤ 23 ∧
      (ProgramData.mk 8 5 23 59 3 0x15 0x81 0).start_m_ ≤ 59 ∧
      (ProgramData.mk 8 5 23 59 3 0x15 0x81 0).end_h_ ≤ 23 ∧
      (ProgramData.mk 8 5 23 59 3 0x15 0x81 0).end_m_ ≤ 59 ∧
      (ProgramData.mk 8 5 23 59 3 0x15 0x81 0).fan_mode_ < sampleConfig.StandardModeCnt ∧
      (ProgramData.mk 8 5 23 59 3 0x15 0x81 0).fan_mode_ ≤ 9 ∧
      (ProgramData.mk 8 5 23 59 3 0x15 0x81 0).weekdays_ < 128 ∧
      (ProgramData.mk 8 5 23 59 3 0x15 0x81 0).enabled_progsets_ < 256 ∧
      (ProgramData.mk 8 5 23 59 3 0x15 0x81 0).reserved_ = 0 ∧
      mqttSendProgram_buffer (ProgramData.mk 8 5 23 59 3 0x15 0x81 0) =
        "08:05 23:59 3 1010100 10000001".toList ∧
      decode_index (['0', '3'] ++ '/' :: sampleTopics.SubtopicProgramData) = 3 ∧
      (parse_program sampleConfig true
          (mqttSendProgram_buffer (ProgramData.mk 8 5 23 59 3 0x15 0x81 0)) =
          some (ProgramData.mk 8 5 23 59 3 0x15 0x81 0) ∧
        ProgramManager.mqttReceiveMsg sampleConfig sampleTopics
            (sampleTopics.CmdSetProgram ++ ['0', '3'] ++ '/' :: sampleTopics.SubtopicProgramData)
            (mqttSendProgram_buffer (ProgramData.mk 8 5 23 59 3 0x15 0x81 0)) sampleManager =
          (true, sampleManager.setProgram sampleConfig
            (decode_index (['0', '3'] ++ '/' :: sampleTopics.SubtopicProgramData))
            (ProgramData.mk 8 5 23 59 3 0x15 0x81 0))) :=
  ⟨by decide, by decide, by decide, by decide, by decide, by decide, by decide, by decide,
    by decide, by decide, by decide, by decide, rfl, by decide, by decide,
    program_text_roundtrip sampleConfig sampleTopics sampleManager ['0', '3']
      (ProgramData.mk 8 5 23 59 3 0x15 0x81 0)
      (by decide) (by decide) (by decide) (by decide) (by decide) (by decide) (by decide)
      (by decide) (by decide) (by decide) (by decide) (by decide) rfl⟩

theorem parse_mask_succ (buf : List Char) (n : Nat) :
    parse_mask buf (n + 1) =
      match parse_mask buf n with
      | none => none
      | some mask =>
        if buf.getD n (Char.ofNat 0) = '0' then some mask
        else if buf.getD n (Char.ofNat 0) = '1' then some (mask ||| uint8_t (1 <<< n))
        else none := by
  unfold parse_mask
  rw [List.range_succ, List.foldl_append]
  rfl

/-- A mask is parsed only from a text whose first `n` characters are `0` or `1`. -/
theorem parse_mask_chars (buf : List Char) (n : Nat) (mask : Nat)
    (h : parse_mask buf n = some mask) :
    ∀ i, i < n → buf.getD i (Char.ofNat 0) = '0' ∨ buf.getD i (Char.ofNat 0) = '1' := by
  induction n generalizing mask with
  | zero => intro i hi; omega
  | succ n ih =>
    rw [parse_mask_succ] at h
    cases hn : parse_mask buf n with
    | none => rw [hn] at h; exact Option.noConfusion h
    | some m =>
      rw [hn] at h
      intro i hi
      by_cases hin : i = n
      · rw [hin]
        by_cases h0 : buf.getD n (Char.ofNat 0) = '0'
        · exact Or.inl h0
        · by_cases h1 : buf.getD n (Char.ofNat 0) = '1'
          · exact Or.inr h1
          · simp only [h0, h1, if_false] at h
            exact Option.noConfusion h
      · exact ih m hn i (by omega)

/-- A text of at most `n` characters from which a mask of `n` bits is parsed
consists of exactly `n` characters `0` and `1`. -/
theorem isMaskText_of_parse_mask (buf : List Char) (n : Nat) (mask : Nat)
    (hlen : buf.length ≤ n) (h : parse_mask buf n = some mask) : IsMaskText buf n := by
  have hch := parse_mask_chars buf n mask h
  have hn : n ≤ buf.length := by
    by_contra hlt
    have hlt2 : buf.length < n := by omega
    have := hch buf.length hlt2
    rw [List.getD_eq_default _ _ (le_refl _)] at this
    revert this
    decide
  refine ⟨by omega, ?_⟩
  intro c hc
  obtain ⟨i, hi, hget⟩ := List.getElem_of_mem hc
  have := hch i (by omega)
  rw [List.getD_eq_getElem _ _ hi, hget] at this
  exact this

theorem scan_s_length (width : Nat) (s token rest : List Char)
    (h : scan_s width s = some (token, rest)) : token.length ≤ width := by
  unfold scan_s at h
  simp only [] at h
  split_ifs at h
  simp only [Option.some.injEq, Prod.mk.injEq] at h
  rw [← h.1, List.length_take]
  omega

/-- The weekday and program-set items that `sscanf` stores fit the field
widths 7 and 8 of the format. -/
theorem sscanf_FORMAT_widths (s : List Char) :
    (sscanf_FORMAT s).wd_buf.length ≤ 7 ∧ (sscanf_FORMAT s).ps_buf.length ≤ 8 := by
  unfold sscanf_FORMAT
  repeat' split
  all_goals
    dsimp only
    constructor <;> first
      | exact Nat.zero_le _
      | (apply scan_s_length 7; assumption)
      | (apply scan_s_length 8; assumption)

theorem parse_mask_none_of_not_isMaskText (buf : List Char) (n : Nat)
    (hlen : buf.length ≤ n) (h : ¬ IsMaskText buf n) : parse_mask buf n = none := by
  cases hp : parse_mask buf n with
  | none => rfl
  | some mask => exact absurd (isMaskText_of_parse_mask buf n mask hlen hp) h

/-- A refused payload yields no program record. -/
theorem parse_program_refused (k : KWLConfig) (valid : Bool) (s : List Char)
    (h : Refused k s) : parse_program k valid s = none := by
  unfold parse_program
  dsimp only
  by_cases h1 : (sscanf_FORMAT s).rc < 5 ∨ valid = false
  · rw [if_pos h1]
  rw [if_neg h1]
  by_cases h2 : (sscanf_FORMAT s).start_h > 23 ∨ (sscanf_FORMAT s).start_m > 59
  · rw [if_pos h2]
  rw [if_neg h2]
  by_cases h3 : (sscanf_FORMAT s).end_h > 23 ∨ (sscanf_FORMAT s).end_m > 59
  · rw [if_pos h3]
  rw [if_neg h3]
  by_cases h4 : (sscanf_FORMAT s).mode ≥ k.StandardModeCnt
  · rw [if_pos h4]
  rw [if_neg h4]
  have hw := sscanf_FORMAT_widths s
  unfold Refused at h
  rcases h with h | h | h | h | h | h | ⟨h6, hm⟩ | ⟨h7, hm⟩
  · exact absurd (Or.inl h) h1
  · exact absurd (Or.inl h) h2
  · exact absurd (Or.inr h) h2
  · exact absurd (Or.inl h) h3
  · exact absurd (Or.inr h) h3
  · exact absurd h h4
  · rw [if_pos h6, parse_mask_none_of_not_isMaskText _ _ hw.1 hm]
  · rw [if_pos h7, parse_mask_none_of_not_isMaskText _ _ hw.2 hm]
    cases (if (sscanf_FORMAT s).rc ≥ 6 then parse_mask (sscanf_FORMAT s).wd_buf 7
      else some 0x7f) <;> rfl

theorem TempSensor.retry_of_lt (c : TempSensorConfig) (s : TempSensor)
    (h : s.retry_count_ < c.MAX_RETRIES) :
    TempSensor.retry c s = { s with retry_count_ := s.retry_count_ + 1, state_ := -1 } := by
  unfold TempSensor.retry
  rw [if_neg (by omega)]

theorem TempSensor.retry_of_ge (c : TempSensorConfig) (s : TempSensor)
    (h : s.retry_count_ ≥ c.MAX_RETRIES) :
    TempSensor.retry c s = { s with t_ := c.INVALID, state_ := -1 } := by
  unfold TempSensor.retry
  rw [if_pos h]

/-- While the counter stays within `MAX_RETRIES`, every `retry` adds one to it
and keeps the stored reading. -/
theorem TempSensor.retry_iterate_count (c : TempSensorConfig) (s : TempSensor) (n : Nat)
    (h : s.retry_count_ + n ≤ c.MAX_RETRIES) :
    ((TempSensor.retry c)^[n] s).retry_count_ = s.retry_count_ + n ∧
      ((TempSensor.retry c)^[n] s).t_ = s.t_ := by
  induction n with
  | zero => exact ⟨rfl, rfl⟩
  | succ n ih =>
    obtain ⟨h1, h2⟩ := ih (by omega)
    rw [Function.iterate_succ_apply']
    have hlt : ((TempSensor.retry c)^[n] s).retry_count_ < c.MAX_RETRIES := by
      rw [h1]; omega
    rw [TempSensor.retry_of_lt c _ hlt]
    exact ⟨by simp only [h1]; omega, h2⟩

/-- C10 as stated fails: with `MAX_RETRIES` = 5 a sensor with retry counter 0
and the valid stored reading 20 still holds 20, not the sentinel, after five
consecutive invocations of `retry`. -/
theorem retry_MAX_RETRIES_times_keeps_reading :
    (TempSensor.mk 1 0 20).retry_count_ = 0 ∧
      (TempSensor.mk 1 0 20).t_ ≠ sampleSensorConfig.INVALID ∧
      ((TempSensor.retry sampleSensorConfig)^[sampleSensorConfig.MAX_RETRIES]
        (TempSensor.mk 1 0 20)).t_ = 20 ∧
      ((TempSensor.retry sampleSensorConfig)^[sampleSensorConfig.MAX_RETRIES]
        (TempSensor.mk 1 0 20)).t_ ≠ sampleSensorConfig.INVALID := by
  decide

/-- C10 (amended): for a sensor with retry counter 0, after `MAX_RETRIES`
consecutive invocations of `retry` the stored reading is still the prior one,
and after `MAX_RETRIES + 1` consecutive invocations it equals `INVALID`. -/
theorem retry_invalidates_after_MAX_RETRIES_plus_one (c : TempSensorConfig) (s : TempSensor)
    (h0 : s.retry_count_ = 0) :
    ((TempSensor.retry c)^[c.MAX_RETRIES] s).t_ = s.t_ ∧
      ((TempSensor.retry c)^[c.MAX_RETRIES + 1] s).t_ = c.INVALID := by
  obtain ⟨h1, h2⟩ := TempSensor.retry_iterate_count c s c.MAX_RETRIES (by omega)
  refine ⟨h2, ?_⟩
  rw [Function.iterate_succ_apply']
  have hge : ((TempSensor.retry c)^[c.MAX_RETRIES] s).retry_count_ ≥ c.MAX_RETRIES := by
    rw [h1]; omega
  rw [TempSensor.retry_of_ge c _ hge]

theorem retry_invalidates_after_MAX_RETRIES_plus_one_witness :
    (TempSensor.mk 1 0 20).retry_count_ = 0 ∧
      ((TempSensor.retry sampleSensorConfig)^[sampleSensorConfig.MAX_RETRIES]
        (TempSensor.mk 1 0 20)).t_ = (TempSensor.mk 1 0 20).t_ ∧
      ((TempSensor.retry sampleSensorConfig)^[sampleSensorConfig.MAX_RETRIES + 1]
        (TempSensor.mk 1 0 20)).t_ = sampleSensorConfig.INVALID :=
  ⟨rfl, retry_invalidates_after_MAX_RETRIES_plus_one sampleSensorConfig (TempSensor.mk 1 0 20) rfl⟩

/-! ## `TempSensor::loop` -/

/-- A waiting sensor whose conversion is not complete is left as it is. -/
theorem TempSensor.loop_waiting_pending (c : TempSensorConfig) (bus : SensorBus)
    (s : TempSensor) (h1 : 1 ≤ s.state_) (h2 : s.state_ ≤ c.MAX_WAIT_TIME)
    (hb : bus.isConversionComplete = false) : s.loop c bus = (false, s) := by
  unfold TempSensor.loop
  rw [if_neg (by omega), if_neg (by omega), if_pos h2, hb]
  simp

/-- C11 (the code at the failing input): a sensor in a waiting state within
`MAX_WAIT_TIME`, in particular one in state 1 that has just started a
conversion, is left unchanged by every `loop` step on which the conversion is
not complete: the wait state never advances and no retry is ever performed. -/
theorem loop_waiting_never_advances (c : TempSensorConfig) (s : TempSensor)
    (buses : List SensorBus) (h1 : 1 ≤ s.state_) (h2 : s.state_ ≤ c.MAX_WAIT_TIME)
    (hb : ∀ b ∈ buses, b.isConversionComplete = false) :
    buses.foldl (fun s b => (s.loop c b).2) s = s := by
  induction buses with
  | nil => rfl
  | cons b bs ih =>
    rw [List.foldl_cons,
      TempSensor.loop_waiting_pending c b s h1 h2 (hb b (List.mem_cons_self _ _))]
    exact ih (fun b' hb' => hb b' (List.mem_cons_of_mem _ hb'))

theorem loop_waiting_never_advances_witness :
    (1 : Int) ≤ (TempSensor.mk 1 0 20).state_ ∧
      (TempSensor.mk 1 0 20).state_ ≤ sampleSensorConfig.MAX_WAIT_TIME ∧
      (∀ b ∈ List.replicate 5 busConversionPending, b.isConversionComplete = false) ∧
      (List.replicate 5 busConversionPending).foldl
        (fun s b => (s.loop sampleSensorConfig b).2) (TempSensor.mk 1 0 20) =
        TempSensor.mk 1 0 20 :=
  ⟨by decide, by decide, by decide,
    loop_waiting_never_advances sampleSensorConfig (TempSensor.mk 1 0 20)
      (List.replicate 5 busConversionPending) (by decide) (by decide) (by decide)⟩

/-- C12: `loop` returns true exactly when the sensor is in a waiting state
(1 <= state <= `MAX_WAIT_TIME`), the conversion is complete and the value read
is above `DEVICE_DISCONNECTED_C`; then the stored reading is the value read and
the state is 0. Otherwise it returns false and the stored reading is unchanged
or `INVALID`. -/
theorem loop_new_data_iff (c : TempSensorConfig) (bus : SensorBus) (s : TempSensor) :
    ((s.loop c bus).1 = true ↔
      (1 ≤ s.state_ ∧ s.state_ ≤ c.MAX_WAIT_TIME ∧ bus.isConversionComplete = true ∧
        bus.getTempC > c.DEVICE_DISCONNECTED_C)) ∧
    ((s.loop c bus).1 = true →
      (s.loop c bus).2.t_ = bus.getTempC ∧ (s.loop c bus).2.state_ = 0) ∧
    ((s.loop c bus).1 = false →
      (s.loop c bus).2.t_ = s.t_ ∨ (s.loop c bus).2.t_ = c.INVALID) := by
  unfold TempSensor.loop TempSensor.retry
  by_cases h0 : s.state_ = 0
  · simp [h0]
  by_cases hneg : s.state_ < 0
  · have : ¬ (1 ≤ s.state_) := by omega
    simp only [h0, hneg, if_false, if_true]
    split_ifs <;> simp [this]
  have hpos : 1 ≤ s.state_ := by omega
  simp only [h0, hneg, if_false]
  by_cases hw : s.state_ ≤ c.MAX_WAIT_TIME
  · simp only [hw, if_true]
    by_cases hc : bus.isConversionComplete = true
    · simp only [hc, if_true]
      by_cases hv : bus.getTempC > c.DEVICE_DISCONNECTED_C
      · simp [hv, hpos]
      · simp only [hv, if_false]
        split_ifs <;> simp [hv]
    · simp [hc]
  · simp only [hw, if_false]
    split_ifs <;> simp [hw]

/-! ## `TempSensors::run`: the clamp and the fields it leaves alone -/

theorem constrain_eq_min_max (amt : Int) : constrain amt 0 100 = min 100 (max 0 amt) := by
  unfold constrain
  split_ifs <;> omega

theorem TempSensors.run_sensor_force_send (c : TempSensorConfig) (bus : SensorBus)
    (s : TempSensors) : (s.run_sensor c bus).2.force_send_ = s.force_send_ := by
  unfold TempSensors.run_sensor
  split <;> rfl

theorem TempSensors.run_sensor_efficiency (c : TempSensorConfig) (bus : SensorBus)
    (s : TempSensors) : (s.run_sensor c bus).2.efficiency_ = s.efficiency_ := by
  unfold TempSensors.run_sensor
  split <;> rfl

theorem TempSensors.run_sensor_published (c : TempSensorConfig) (bus : SensorBus)
    (s : TempSensors) : (s.run_sensor c bus).2.published = s.published := by
  unfold TempSensors.run_sensor
  split <;> rfl

theorem TempSensors.sendMQTT_efficiency (k : TempMqttConfig) (r : PublishResults)
    (s : TempSensors) : (s.sendMQTT k r).efficiency_ = s.efficiency_ := by
  unfold TempSensors.sendMQTT
  dsimp only
  split_ifs <;> rfl

theorem TempSensors.sendMQTT_t1_ (k : TempMqttConfig) (r : PublishResults)
    (s : TempSensors) : (s.sendMQTT k r).t1_ = s.t1_ := by
  unfold TempSensors.sendMQTT
  dsimp only
  split_ifs <;> rfl

theorem TempSensors.sendMQTT_t2_ (k : TempMqttConfig) (r : PublishResults)
    (s : TempSensors) : (s.sendMQTT k r).t2_ = s.t2_ := by
  unfold TempSensors.sendMQTT
  dsimp only
  split_ifs <;> rfl

theorem TempSensors.sendMQTT_t3_ (k : TempMqttConfig) (r : PublishResults)
    (s : TempSensors) : (s.sendMQTT k r).t3_ = s.t3_ := by
  unfold TempSensors.sendMQTT
  dsimp only
  split_ifs <;> rfl

theorem TempSensors.sendMQTT_t4_ (k : TempMqttConfig) (r : PublishResults)
    (s : TempSensors) : (s.sendMQTT k r).t4_ = s.t4_ := by
  unfold TempSensors.sendMQTT
  dsimp only
  split_ifs <;> rfl

/-! ## `TempSensors::sendMQTT` -/

theorem TempSensors.sendMQTT_due_iff (k : TempMqttConfig) (s : TempSensors) :
    TempSensors.sendMQTT_due k { s with mqtt_ticks_ := s.mqtt_ticks_ + 1 } ↔
      TempSensors.ExportDue k s := Iff.rfl

/-- What an export does: the last exported values become the current readings,
the five messages are handed to `publish`, the tick counter is reset and the
force-send flag records whether a publish failed. -/
theorem TempSensors.sendMQTT_of_due (k : TempMqttConfig) (r : PublishResults)
    (s : TempSensors) (h : TempSensors.ExportDue k s) :
    s.sendMQTT k r =
      { s with
        last_mqtt_t1_ := s.t1_.t_
        last_mqtt_t2_ := s.t2_.t_
        last_mqtt_t3_ := s.t3_.t_
        last_mqtt_t4_ := s.t4_.t_
        published := s.published ++ s.exportMessages
        mqtt_ticks_ := 0
        force_send_ := !(r.r1 && r.r2 && r.r3 && r.r4 && r.r5) } := by
  unfold TempSensors.sendMQTT
  dsimp only
  rw [if_pos ((TempSensors.sendMQTT_due_iff k s).mpr h)]
  rfl

theorem TempSensors.sendMQTT_of_not_due (k : TempMqttConfig) (r : PublishResults)
    (s : TempSensors) (h : ¬ TempSensors.ExportDue k s) :
    s.sendMQTT k r = { s with mqtt_ticks_ := s.mqtt_ticks_ + 1 } := by
  unfold TempSensors.sendMQTT
  dsimp only
  rw [if_neg (fun hd => h ((TempSensors.sendMQTT_due_iff k s).mp hd))]

/-- C14: one call of `sendMQTT` exports the four temperatures and the
efficiency exactly when, for the incremented tick counter, the maximum interval
has elapsed, or the force-send flag is set, or the minimum interval has elapsed
and one of the four temperatures differs from its last exported value by more
than `MinDiffMqttTemp`; when it does not export, the tick counter is
incremented and nothing else changes, so nothing is handed to `publish`. -/
theorem sendMQTT_exports_iff_due (k : TempMqttConfig) (r : PublishResults) (s : TempSensors) :
    ((s.mqtt_ticks_ + 1 ≥ k.MaxIntervalMqttTemp ∨ s.force_send_ = true ∨
        (s.mqtt_ticks_ + 1 ≥ k.MinIntervalMqttTemp ∧
          (|s.t1_.t_ - s.last_mqtt_t1_| > k.MinDiffMqttTemp ∨
            |s.t2_.t_ - s.last_mqtt_t2_| > k.MinDiffMqttTemp ∨
            |s.t3_.t_ - s.last_mqtt_t3_| > k.MinDiffMqttTemp ∨
            |s.t4_.t_ - s.last_mqtt_t4_| > k.MinDiffMqttTemp))) →
      (s.sendMQTT k r).published = s.published ++
        [TempMessage.KwlTemperaturAussenluft s.t1_.t_, TempMessage.KwlTemperaturZuluft s.t2_.t_,
          TempMessage.KwlTemperaturAbluft s.t3_.t_, TempMessage.KwlTemperaturFortluft s.t4_.t_,
          TempMessage.KwlEffiency s.efficiency_]) ∧
    (¬ (s.mqtt_ticks_ + 1 ≥ k.MaxIntervalMqttTemp ∨ s.force_send_ = true ∨
        (s.mqtt_ticks_ + 1 ≥ k.MinIntervalMqttTemp ∧
          (|s.t1_.t_ - s.last_mqtt_t1_| > k.MinDiffMqttTemp ∨
            |s.t2_.t_ - s.last_mqtt_t2_| > k.MinDiffMqttTemp ∨
            |s.t3_.t_ - s.last_mqtt_t3_| > k.MinDiffMqttTemp ∨
            |s.t4_.t_ - s.last_mqtt_t4_| > k.MinDiffMqttTemp))) →
      s.sendMQTT k r = { s with mqtt_ticks_ := s.mqtt_ticks_ + 1 }) := by
  constructor
  · intro h
    rw [TempSensors.sendMQTT_of_due k r s h]
    rfl
  · intro h
    exact TempSensors.sendMQTT_of_not_due k r s h

theorem TempSensors.sendMQTT_force_send (k : TempMqttConfig) (r : PublishResults)
    (s : TempSensors) (h : s.force_send_ = true) :
    (s.sendMQTT k r).published = s.published ++ (s.sendMQTT k r).exportMessages ∧
      (s.sendMQTT k r).mqtt_ticks_ = 0 := by
  rw [TempSensors.sendMQTT_of_due k r s (Or.inr (Or.inl h))]
  exact ⟨rfl, rfl⟩

theorem TempSensors.run_force_send (c : TempSensorConfig) (k : TempMqttConfig)
    (bus : SensorBus) (r : PublishResults) (s : TempSensors) (h : s.force_send_ = true) :
    (s.run c k bus r).published = s.published ++ (s.run c k bus r).exportMessages ∧
      (s.run c k bus r).mqtt_ticks_ = 0 := by
  have h' : (s.run_sensor c bus).2.force_send_ = true := by
    rw [TempSensors.run_sensor_force_send]; exact h
  have hp := TempSensors.run_sensor_published c bus s
  unfold TempSensors.run
  dsimp only
  rw [if_pos (Or.inr h'), ← hp]
  exact TempSensors.sendMQTT_force_send k r _ h'

/-- C15: when `sendMQTT` exports, whatever the outcomes of its five publish
calls are, all five messages are handed to `publish`, the tick counter is reset
to 0, and the force-send flag afterwards is true exactly when at least one of
the five publishes failed; and when it is true, the next `run` exports again
(five more messages, the current readings and efficiency, tick counter 0) for
every sensor step, every tick count and every difference of the readings. -/
theorem sendMQTT_export_sets_force_flag (k : TempMqttConfig) (r : PublishResults)
    (s : TempSensors) (hdue : TempSensors.ExportDue k s) :
    (s.sendMQTT k r).published = s.published ++ s.exportMessages ∧
      (s.sendMQTT k r).mqtt_ticks_ = 0 ∧
      ((s.sendMQTT k r).force_send_ = true ↔
        (r.r1 = false ∨ r.r2 = false ∨ r.r3 = false ∨ r.r4 = false ∨ r.r5 = false)) ∧
      ((s.sendMQTT k r).force_send_ = true →
        ∀ (c : TempSensorConfig) (bus : SensorBus) (r' : PublishResults),
          ((s.sendMQTT k r).run c k bus r').published =
              (s.sendMQTT k r).published ++ ((s.sendMQTT k r).run c k bus r').exportMessages ∧
            ((s.sendMQTT k r).run c k bus r').mqtt_ticks_ = 0) := by
  refine ⟨?_, ?_, ?_, ?_⟩
  · rw [TempSensors.sendMQTT_of_due k r s hdue]
  · rw [TempSensors.sendMQTT_of_due k r s hdue]
  · rw [TempSensors.sendMQTT_of_due k r s hdue]
    cases r.r1 <;> cases r.r2 <;> cases r.r3 <;> cases r.r4 <;> cases r.r5 <;> simp
  · intro hf c bus r'
    exact TempSensors.run_force_send c k bus r' _ hf

theorem sendMQTT_export_sets_force_flag_witness :
    TempSensors.ExportDue sampleTempMqttConfig sampleSensors ∧
      (sampleSensors.sendMQTT sampleTempMqttConfig ⟨true, true, false, true, true⟩).force_send_ =
        true ∧
      (sampleSensors.sendMQTT sampleTempMqttConfig ⟨true, true, false, true, true⟩).published =
        sampleSensors.published ++ sampleSensors.exportMessages ∧
      (sampleSensors.sendMQTT sampleTempMqttConfig ⟨true, true, false, true, true⟩).mqtt_ticks_ =
        0 ∧
      ((sampleSensors.sendMQTT sampleTempMqttConfig ⟨true, true, false, true, true⟩).force_send_ =
          true ↔
        ((PublishResults.mk true true false true true).r1 = false ∨
          (PublishResults.mk true true false true true).r2 = false ∨
          (PublishResults.mk true true false true true).r3 = false ∨
          (PublishResults.mk true true false true true).r4 = false ∨
          (PublishResults.mk true true false true true).r5 = false)) ∧
      ((sampleSensors.sendMQTT sampleTempMqttConfig ⟨true, true, false, true, true⟩).force_send_ =
          true →
        ∀ (c : TempSensorConfig) (bus : SensorBus) (r' : PublishResults),
          ((sampleSensors.sendMQTT sampleTempMqttConfig ⟨true, true, false, true, true⟩).run c
                sampleTempMqttConfig bus r').published =
              (sampleSensors.sendMQTT sampleTempMqttConfig
                ⟨true, true, false, true, true⟩).published ++
                ((sampleSensors.sendMQTT sampleTempMqttConfig ⟨true, true, false, true, true⟩).run
                  c sampleTempMqttConfig bus r').exportMessages ∧
            ((sampleSensors.sendMQTT sampleTempMqttConfig ⟨true, true, false, true, true⟩).run c
                sampleTempMqttConfig bus r').mqtt_ticks_ = 0) :=
  have hdue : TempSensors.ExportDue sampleTempMqttConfig sampleSensors := Or.inr (Or.inl rfl)
  have h := sendMQTT_export_sets_force_flag sampleTempMqttConfig ⟨true, true, false, true, true⟩
    sampleSensors hdue
  ⟨hdue, h.2.2.1.mpr (Or.inr (Or.inr (Or.inl rfl))), h⟩

/-! ## `NetworkClient::loop` -/

/-- The console part of `loop` touches the line buffer and hands at most
messages to the message handler; flags, times and subscriptions stay. -/
theorem NetworkClient.loop_serial_frame (p : NetworkConfig) (tick : Tick) (s : NetworkClient) :
    (s.loop_serial p tick).lan_ok_ = s.lan_ok_ ∧
      (s.loop_serial p tick).mqtt_ok_ = s.mqtt_ok_ ∧
      (s.loop_serial p tick).last_mqtt_reconnect_attempt_time_ =
        s.last_mqtt_reconnect_attempt_time_ ∧
      ∃ l, (s.loop_serial p tick).trace = s.trace ++ l ∧
        ∀ e ∈ l, ∃ topic payload, e = NetEvent.mqttMessageReceived topic payload := by
  unfold NetworkClient.loop_serial
  cases tick.serial with
  | none => exact ⟨rfl, rfl, rfl, [], by simp, by simp⟩
  | some c =>
    dsimp only
    split_ifs
    · cases strchr (List.takeWhile (fun c => c ≠ Char.ofNat 0) s.serial_data_) ' ' with
      | none =>
        refine ⟨rfl, rfl, rfl, [_], rfl, ?_⟩
        intro e he
        exact ⟨_, _, List.mem_singleton.mp he⟩
      | some delim =>
        refine ⟨rfl, rfl, rfl, [_], rfl, ?_⟩
        intro e he
        exact ⟨_, _, List.mem_singleton.mp he⟩
    · exact ⟨rfl, rfl, rfl, [], by simp, by simp⟩
    · exact ⟨rfl, rfl, rfl, [], by simp, by simp⟩
    · exact ⟨rfl, rfl, rfl, [], by simp, by simp⟩

/-- A tick that finds the link not connected: the link flag goes or stays
down, the heartbeat task is cancelled when the flag was up, and the link
collaborator is asked to reconnect. -/
theorem NetworkClient.loop_of_link_down (p : NetworkConfig) (tick : Tick) (s : NetworkClient)
    (h : tick.wifi_connected = false) :
    s.loop p tick =
      if (s.loop_serial p tick).lan_ok_ = true then
        { s.loop_serial p tick with
          lan_ok_ := false
          trace := (s.loop_serial p tick).trace ++ [NetEvent.timerCancel, NetEvent.initEthernet]
          last_lan_reconnect_attempt_time_ := tick.micros }
      else if elapsed tick.micros (s.loop_serial p tick).last_lan_reconnect_attempt_time_ ≥
          LAN_CHECK_INTERVAL then
        { s.loop_serial p tick with
          trace := (s.loop_serial p tick).trace ++ [NetEvent.initEthernet]
          last_lan_reconnect_attempt_time_ := tick.micros }
      else s.loop_serial p tick := by
  unfold NetworkClient.loop
  simp only [h, Bool.not_false, if_true, Bool.false_eq_true, if_false, NetworkClient.emit,
    List.append_assoc, List.singleton_append]

theorem NetworkClient.resubscribe_frame (p : NetworkConfig) (r : Bool × Bool)
    (s : NetworkClient) :
    (s.resubscribe p r).lan_ok_ = s.lan_ok_ ∧ (s.resubscribe p r).mqtt_ok_ = s.mqtt_ok_ ∧
      ∃ l, (s.resubscribe p r).trace = s.trace ++ l ∧
        ∀ e ∈ l, ∃ topic, e = NetEvent.mqttSubscribe topic := by
  unfold NetworkClient.resubscribe NetworkClient.emit
  dsimp only
  split_ifs
  · refine ⟨rfl, rfl,
      [NetEvent.mqttSubscribe (s.s_mqtt_prefix_.take s.s_mqtt_prefix_len ++ p.Command ++ ['#']),
        NetEvent.mqttSubscribe
          (s.s_mqtt_prefix_.take s.s_mqtt_prefix_len ++ p.CommandDebug ++ ['#'])],
      by simp, ?_⟩
    intro e he
    simp only [List.mem_cons, List.mem_singleton, List.not_mem_nil, or_false] at he
    rcases he with he | he <;> exact ⟨_, he⟩
  · refine ⟨rfl, rfl, [_], rfl, ?_⟩
    intro e he
    exact ⟨_, List.mem_singleton.mp he⟩
  · refine ⟨rfl, rfl, [_], rfl, ?_⟩
    intro e he
    exact ⟨_, List.mem_singleton.mp he⟩
  · exact ⟨rfl, rfl, [], by simp, by simp⟩

/-- What `mqttConnect` does: the connect is attempted first; the link flag and
the session flag of the state are not touched; on a connect that succeeds and a
client that reports connected afterwards the result is true and the heartbeat
task is armed. -/
theorem NetworkClient.mqttConnect_frame (p : NetworkConfig) (tick : Tick) (s : NetworkClient) :
    (s.mqttConnect p tick).2.lan_ok_ = s.lan_ok_ ∧
      (s.mqttConnect p tick).1 = tick.connected_after ∧
      (∃ l, (s.mqttConnect p tick).2.trace =
        s.trace ++ NetEvent.mqttConnect ("kwlClient:".toList ++ tick.getMQTTPrefix) :: l) ∧
      (tick.connect = true → tick.connected_after = true →
        ∃ l, (s.mqttConnect p tick).2.trace = l ++ [NetEvent.timerRunRepeated]) := by
  unfold NetworkClient.mqttConnect
  dsimp only
  cases hc : tick.connect <;> cases ha : tick.connected_after
  · refine ⟨rfl, rfl, ⟨[NetEvent.timerCancel], ?_⟩, ?_⟩
    · simp [NetworkClient.emit]
    · intro h; exact Bool.noConfusion h
  · refine ⟨rfl, rfl, ⟨[], ?_⟩, ?_⟩
    · simp [NetworkClient.emit]
    · intro h; exact Bool.noConfusion h
  · obtain ⟨h1, _, l, hl, _⟩ := NetworkClient.resubscribe_frame p tick.subscribe_connect
      { s.emit (NetEvent.mqttConnect ("kwlClient:".toList ++ tick.getMQTTPrefix)) with
        s_mqtt_prefix_ := tick.getMQTTPrefix
        s_mqtt_prefix_len := uint8_t tick.getMQTTPrefix.length
        subscribed_command_ := false
        subscribed_debug_ := false }
    refine ⟨?_, rfl, ⟨l ++ [NetEvent.timerRunRepeated, NetEvent.timerCancel], ?_⟩, ?_⟩
    · simp only [if_true, Bool.false_eq_true, if_false, NetworkClient.emit] at h1 ⊢
      exact h1
    · simp only [if_true, Bool.false_eq_true, if_false, NetworkClient.emit] at hl ⊢
      rw [hl]
      simp
    · intro _ h; exact Bool.noConfusion h
  · obtain ⟨h1, _, l, hl, _⟩ := NetworkClient.resubscribe_frame p tick.subscribe_connect
      { s.emit (NetEvent.mqttConnect ("kwlClient:".toList ++ tick.getMQTTPrefix)) with
        s_mqtt_prefix_ := tick.getMQTTPrefix
        s_mqtt_prefix_len := uint8_t tick.getMQTTPrefix.length
        subscribed_command_ := false
        subscribed_debug_ := false }
    refine ⟨?_, rfl, ⟨l ++ [NetEvent.timerRunRepeated], ?_⟩, ?_⟩
    · simp only [if_true, NetworkClient.emit] at h1 ⊢
      exact h1
    · simp only [if_true, NetworkClient.emit] at hl ⊢
      rw [hl]
      simp
    · intro _ _
      simp only [if_true, NetworkClient.emit] at hl ⊢
      exact ⟨_, rfl⟩

theorem NetworkClient.loop_session_lan_ok (p : NetworkConfig) (tick : Tick)
    (s : NetworkClient) : (s.loop_session p tick).lan_ok_ = s.lan_ok_ := by
  have hc := fun x => (NetworkClient.mqttConnect_frame p tick x).1
  have hr := fun r x => (NetworkClient.resubscribe_frame p r x).1
  unfold NetworkClient.loop_session
  dsimp only
  split_ifs <;> simp only [NetworkClient.emit, hr, hc]

theorem NetworkClient.loop_lan_ok (p : NetworkConfig) (tick : Tick) (s : NetworkClient) :
    (s.loop p tick).lan_ok_ = tick.wifi_connected := by
  unfold NetworkClient.loop
  dsimp only
  cases h : tick.wifi_connected <;> cases hl : (s.loop_serial p tick).lan_ok_ <;>
    simp only [Bool.not_false, Bool.not_true, if_true, Bool.false_eq_true, if_false,
      NetworkClient.loop_session_lan_ok, NetworkClient.emit, hl]
  split_ifs <;> simp only [hl]

theorem heartbeatArmed_append (tr l : List NetEvent) :
    heartbeatArmed (tr ++ l) = l.foldl heartbeatStep (heartbeatArmed tr) := by
  unfold heartbeatArmed
  rw [List.foldl_append]

/-- Calls that are not made on the heartbeat task leave it as it is. -/
theorem heartbeatArmed_append_quiet (tr l : List NetEvent)
    (h : ∀ e ∈ l, e ≠ NetEvent.timerRunRepeated ∧ e ≠ NetEvent.timerCancel) :
    heartbeatArmed (tr ++ l) = heartbeatArmed tr := by
  rw [heartbeatArmed_append]
  generalize heartbeatArmed tr = a
  induction l generalizing a with
  | nil => rfl
  | cons e es ih =>
    have he := h e (List.mem_cons_self _ _)
    rw [List.foldl_cons]
    have hstep : heartbeatStep a e = a := by
      cases e <;> first | rfl | exact absurd rfl he.1 | exact absurd rfl he.2
    rw [hstep]
    exact ih (fun e' he' => h e' (List.mem_cons_of_mem _ he')) a

theorem messages_quiet (l : List NetEvent)
    (h : ∀ e ∈ l, ∃ topic payload, e = NetEvent.mqttMessageReceived topic payload) :
    (∀ e ∈ l, e ≠ NetEvent.timerRunRepeated ∧ e ≠ NetEvent.timerCancel) ∧
      ∀ e ∈ l, e.isSession = false := by
  constructor
  · intro e he
    obtain ⟨t, pl, rfl⟩ := h e he
    exact ⟨fun h => NetEvent.noConfusion h, fun h => NetEvent.noConfusion h⟩
  · intro e he
    obtain ⟨t, pl, rfl⟩ := h e he
    rfl

/-- A tick that leaves the link flag down has found the link not connected; it
leaves the session flag as it was and makes no connect, subscribe or poll. -/
theorem NetworkClient.loop_link_down_no_session (p : NetworkConfig) (tick : Tick)
    (s : NetworkClient) (h : tick.wifi_connected = false) :
    (s.loop p tick).mqtt_ok_ = s.mqtt_ok_ ∧
      ∃ l, (s.loop p tick).trace = s.trace ++ l ∧ (∀ e ∈ l, e.isSession = false) ∧
        (s.lan_ok_ = true → NetEvent.timerCancel ∈ l) ∧
        ((s.lan_ok_ = true ∨ heartbeatArmed s.trace = false) →
          heartbeatArmed (s.loop p tick).trace = false) := by
  obtain ⟨hlan, hmqtt, _, l, hl, hmsg⟩ := NetworkClient.loop_serial_frame p tick s
  obtain ⟨hq, hs⟩ := messages_quiet l hmsg
  rw [NetworkClient.loop_of_link_down p tick s h]
  by_cases h1 : (s.loop_serial p tick).lan_ok_ = true
  · rw [if_pos h1]
    refine ⟨hmqtt, l ++ [NetEvent.timerCancel, NetEvent.initEthernet], ?_, ?_, ?_, ?_⟩
    · simp only [hl, List.append_assoc]
    · intro e he
      rcases List.mem_append.mp he with he | he
      · exact hs e he
      · simp only [List.mem_cons, List.mem_singleton, List.not_mem_nil, or_false] at he
        rcases he with he | he <;> rw [he] <;> rfl
    · intro _
      simp
    · intro _
      simp only [hl]
      rw [List.append_assoc, heartbeatArmed_append, List.foldl_append]
      rfl
  · rw [if_neg h1]
    have hlan' : s.lan_ok_ = false := by
      rw [hlan] at h1
      simpa using h1
    by_cases h2 : elapsed tick.micros (s.loop_serial p tick).last_lan_reconnect_attempt_time_ ≥
        LAN_CHECK_INTERVAL
    · rw [if_pos h2]
      refine ⟨hmqtt, l ++ [NetEvent.initEthernet], ?_, ?_, ?_, ?_⟩
      · simp only [hl, List.append_assoc]
      · intro e he
        rcases List.mem_append.mp he with he | he
        · exact hs e he
        · rw [List.mem_singleton.mp he]; rfl
      · intro hc
        rw [hlan'] at hc
        exact Bool.noConfusion hc
      · intro hor
        have harm : heartbeatArmed s.trace = false := by
          rcases hor with hc | hc
          · rw [hlan'] at hc; exact Bool.noConfusion hc
          · exact hc
        simp only [hl]
        rw [List.append_assoc, heartbeatArmed_append_quiet _ _ ?_, harm]
        intro e he
        rcases List.mem_append.mp he with he | he
        · exact hq e he
        · rw [List.mem_singleton.mp he]
          exact ⟨fun h => NetEvent.noConfusion h, fun h => NetEvent.noConfusion h⟩
    · rw [if_neg h2]
      refine ⟨hmqtt, l, hl, hs, ?_, ?_⟩
      · intro hc
        rw [hlan'] at hc
        exact Bool.noConfusion hc
      · intro hor
        have harm : heartbeatArmed s.trace = false := by
          rcases hor with hc | hc
          · rw [hlan'] at hc; exact Bool.noConfusion hc
          · exact hc
        rw [hl, heartbeatArmed_append_quiet _ _ hq, harm]

theorem heartbeatArmed_runRepeated (l : List NetEvent) :
    heartbeatArmed (l ++ [NetEvent.timerRunRepeated]) = true := by
  rw [heartbeatArmed_append]
  rfl

theorem NetworkClient.emit_trace (e : NetEvent) (s : NetworkClient) :
    (s.emit e).trace = s.trace ++ [e] := rfl

theorem NetworkClient.resubscribe_trace (p : NetworkConfig) (r : Bool × Bool)
    (s : NetworkClient) :
    (s.resubscribe p r).trace = s.trace ++ NetworkClient.resubscribe_calls p s := by
  unfold NetworkClient.resubscribe NetworkClient.resubscribe_calls NetworkClient.emit
  dsimp only
  cases h1 : s.subscribed_command_ <;> cases h2 : s.subscribed_debug_ <;> simp [h1, h2]

theorem NetworkClient.resubscribe_mqtt_ok (p : NetworkConfig) (r : Bool × Bool)
    (s : NetworkClient) : (s.resubscribe p r).mqtt_ok_ = s.mqtt_ok_ :=
  (NetworkClient.resubscribe_frame p r s).2.1

theorem NetworkClient.resubscribe_calls_quiet (p : NetworkConfig) (s : NetworkClient) :
    ∀ e ∈ NetworkClient.resubscribe_calls p s,
      e ≠ NetEvent.timerRunRepeated ∧ e ≠ NetEvent.timerCancel := by
  intro e he
  unfold NetworkClient.resubscribe_calls at he
  rcases List.mem_append.mp he with he | he <;> split_ifs at he <;>
    first
      | (rw [List.mem_singleton.mp he]
         exact ⟨fun h => NetEvent.noConfusion h, fun h => NetEvent.noConfusion h⟩)
      | exact absurd he (List.not_mem_nil _)

theorem NetworkClient.mqttConnect_trace (p : NetworkConfig) (tick : Tick) (s : NetworkClient) :
    (s.mqttConnect p tick).2.trace = s.trace ++ NetworkClient.mqttConnect_calls p tick := by
  unfold NetworkClient.mqttConnect NetworkClient.mqttConnect_calls
  dsimp only
  cases tick.connect <;> cases tick.connected_after <;>
    simp [NetworkClient.emit, NetworkClient.resubscribe_trace, NetworkClient.resubscribe_calls]

/-- The session part of `loop` on a session flag that is up and a broker client
that reports not connected: the heartbeat task is cancelled and the connect is
attempted at once; the session flag becomes what the client reports after the
connect. -/
theorem NetworkClient.loop_session_of_disconnected (p : NetworkConfig) (tick : Tick)
    (s : NetworkClient) (hok : s.mqtt_ok_ = true) (hnc : tick.connected = false) :
    (s.loop_session p tick).mqtt_ok_ = tick.connected_after ∧
      (∃ l, (s.loop_session p tick).trace =
        s.trace ++ [NetEvent.ntpLoop, NetEvent.timerCancel] ++
          NetworkClient.mqttConnect_calls p tick ++ l ∧
        ∀ e ∈ l, e ≠ NetEvent.timerRunRepeated ∧ e ≠ NetEvent.timerCancel) := by
  have hres := fun x => (NetworkClient.mqttConnect_frame p tick x).2.1
  unfold NetworkClient.loop_session
  dsimp only
  have hok' : (s.emit NetEvent.ntpLoop).mqtt_ok_ = true := hok
  rw [if_pos hok', hnc]
  simp only [Bool.not_false, if_true, hres]
  cases ha : tick.connected_after
  · simp only [Bool.not_false, if_true]
    refine ⟨trivial, [], ?_, by simp⟩
    simp only [NetworkClient.mqttConnect_trace, NetworkClient.emit_trace]
    simp
  · simp only [Bool.not_true, Bool.false_eq_true, if_false]
    refine ⟨?_, ⟨?l, ?heq, ?hq⟩⟩
    case heq =>
      simp only [NetworkClient.emit_trace, NetworkClient.resubscribe_trace,
        NetworkClient.mqttConnect_trace, List.append_assoc]
      exact rfl
    case hq =>
      intro e he
      rcases List.mem_append.mp he with he | he
      · exact NetworkClient.resubscribe_calls_quiet p _ e he
      · rw [List.mem_singleton.mp he]
        exact ⟨fun h => NetEvent.noConfusion h, fun h => NetEvent.noConfusion h⟩
    simp only [NetworkClient.emit, NetworkClient.resubscribe_mqtt_ok]

/-- After a connect that succeeds and a client that reports connected, the
heartbeat task is armed. -/
theorem heartbeatArmed_mqttConnect_calls (p : NetworkConfig) (tick : Tick)
    (tr l : List NetEvent) (hc : tick.connect = true) (ha : tick.connected_after = true)
    (hl : ∀ e ∈ l, e ≠ NetEvent.timerRunRepeated ∧ e ≠ NetEvent.timerCancel) :
    heartbeatArmed (tr ++ NetworkClient.mqttConnect_calls p tick ++ l) = true := by
  rw [heartbeatArmed_append_quiet _ _ hl]
  unfold NetworkClient.mqttConnect_calls
  rw [if_pos hc, if_pos ha, heartbeatArmed_append]
  rfl

theorem NetworkClient.begin_eq_loop (p : NetworkConfig) (getMQTTPrefix : List Char)
    (t0 t1 : Nat) (tick : Tick) (s : NetworkClient) :
    ∃ s' : NetworkClient,
      s'.lan_ok_ = true ∧ NetworkClient.begin p getMQTTPrefix t0 t1 tick s = s'.loop p tick :=
  ⟨_, rfl, rfl⟩

/-- In a reachable state with the link flag down the heartbeat task is cancelled. -/
theorem NetworkClient.Reachable.heartbeat_cancelled {p : NetworkConfig} {s : NetworkClient}
    (hr : NetworkClient.Reachable p s) (hdown : s.lan_ok_ = false) :
    heartbeatArmed s.trace = false := by
  induction hr with
  | begin getMQTTPrefix t0 t1 tick s0 =>
    obtain ⟨s', hs', heq⟩ := NetworkClient.begin_eq_loop p getMQTTPrefix t0 t1 tick s0
    rw [heq] at hdown ⊢
    rw [NetworkClient.loop_lan_ok] at hdown
    obtain ⟨_, l, _, _, _, harm⟩ := NetworkClient.loop_link_down_no_session p tick s' hdown
    exact harm (Or.inl hs')
  | loop tick s0 _ ih =>
    have hw : tick.wifi_connected = false := by
      rw [NetworkClient.loop_lan_ok] at hdown
      exact hdown
    obtain ⟨_, l, _, _, _, harm⟩ := NetworkClient.loop_link_down_no_session p tick s0 hw
    cases hl : s0.lan_ok_ with
    | true => exact harm (Or.inl hl)
    | false => exact harm (Or.inr (ih hl))

/-- C16 as stated fails: when the first `loop`, run by `begin`, finds the link
not connected, the state that `begin` leaves has the link flag down and the
session flag up. -/
theorem begin_leaves_session_flag_up_while_link_down :
    NetworkClient.Reachable sampleNetworkConfig
        (NetworkClient.begin sampleNetworkConfig "kwl".toList 1000000 1500000 tickLinkDown
          sampleNetworkClient) ∧
      (NetworkClient.begin sampleNetworkConfig "kwl".toList 1000000 1500000 tickLinkDown
        sampleNetworkClient).lan_ok_ = false ∧
      (NetworkClient.begin sampleNetworkConfig "kwl".toList 1000000 1500000 tickLinkDown
        sampleNetworkClient).mqtt_ok_ = true :=
  ⟨NetworkClient.Reachable.begin _ _ _ _ _, by decide, by decide⟩

/-- C16 (amended): in every state reachable from `begin` by `loop` ticks, under
any answers of the collaborators, in which the link flag is down, the heartbeat
task is cancelled; and every `loop` tick that leaves the link flag down leaves
the session flag as it was and makes no broker connect, subscribe or poll. -/
theorem link_down_session_not_entered (p : NetworkConfig) (s : NetworkClient)
    (hr : NetworkClient.Reachable p s) :
    (s.lan_ok_ = false → heartbeatArmed s.trace = false) ∧
      ∀ tick : Tick, (s.loop p tick).lan_ok_ = false →
        (s.loop p tick).mqtt_ok_ = s.mqtt_ok_ ∧
          ∃ l, (s.loop p tick).trace = s.trace ++ l ∧ ∀ e ∈ l, e.isSession = false := by
  refine ⟨hr.heartbeat_cancelled, ?_⟩
  intro tick hdown
  rw [NetworkClient.loop_lan_ok] at hdown
  obtain ⟨hm, l, hl, hs, _, _⟩ := NetworkClient.loop_link_down_no_session p tick s hdown
  exact ⟨hm, l, hl, hs⟩

theorem link_down_session_not_entered_witness :
    NetworkClient.Reachable sampleNetworkConfig
        (NetworkClient.begin sampleNetworkConfig "kwl".toList 1000000 1500000 tickLinkDown
          sampleNetworkClient) ∧
      heartbeatArmed (NetworkClient.begin sampleNetworkConfig "kwl".toList 1000000 1500000
        tickLinkDown sampleNetworkClient).trace = false ∧
      ((NetworkClient.begin sampleNetworkConfig "kwl".toList 1000000 1500000 tickLinkDown
            sampleNetworkClient).lan_ok_ = false →
          heartbeatArmed (NetworkClient.begin sampleNetworkConfig "kwl".toList 1000000 1500000
            tickLinkDown sampleNetworkClient).trace = false) ∧
        ∀ tick : Tick,
          ((NetworkClient.begin sampleNetworkConfig "kwl".toList 1000000 1500000 tickLinkDown
            sampleNetworkClient).loop sampleNetworkConfig tick).lan_ok_ = false →
          ((NetworkClient.begin sampleNetworkConfig "kwl".toList 1000000 1500000 tickLinkDown
              sampleNetworkClient).loop sampleNetworkConfig tick).mqtt_ok_ =
            (NetworkClient.begin sampleNetworkConfig "kwl".toList 1000000 1500000 tickLinkDown
              sampleNetworkClient).mqtt_ok_ ∧
          ∃ l, ((NetworkClient.begin sampleNetworkConfig "kwl".toList 1000000 1500000 tickLinkDown
              sampleNetworkClient).loop sampleNetworkConfig tick).trace =
            (NetworkClient.begin sampleNetworkConfig "kwl".toList 1000000 1500000 tickLinkDown
              sampleNetworkClient).trace ++ l ∧ ∀ e ∈ l, e.isSession = false :=
  ⟨NetworkClient.Reachable.begin _ _ _ _ _, by decide,
    link_down_session_not_entered sampleNetworkConfig _
      (NetworkClient.Reachable.begin "kwl".toList 1000000 1500000 tickLinkDown
        sampleNetworkClient)⟩

/-- C17: in a `loop` tick that finds the link not connected, whether the link
flag was up or down before, the calls made contain no broker connect, no
subscribe and no poll of the broker client, the session flag is left as it
was, and the link flag is down afterwards; when the link flag was up, the
heartbeat task is cancelled in this tick. -/
theorem loop_link_not_connected (p : NetworkConfig) (tick : Tick) (s : NetworkClient)
    (h : tick.wifi_connected = false) :
    (s.loop p tick).lan_ok_ = false ∧ (s.loop p tick).mqtt_ok_ = s.mqtt_ok_ ∧
      ∃ l, (s.loop p tick).trace = s.trace ++ l ∧ (∀ e ∈ l, e.isSession = false) ∧
        (s.lan_ok_ = true →
          NetEvent.timerCancel ∈ l ∧ heartbeatArmed (s.loop p tick).trace = false) := by
  obtain ⟨hm, l, hl, hs, hc, harm⟩ := NetworkClient.loop_link_down_no_session p tick s h
  refine ⟨?_, hm, l, hl, hs, fun hup => ⟨hc hup, harm (Or.inl hup)⟩⟩
  rw [NetworkClient.loop_lan_ok]
  exact h

theorem loop_link_not_connected_witness :
    tickLinkDown.wifi_connected = false ∧
      ({ sampleNetworkClient with lan_ok_ := true, mqtt_ok_ := true }.loop sampleNetworkConfig
        tickLinkDown).trace = [NetEvent.timerCancel, NetEvent.initEthernet] ∧
      (({ sampleNetworkClient with lan_ok_ := true, mqtt_ok_ := true }.loop sampleNetworkConfig
          tickLinkDown).lan_ok_ = false ∧
        ({ sampleNetworkClient with lan_ok_ := true, mqtt_ok_ := true }.loop sampleNetworkConfig
          tickLinkDown).mqtt_ok_ =
          { sampleNetworkClient with lan_ok_ := true, mqtt_ok_ := true }.mqtt_ok_ ∧
        ∃ l, ({ sampleNetworkClient with lan_ok_ := true, mqtt_ok_ := true }.loop
            sampleNetworkConfig tickLinkDown).trace =
          { sampleNetworkClient with lan_ok_ := true, mqtt_ok_ := true }.trace ++ l ∧
          (∀ e ∈ l, e.isSession = false) ∧
          ({ sampleNetworkClient with lan_ok_ := true, mqtt_ok_ := true }.lan_ok_ = true →
            NetEvent.timerCancel ∈ l ∧
              heartbeatArmed ({ sampleNetworkClient with lan_ok_ := true, mqtt_ok_ := true }.loop
                sampleNetworkConfig tickLinkDown).trace = false)) :=
  ⟨rfl, by decide,
    loop_link_not_connected sampleNetworkConfig tickLinkDown
      { sampleNetworkClient with lan_ok_ := true, mqtt_ok_ := true } rfl⟩

/-- C18 as stated fails: the client is started with link and broker available
and then loses the link, so that the link flag is down and the heartbeat task
cancelled. On the tick that finds the link connected again while the broker
client reports that it is still connected, and on the tick after it, no broker
connect is made, and the heartbeat task stays cancelled. -/
theorem link_up_client_connected_no_connect :
    NetworkClient.Reachable sampleNetworkConfig sampleLinkLost ∧
      sampleLinkLost.lan_ok_ = false ∧
      tickLinkUpClientConnected.wifi_connected = true ∧
      ((sampleLinkLost.loop sampleNetworkConfig
          { tickLinkUpClientConnected with micros := 5000100 }).loop sampleNetworkConfig
          { tickLinkUpClientConnected with micros := 5000200 }).trace =
        sampleLinkLost.trace ++
          [NetEvent.ntpLoop, NetEvent.mqttLoop, NetEvent.ntpLoop, NetEvent.mqttLoop] ∧
      heartbeatArmed ((sampleLinkLost.loop sampleNetworkConfig
          { tickLinkUpClientConnected with micros := 5000100 }).loop sampleNetworkConfig
          { tickLinkUpClientConnected with micros := 5000200 }).trace = false :=
  ⟨NetworkClient.Reachable.loop _ _ (NetworkClient.Reachable.begin _ _ _ _ _),
    by decide, rfl, by decide, by decide⟩

/-- C18 (amended): for every state with the link flag down and every `loop` tick
that finds the link connected again while the broker client reports that it is
not connected, the broker connect is attempted in that very tick, whatever the
time since the last session connect attempt; the link flag is up, the session
flag is what the client reports after the connect, and when the connect
succeeds and the client then reports connected the heartbeat task is armed. -/
theorem link_up_connects_at_once (p : NetworkConfig) (tick : Tick) (s : NetworkClient)
    (hdown : s.lan_ok_ = false) (hup : tick.wifi_connected = true)
    (hnc : tick.connected = false) :
    (s.loop p tick).lan_ok_ = true ∧
      (s.loop p tick).mqtt_ok_ = tick.connected_after ∧
      (∃ l1 l2, (s.loop p tick).trace =
        s.trace ++ l1 ++ NetEvent.mqttConnect ("kwlClient:".toList ++ tick.getMQTTPrefix) :: l2) ∧
      (tick.connect = true → tick.connected_after = true →
        heartbeatArmed (s.loop p tick).trace = true) := by
  obtain ⟨hlan, _, _, l, hl, _⟩ := NetworkClient.loop_serial_frame p tick s
  have hloop : s.loop p tick =
      NetworkClient.loop_session p tick
        { s.loop_serial p tick with lan_ok_ := true, mqtt_ok_ := true } := by
    unfold NetworkClient.loop
    dsimp only
    rw [if_neg (by rw [hlan, hdown]; exact Bool.false_ne_true), if_pos hup]
  obtain ⟨hm, l2, hl2, hq⟩ := NetworkClient.loop_session_of_disconnected p tick
    { s.loop_serial p tick with lan_ok_ := true, mqtt_ok_ := true } rfl hnc
  have htr : ({ s.loop_serial p tick with lan_ok_ := true, mqtt_ok_ := true } :
      NetworkClient).trace = s.trace ++ l := hl
  rw [htr] at hl2
  refine ⟨?_, ?_, ?_, ?_⟩
  · rw [NetworkClient.loop_lan_ok]; exact hup
  · rw [hloop]; exact hm
  · rw [hloop, hl2]
    refine ⟨l ++ [NetEvent.ntpLoop, NetEvent.timerCancel],
      (NetworkClient.mqttConnect_calls p tick).tail ++ l2, ?_⟩
    unfold NetworkClient.mqttConnect_calls
    simp only [List.append_assoc, List.cons_append, List.tail_cons]
  · intro hc ha
    rw [hloop, hl2]
    exact heartbeatArmed_mqttConnect_calls p tick _ l2 hc ha hq

theorem link_up_connects_at_once_witness :
    sampleNetworkClient.lan_ok_ = false ∧
      tickLinkUpClientDisconnected.wifi_connected = true ∧
      tickLinkUpClientDisconnected.connected = false ∧
      (sampleNetworkClient.loop sampleNetworkConfig tickLinkUpClientDisconnected).trace =
        [NetEvent.ntpLoop, NetEvent.timerCancel, NetEvent.mqttConnect "kwlClient:kwl".toList,
          NetEvent.mqttSubscribe "kwl/cmd/#".toList,
          NetEvent.mqttSubscribe "kwl/cmddebug/#".toList, NetEvent.timerRunRepeated,
          NetEvent.mqttLoop] ∧
      ((sampleNetworkClient.loop sampleNetworkConfig tickLinkUpClientDisconnected).lan_ok_ =
          true ∧
        (sampleNetworkClient.loop sampleNetworkConfig tickLinkUpClientDisconnected).mqtt_ok_ =
          tickLinkUpClientDisconnected.connected_after ∧
        (∃ l1 l2,
          (sampleNetworkClient.loop sampleNetworkConfig tickLinkUpClientDisconnected).trace =
            sampleNetworkClient.trace ++ l1 ++
              NetEvent.mqttConnect
                ("kwlClient:".toList ++ tickLinkUpClientDisconnected.getMQTTPrefix) :: l2) ∧
        (tickLinkUpClientDisconnected.connect = true →
          tickLinkUpClientDisconnected.connected_after = true →
          heartbeatArmed (sampleNetworkClient.loop sampleNetworkConfig
            tickLinkUpClientDisconnected).trace = true)) :=
  ⟨rfl, rfl, rfl, by decide,
    link_up_connects_at_once sampleNetworkConfig tickLinkUpClientDisconnected
      sampleNetworkClient rfl rfl rfl⟩

/-! ## Inbound routing -/

theorem take_length_eq_iff (x c : List Char) :
    x.take c.length = c ↔ ∃ rest, x = c ++ rest := by
  constructor
  · intro h
    refine ⟨x.drop c.length, ?_⟩
    conv_lhs => rw [← List.take_append_drop c.length x]
    rw [h]
  · rintro ⟨rest, rfl⟩
    exact List.take_left _ _

/-- The comparison of the first `strlen(P)` bytes succeeds exactly on the
topics that start with `P`. -/
theorem memcmp_eq_iff (topic P : List Char) (hnul : Char.ofNat 0 ∉ P) :
    memcmp_eq topic P P.length = true ↔ ∃ rest, topic = P ++ rest := by
  unfold memcmp_eq
  rw [beq_iff_eq, List.take_left]
  constructor
  · intro h
    by_cases hlen : P.length ≤ topic.length
    · rw [List.take_append_of_le_length hlen] at h
      exact (take_length_eq_iff topic P).mp h
    · exfalso
      have hl : (topic ++ [Char.ofNat 0]).length ≤ P.length := by
        rw [List.length_append, List.length_singleton]
        omega
      rw [List.take_of_length_le hl] at h
      apply hnul
      rw [← h]
      simp
  · rintro ⟨rest, rfl⟩
    rw [List.append_assoc, List.take_left]

/-- C19: with the configured prefix `P` (a C string of fewer than 256
characters), a debug-command marker that ends in `/` and markers of which
neither topic class carries both, the inbound callback dispatches a topic `P`
followed by the command marker and a rest as the rest, a topic `P` followed by
the debug-command marker and a rest as `/` followed by the rest, and drops every
other topic without a dispatch. -/
theorem inbound_routing (p : NetworkConfig) (P topic body : List Char)
    (hlen : P.length < 256) (hnul : Char.ofNat 0 ∉ P)
    (hdebug : p.CommandDebug = body ++ ['/'])
    (hdistinct : ∀ r r', p.Command ++ r ≠ p.CommandDebug ++ r') :
    (∀ rest, topic = P ++ p.Command ++ rest →
      inbound_callback p P (uint8_t P.length) topic = some rest) ∧
    (∀ rest, topic = P ++ p.CommandDebug ++ rest →
      inbound_callback p P (uint8_t P.length) topic = some ('/' :: rest)) ∧
    ((∀ rest, topic ≠ P ++ p.Command ++ rest) →
      (∀ rest, topic ≠ P ++ p.CommandDebug ++ rest) →
      inbound_callback p P (uint8_t P.length) topic = none) := by
  rw [uint8_t_of_small _ hlen]
  refine ⟨?_, ?_, ?_⟩
  · rintro rest rfl
    unfold inbound_callback
    rw [if_pos ((memcmp_eq_iff _ P hnul).mpr ⟨p.Command ++ rest, by rw [List.append_assoc]⟩)]
    dsimp only
    rw [List.append_assoc, List.drop_left, if_pos (List.take_left _ _), ← List.drop_drop,
      List.drop_left, List.drop_left]
  · rintro rest rfl
    unfold inbound_callback
    rw [if_pos ((memcmp_eq_iff _ P hnul).mpr ⟨p.CommandDebug ++ rest, by rw [List.append_assoc]⟩)]
    dsimp only
    rw [List.append_assoc, List.drop_left]
    have h1 : ¬ (p.CommandDebug ++ rest).take p.Command.length = p.Command := by
      intro h
      obtain ⟨r, hr⟩ := (take_length_eq_iff _ _).mp h
      exact hdistinct r rest hr.symm
    rw [if_neg h1, if_pos (List.take_left _ _)]
    have h2 : P.length + p.CommandDebug.length - 1 = P.length + body.length := by
      rw [hdebug, List.length_append, List.length_singleton]
      omega
    rw [h2, ← List.drop_drop, List.drop_left, hdebug, List.append_assoc, List.drop_left]
    rfl
  · intro hc hd
    unfold inbound_callback
    by_cases hm : memcmp_eq topic P P.length = true
    · rw [if_pos hm]
      obtain ⟨x, rfl⟩ := (memcmp_eq_iff _ P hnul).mp hm
      dsimp only
      rw [List.drop_left]
      have h1 : ¬ x.take p.Command.length = p.Command := by
        intro h
        obtain ⟨r, hr⟩ := (take_length_eq_iff _ _).mp h
        exact hc r (by rw [hr, List.append_assoc])
      have h2 : ¬ x.take p.CommandDebug.length = p.CommandDebug := by
        intro h
        obtain ⟨r, hr⟩ := (take_length_eq_iff _ _).mp h
        exact hd r (by rw [hr, List.append_assoc])
      rw [if_neg h1, if_neg h2]
    · rw [if_neg hm]

theorem inbound_routing_witness :
    "kwl".toList.length < 256 ∧ Char.ofNat 0 ∉ "kwl".toList ∧
      sampleNetworkConfig.CommandDebug = "/cmddebug".toList ++ ['/'] ∧
      inbound_callback sampleNetworkConfig "kwl".toList (uint8_t "kwl".toList.length)
        "kwl/cmd/SetProgram/03/data".toList = some "SetProgram/03/data".toList ∧
      inbound_callback sampleNetworkConfig "kwl".toList (uint8_t "kwl".toList.length)
        "kwl/cmddebug/x".toList = some "/x".toList ∧
      inbound_callback sampleNetworkConfig "kwl".toList (uint8_t "kwl".toList.length)
        "other/cmd/x".toList = none ∧
      ((∀ rest, "kwl/cmd/SetProgram/03/data".toList =
            "kwl".toList ++ sampleNetworkConfig.Command ++ rest →
          inbound_callback sampleNetworkConfig "kwl".toList (uint8_t "kwl".toList.length)
            "kwl/cmd/SetProgram/03/data".toList = some rest) ∧
        (∀ rest, "kwl/cmd/SetProgram/03/data".toList =
            "kwl".toList ++ sampleNetworkConfig.CommandDebug ++ rest →
          inbound_callback sampleNetworkConfig "kwl".toList (uint8_t "kwl".toList.length)
            "kwl/cmd/SetProgram/03/data".toList = some ('/' :: rest)) ∧
        ((∀ rest, "kwl/cmd/SetProgram/03/data".toList ≠
            "kwl".toList ++ sampleNetworkConfig.Command ++ rest) →
          (∀ rest, "kwl/cmd/SetProgram/03/data".toList ≠
            "kwl".toList ++ sampleNetworkConfig.CommandDebug ++ rest) →
          inbound_callback sampleNetworkConfig "kwl".toList (uint8_t "kwl".toList.length)
            "kwl/cmd/SetProgram/03/data".toList = none)) :=
  ⟨by decide, by decide, by decide, by decide, by decide, by decide,
    inbound_routing sampleNetworkConfig "kwl".toList "kwl/cmd/SetProgram/03/data".toList
      "/cmddebug".toList (by decide) (by decide) (by decide)
      (by
        intro r r' h
        have h5 := congrArg (fun l => l.get? 4) h
        revert h5
        simp [sampleNetworkConfig])⟩

/-! ## Logs of publish calls -/

theorem published_ok_append (l1 l2 : List (Message × Bool)) :
    published_ok (l1 ++ l2) = published_ok l1 ++ published_ok l2 := by
  unfold published_ok
  rw [List.filter_append, List.map_append]

theorem published_ok_singleton (m : Message) (ok : Bool) :
    published_ok [(m, ok)] = if ok then [m] else [] := by
  cases ok <;> rfl

theorem FaithfulLog.snoc {msg : Nat → Message} {log : List (Message × Bool)}
    (h : FaithfulLog msg log) (ok : Bool) :
    FaithfulLog msg (log ++ [(msg (published_ok log).length, ok)]) := by
  intro j e hj
  by_cases hlt : j < log.length
  · rw [List.getElem?_append_left hlt] at hj
    rw [List.take_append_of_le_length (le_of_lt hlt)]
    exact h j e hj
  · have hge : log.length ≤ j := by omega
    rw [List.getElem?_append_right hge] at hj
    have hj0 : j - log.length = 0 := by
      by_contra hne
      rw [List.getElem?_eq_none_iff.mpr (by simp; omega)] at hj
      exact Option.noConfusion hj
    have hjl : j = log.length := by omega
    rw [hj0] at hj
    simp only [List.getElem?_cons_zero, Option.some.injEq] at hj
    rw [← hj, hjl, List.take_left]

theorem FaithfulLog.init {msg : Nat → Message} {log : List (Message × Bool)}
    {x : Message × Bool} (h : FaithfulLog msg (log ++ [x])) :
    FaithfulLog msg log ∧ x.1 = msg (published_ok log).length := by
  constructor
  · intro j e hj
    have hlt : j < log.length := by
      by_contra hge
      rw [List.getElem?_eq_none_iff.mpr (by omega)] at hj
      exact Option.noConfusion hj
    have := h j e (by rw [List.getElem?_append_left hlt]; exact hj)
    rw [List.take_append_of_le_length (le_of_lt hlt)] at this
    exact this
  · have := h log.length x (by rw [List.getElem?_append_right (le_refl _)]; simp)
    rw [List.take_left] at this
    exact this

/-- In a faithful log the messages published successfully are the first
messages of the export, in order, each once. -/
theorem FaithfulLog.published {msg : Nat → Message} (log : List (Message × Bool))
    (h : FaithfulLog msg log) :
    published_ok log = (List.range (published_ok log).length).map msg := by
  induction log using List.reverseRecOn with
  | nil => rfl
  | append_singleton l x ih =>
    obtain ⟨hl, hx⟩ := h.init
    have ih' := ih hl
    rw [published_ok_append]
    obtain ⟨m, ok⟩ := x
    rw [published_ok_singleton]
    cases ok with
    | false => simpa using ih'
    | true =>
      simp only [if_true, List.length_append, List.length_singleton, List.range_succ,
        List.map_append, List.map_cons, List.map_nil]
      rw [← ih']
      simp only at hx
      rw [hx]

/-! ## The job of `publishProgramIndex` -/

theorem successes_succ (outcome : Nat → Bool) (n : Nat) :
    successes outcome (n + 1) = successes outcome n + (if outcome n then 1 else 0) := by
  unfold successes
  rw [List.range_succ, List.filter_append, List.length_append]
  cases h : outcome n <;> simp [h]

theorem outcome_snoc {outcome : Nat → Bool} {log : List (Message × Bool)}
    (h : ∀ j e, log[j]? = some e → e.2 = outcome j) (m : Message) :
    ∀ j e, (log ++ [(m, outcome log.length)])[j]? = some e → e.2 = outcome j := by
  intro j e hj
  by_cases hlt : j < log.length
  · rw [List.getElem?_append_left hlt] at hj
    exact h j e hj
  · have hge : log.length ≤ j := by omega
    rw [List.getElem?_append_right hge] at hj
    have hj0 : j - log.length = 0 := by
      by_contra hne
      rw [List.getElem?_eq_none_iff.mpr (by simp; omega)] at hj
      exact Option.noConfusion hj
    have hjl : j = log.length := by omega
    rw [hj0] at hj
    simp only [List.getElem?_cons_zero, Option.some.injEq] at hj
    rw [← hj, hjl]

theorem successes_mono (outcome : Nat → Bool) (n : Nat) :
    successes outcome n ≤ successes outcome (n + 1) := by
  rw [successes_succ]; omega

theorem ProgramManager.indexJob_step_index (KwlProgramIndex KwlProgramSet : List Char)
    (job : ProgramManager.IndexJob) (tr : Transport) (hs : job.state = 0) :
    ProgramManager.indexJob_step KwlProgramIndex KwlProgramSet job tr =
      (false, if tr.outcome tr.log.length = true then { job with state := 1 } else job,
        ⟨tr.outcome, tr.log ++ [(⟨KwlProgramIndex, decimal job.program⟩,
          tr.outcome tr.log.length)]⟩) := by
  unfold ProgramManager.indexJob_step Transport.publish
  rw [if_pos hs]

theorem ProgramManager.indexJob_step_set (KwlProgramIndex KwlProgramSet : List Char)
    (job : ProgramManager.IndexJob) (tr : Transport) (hs : job.state = 1) :
    ProgramManager.indexJob_step KwlProgramIndex KwlProgramSet job tr =
      (tr.outcome tr.log.length, job,
        ⟨tr.outcome, tr.log ++ [(⟨KwlProgramSet, decimal job.set⟩,
          tr.outcome tr.log.length)]⟩) := by
  unfold ProgramManager.indexJob_step Transport.publish
  rw [if_neg (by omega), if_pos hs]

theorem ProgramManager.indexJob_poll_inv (KwlProgramIndex KwlProgramSet : List Char)
    (pm : ProgramManager) (outcome : Nat → Bool) (n : Nat) :
    ProgramManager.IndexJobInv KwlProgramIndex KwlProgramSet pm outcome n
      (ProgramManager.indexJob_poll KwlProgramIndex KwlProgramSet pm outcome n) := by
  induction n with
  | zero =>
    refine ⟨rfl, rfl, rfl, ?_, ?_, fun _ => ⟨rfl, Nat.zero_le 1, rfl, rfl⟩,
      fun h => Bool.noConfusion h⟩
    · intro j e hj; exact Option.noConfusion hj
    · intro j e hj; exact Option.noConfusion hj
  | succ n ih =>
    unfold ProgramManager.indexJob_poll
    by_cases hd : (ProgramManager.indexJob_poll KwlProgramIndex KwlProgramSet pm outcome n).1 = true
    · rw [if_pos hd]
      obtain ⟨h1, h2, h3, h4, h5, h6, h7⟩ := ih
      refine ⟨h1, h2, h3, h4, h5, fun h => ?_, fun _ => ⟨?_, (h7 hd).2⟩⟩
      · rw [hd] at h; exact Bool.noConfusion h
      · have := (h7 hd).1
        have := successes_mono outcome n
        omega
    · rw [if_neg hd]
      have hd' : (ProgramManager.indexJob_poll KwlProgramIndex KwlProgramSet pm outcome n).1 =
          false := by simpa using hd
      obtain ⟨h1, h2, h3, h4, h5, h6, -⟩ := ih
      obtain ⟨g1, g2, g3, g4⟩ := h6 hd'
      clear h6 hd hd'
      generalize (ProgramManager.indexJob_poll KwlProgramIndex KwlProgramSet pm outcome n).2.1 =
        job at *
      generalize (ProgramManager.indexJob_poll KwlProgramIndex KwlProgramSet pm outcome n).2.2 =
        tr at *
      have hf := h4.snoc (outcome n)
      have ho := outcome_snoc h5
      rw [g3] at ho
      rw [g4] at hf
      have hsucc := successes_succ outcome n
      have hlen : ∀ (m : Message) (ok : Bool),
          (published_ok (tr.log ++ [(m, ok)])).length = job.state + (if ok then 1 else 0) := by
        intro m ok
        rw [published_ok_append, List.length_append, g4, published_ok_singleton]
        cases ok <;> rfl
      unfold ProgramManager.IndexJobInv
      by_cases hs : job.state = 0
      · rw [ProgramManager.indexJob_step_index _ _ _ _ hs, h3, g3]
        rw [hs] at hf
        have hm : ProgramManager.indexJob_message KwlProgramIndex KwlProgramSet pm 0 =
            ⟨KwlProgramIndex, decimal job.program⟩ := by
          unfold ProgramManager.indexJob_message
          rw [if_pos rfl, h1]
        rw [hm] at hf
        cases hok : outcome n
        · rw [hok] at hf hsucc
          rw [if_neg (by simp)]
          refine ⟨h1, h2, rfl, hf, ?_, fun _ => ⟨?_, g2, ?_, ?_⟩, fun h => Bool.noConfusion h⟩
          · have := ho ⟨KwlProgramIndex, decimal job.program⟩
            rw [hok] at this
            exact this
          · show job.state = successes outcome (n + 1)
            rw [hsucc, g1]; simp
          · show (tr.log ++ [_]).length = n + 1
            rw [List.length_append, g3]; rfl
          · show (published_ok (tr.log ++ [_])).length = job.state
            rw [hlen]; simp
        · rw [hok] at hf hsucc
          rw [if_pos rfl]
          refine ⟨h1, h2, rfl, hf, ?_, fun _ => ⟨?_, le_refl 1, ?_, ?_⟩,
            fun h => Bool.noConfusion h⟩
          · have := ho ⟨KwlProgramIndex, decimal job.program⟩
            rw [hok] at this
            exact this
          · show 1 = successes outcome (n + 1)
            rw [hsucc, ← g1, hs]; simp
          · show (tr.log ++ [_]).length = n + 1
            rw [List.length_append, g3]; rfl
          · show (published_ok (tr.log ++ [_])).length = 1
            rw [hlen, hs]; simp
      · have hs1 : job.state = 1 := by omega
        rw [ProgramManager.indexJob_step_set _ _ _ _ hs1, h3, g3]
        rw [hs1] at hf
        have hm : ProgramManager.indexJob_message KwlProgramIndex KwlProgramSet pm 1 =
            ⟨KwlProgramSet, decimal job.set⟩ := by
          unfold ProgramManager.indexJob_message
          rw [if_neg (by decide), h2]
        rw [hm] at hf
        cases hok : outcome n
        · rw [hok] at hf hsucc
          refine ⟨h1, h2, rfl, hf, ?_, fun _ => ⟨?_, g2, ?_, ?_⟩, fun h => Bool.noConfusion h⟩
          · have := ho ⟨KwlProgramSet, decimal job.set⟩
            rw [hok] at this
            exact this
          · show job.state = successes outcome (n + 1)
            rw [hsucc, g1]; simp
          · show (tr.log ++ [_]).length = n + 1
            rw [List.length_append, g3]; rfl
          · show (published_ok (tr.log ++ [_])).length = job.state
            rw [hlen]; simp
        · rw [hok] at hf hsucc
          refine ⟨h1, h2, rfl, hf, ?_, fun h => Bool.noConfusion h, fun _ => ⟨?_, ?_⟩⟩
          · have := ho ⟨KwlProgramSet, decimal job.set⟩
            rw [hok] at this
            exact this
          · rw [hsucc, ← g1, hs1]; simp
          · show (published_ok (tr.log ++ [_])).length = 2
            rw [hlen, hs1]; simp

/-- An index job on which the calls 1 and 3 succeed: after three ticks it is
still running, after four it has reported completion; the index was sent until
it got through, then the set. -/
theorem indexJob_poll_example :
    (ProgramManager.indexJob_poll "idx".toList "set".toList sampleManager
        (fun n => decide (n = 1 ∨ n = 3)) 3).1 = false ∧
      (ProgramManager.indexJob_poll "idx".toList "set".toList sampleManager
        (fun n => decide (n = 1 ∨ n = 3)) 4).1 = true ∧
      (ProgramManager.indexJob_poll "idx".toList "set".toList sampleManager
        (fun n => decide (n = 1 ∨ n = 3)) 4).2.2.log.map
          (fun e => (String.mk e.1.topic, String.mk e.1.payload, e.2)) =
        [("idx", "-2", false), ("idx", "-2", true), ("set", "1", false), ("set", "1", true)] := by
  refine ⟨by decide, by decide, by decide⟩

/-- C21: for every sequence of publish outcomes and every number of ticks, the
job installed by `publishProgramIndex` (which captured the active program index
and the program-set index of the state in which it was created) has made one
publish call per tick until it reported completion, each with the outcome of
the transport; every call sent the index message as long as no call had
succeeded and the set message afterwards, so a failed set publish is followed
by the set message again; the messages published successfully are the first
`successes` of index message, set message; and the job has reported completion
exactly when two calls have succeeded, that is exactly when the messages
published successfully are index message, set message; after that it makes no
further call. -/
theorem publishProgramIndex_job_index_then_set (KwlProgramIndex KwlProgramSet : List Char)
    (pm : ProgramManager) (outcome : Nat → Bool) (n : Nat) :
    pm.publishProgramIndex.trace.getLast? =
        some (Event.publishIndex pm.publishProgramIndex_job.program
          pm.publishProgramIndex_job.set) ∧
      FaithfulLog (ProgramManager.indexJob_message KwlProgramIndex KwlProgramSet pm)
        (ProgramManager.indexJob_poll KwlProgramIndex KwlProgramSet pm outcome n).2.2.log ∧
      (∀ j e, (ProgramManager.indexJob_poll KwlProgramIndex KwlProgramSet pm outcome
        n).2.2.log[j]? = some e → e.2 = outcome j) ∧
      published_ok (ProgramManager.indexJob_poll KwlProgramIndex KwlProgramSet pm outcome
          n).2.2.log =
        [(⟨KwlProgramIndex, decimal pm.current_program_⟩ : Message),
          ⟨KwlProgramSet, decimal pm.getProgramSetIndex⟩].take (successes outcome n) ∧
      ((ProgramManager.indexJob_poll KwlProgramIndex KwlProgramSet pm outcome n).1 = true ↔
        2 ≤ successes outcome n) ∧
      ((ProgramManager.indexJob_poll KwlProgramIndex KwlProgramSet pm outcome n).1 = true ↔
        published_ok (ProgramManager.indexJob_poll KwlProgramIndex KwlProgramSet pm outcome
            n).2.2.log =
          [⟨KwlProgramIndex, decimal pm.current_program_⟩,
            ⟨KwlProgramSet, decimal pm.getProgramSetIndex⟩]) ∧
      ((ProgramManager.indexJob_poll KwlProgramIndex KwlProgramSet pm outcome n).1 = false →
        (ProgramManager.indexJob_poll KwlProgramIndex KwlProgramSet pm outcome n).2.2.log.length =
          n) ∧
      ((ProgramManager.indexJob_poll KwlProgramIndex KwlProgramSet pm outcome n).1 = true →
        ProgramManager.indexJob_poll KwlProgramIndex KwlProgramSet pm outcome (n + 1) =
          ProgramManager.indexJob_poll KwlProgramIndex KwlProgramSet pm outcome n) := by
  obtain ⟨-, -, -, h4, h5, h6, h7⟩ :=
    ProgramManager.indexJob_poll_inv KwlProgramIndex KwlProgramSet pm outcome n
  have hpub := FaithfulLog.published _ h4
  have hstep : ProgramManager.indexJob_poll KwlProgramIndex KwlProgramSet pm outcome (n + 1) =
      if (ProgramManager.indexJob_poll KwlProgramIndex KwlProgramSet pm outcome n).1 = true then
        ProgramManager.indexJob_poll KwlProgramIndex KwlProgramSet pm outcome n
      else
        ProgramManager.indexJob_step KwlProgramIndex KwlProgramSet
          (ProgramManager.indexJob_poll KwlProgramIndex KwlProgramSet pm outcome n).2.1
          (ProgramManager.indexJob_poll KwlProgramIndex KwlProgramSet pm outcome n).2.2 := rfl
  have hlast : pm.publishProgramIndex.trace.getLast? =
      some (Event.publishIndex pm.publishProgramIndex_job.program
        pm.publishProgramIndex_job.set) := by
    simp [ProgramManager.publishProgramIndex, ProgramManager.publishProgramIndex_job]
  cases hd : (ProgramManager.indexJob_poll KwlProgramIndex KwlProgramSet pm outcome n).1
  · obtain ⟨g1, g2, g3, g4⟩ := h6 hd
    have hlen : (published_ok (ProgramManager.indexJob_poll KwlProgramIndex KwlProgramSet pm
        outcome n).2.2.log).length = successes outcome n := by rw [g4, g1]
    have hle : successes outcome n ≤ 1 := by omega
    rw [hlen] at hpub
    have htake : published_ok (ProgramManager.indexJob_poll KwlProgramIndex KwlProgramSet pm
        outcome n).2.2.log =
        [(⟨KwlProgramIndex, decimal pm.current_program_⟩ : Message),
          ⟨KwlProgramSet, decimal pm.getProgramSetIndex⟩].take (successes outcome n) := by
      rw [hpub]
      rcases Nat.le_one_iff_eq_zero_or_eq_one.mp hle with h0 | h1
      · rw [h0]; rfl
      · rw [h1]; rfl
    refine ⟨hlast, h4, h5, htake, ?_, ?_, fun _ => g3, fun h => Bool.noConfusion h⟩
    · constructor
      · intro h; exact Bool.noConfusion h
      · intro h; omega
    · constructor
      · intro h; exact Bool.noConfusion h
      · intro h
        have := congrArg List.length h
        rw [hlen] at this
        simp at this
        omega
  · obtain ⟨g1, g2⟩ := h7 hd
    rw [g2] at hpub
    have htwo : published_ok (ProgramManager.indexJob_poll KwlProgramIndex KwlProgramSet pm
        outcome n).2.2.log =
        [(⟨KwlProgramIndex, decimal pm.current_program_⟩ : Message),
          ⟨KwlProgramSet, decimal pm.getProgramSetIndex⟩] := by
      rw [hpub]; rfl
    refine ⟨hlast, h4, h5, ?_, ?_, ?_, fun h => Bool.noConfusion h, fun _ => ?_⟩
    · rw [htwo, List.take_of_length_le (by simpa using g1)]
    · exact ⟨fun _ => g1, fun _ => rfl⟩
    · exact ⟨fun _ => htwo, fun _ => rfl⟩
    · rw [hstep, if_pos hd]

/-! ## `setProgram` and `enableProgram`: the publish jobs -/

/-- The loop of `run` reads the program table, the program-set index and the
time only. -/
theorem ProgramManager.run_program_congr (k : KWLConfig) (s s' : ProgramManager)
    (hp : s'.getProgram = s.getProgram) (hs : s'.getProgramSetIndex = s.getProgramSetIndex)
    (ht : s'.currentTimeHMS = s.currentTimeHMS) :
    ProgramManager.run_program k s' = ProgramManager.run_program k s := by
  unfold ProgramManager.run_program
  rw [hp, hs, ht]

/-- `run` changes nothing when the loop finds the active program again or no
time is available. -/
theorem ProgramManager.run_of_same (k : KWLConfig) (s : ProgramManager)
    (h : s.hasTime = false ∨ ProgramManager.run_program k s = s.current_program_) :
    ProgramManager.run k s = s := by
  unfold ProgramManager.run
  cases ht : s.hasTime
  · simp
  · rcases h with h | h
    · rw [ht] at h; exact Bool.noConfusion h
    · simp only [Bool.not_true, Bool.false_eq_true, if_false]
      rw [if_neg (not_not.mpr h)]

/-- For an index up to `MaxProgramCount`, `setProgram` ends with the job for the
slot handed to `publisher_` and the index job handed to `prognum_publisher_`. -/
theorem ProgramManager.setProgram_installs_jobs (k : KWLConfig) (index : Nat)
    (program : ProgramData) (s : ProgramManager) (hidx : index ≤ k.MaxProgramCount) :
    ∃ l, (ProgramManager.setProgram k index program s).trace =
      s.trace ++ Event.configSetProgram index program :: l ++
        [Event.publish (ProgramJob.sendProgram index),
          Event.publishIndex (ProgramManager.setProgram k index program s).current_program_
            s.getProgramSetIndex] := by
  unfold ProgramManager.setProgram
  rw [if_neg (by omega)]
  simp only []
  split_ifs
  · obtain ⟨l, hl⟩ := ProgramManager.run_trace k
      { ProgramManager.config_setProgram index program s with current_program_ := -1 }
    refine ⟨l, ?_⟩
    simp only [ProgramManager.publishProgramIndex, ProgramManager.publishProgram, hl,
      ProgramManager.run_getProgramSetIndex]
    simp [ProgramManager.config_setProgram]
  · obtain ⟨l, hl⟩ := ProgramManager.run_trace k (ProgramManager.config_setProgram index program s)
    refine ⟨l, ?_⟩
    simp only [ProgramManager.publishProgramIndex, ProgramManager.publishProgram, hl,
      ProgramManager.run_getProgramSetIndex]
    simp [ProgramManager.config_setProgram]

/-- C22 (the code at the failing input): for a slot index that is not the
active one, when the re-evaluation finds the active program again or no time is
available, `enableProgram` stores the mask and hands the job for the slot to
`publisher_`, and that is all: no job for the active-index/active-set pair is
handed to `prognum_publisher_`. -/
theorem enableProgram_installs_no_index_job (k : KWLConfig) (index progsetmask : Nat)
    (s : ProgramManager) (hidx : index < k.MaxProgramCount)
    (hne : index ≠ unsigned s.current_program_)
    (hsame : s.hasTime = false ∨
      ProgramManager.run_program k (s.config_enableProgram index progsetmask) =
        s.current_program_) :
    ProgramManager.enableProgram k index progsetmask s =
        { s.config_enableProgram index progsetmask with
          trace := s.trace ++ [Event.configEnableProgram index progsetmask,
            Event.publish (ProgramJob.sendProgram index)] } ∧
      ∀ program set, Event.publishIndex program set ∉
        [Event.configEnableProgram index progsetmask,
          Event.publish (ProgramJob.sendProgram index)] := by
  constructor
  · unfold ProgramManager.enableProgram
    rw [if_neg (by omega)]
    simp only []
    have hc : (s.config_enableProgram index progsetmask).current_program_ = s.current_program_ :=
      rfl
    rw [hc, if_neg hne,
      ProgramManager.run_of_same k (s.config_enableProgram index progsetmask) hsame]
    simp [ProgramManager.publishProgram, ProgramManager.config_enableProgram]
  · intro program set h
    simp at h

theorem enableProgram_installs_no_index_job_witness :
    3 < sampleConfig.MaxProgramCount ∧
      sampleManagerRunning.current_program_ = 5 ∧
      sampleManagerRunning.hasTime = true ∧
      (ProgramManager.enableProgram sampleConfig 3 0xff sampleManagerRunning).trace =
        sampleManagerRunning.trace ++ [Event.configEnableProgram 3 0xff,
          Event.publish (ProgramJob.sendProgram 3)] ∧
      (ProgramManager.setProgram sampleConfig 3 (sampleManagerRunning.getProgram 3)
          sampleManagerRunning).trace =
        sampleManagerRunning.trace ++ [Event.configSetProgram 3 (sampleManagerRunning.getProgram 3),
          Event.publish (ProgramJob.sendProgram 3), Event.publishIndex 5 1] ∧
      (ProgramManager.enableProgram sampleConfig 3 0xff sampleManagerRunning =
          { sampleManagerRunning.config_enableProgram 3 0xff with
            trace := sampleManagerRunning.trace ++ [Event.configEnableProgram 3 0xff,
              Event.publish (ProgramJob.sendProgram 3)] } ∧
        ∀ program set, Event.publishIndex program set ∉
          [Event.configEnableProgram 3 0xff, Event.publish (ProgramJob.sendProgram 3)]) :=
  ⟨by decide, by decide, by decide, by decide, by decide,
    enableProgram_installs_no_index_job sampleConfig 3 0xff sampleManagerRunning (by decide)
      (by decide) (Or.inr (by decide))⟩

/-! ## `setProgram` with the data already stored -/

/-- C23: with a program-set index in 0..7 and the active index being the highest
qualifying slot at the current time (-1 when there is none), storing in a slot
`i` other than the active one the data it already holds leaves the state as it
was but for three calls: the persistence call, the job for slot `i` and the
index job with the unchanged active index; the active index is unchanged and no
`setVentilationMode` call is made. The time source is read by the evaluation
only; the statement needs no assumption on it. -/
theorem setProgram_same_data_keeps_active (k : KWLConfig) (s : ProgramManager) (i : Nat)
    (hN : k.MaxProgramCount ≤ 127) (hset : s.getProgramSetIndex ≤ 7)
    (hw : ProgramManager.IsWinner k s s.current_program_)
    (hi : i < k.MaxProgramCount) (hne : (i : Int) ≠ s.current_program_) :
    ProgramManager.setProgram k i (s.getProgram i) s =
        { s with
          trace := s.trace ++ [Event.configSetProgram i (s.getProgram i),
            Event.publish (ProgramJob.sendProgram i),
            Event.publishIndex s.current_program_ s.getProgramSetIndex] } ∧
      (ProgramManager.setProgram k i (s.getProgram i) s).current_program_ = s.current_program_ ∧
      ∀ mode, Event.setVentilationMode mode ∉
        [Event.configSetProgram i (s.getProgram i), Event.publish (ProgramJob.sendProgram i),
          Event.publishIndex s.current_program_ s.getProgramSetIndex] := by
  have hstore : s.config_setProgram i (s.getProgram i) =
      { s with trace := s.trace ++ [Event.configSetProgram i (s.getProgram i)] } := by
    unfold ProgramManager.config_setProgram
    have : (fun j => if j = i then s.getProgram i else s.getProgram j) = s.getProgram := by
      funext j
      by_cases hj : j = i
      · rw [if_pos hj, hj]
      · rw [if_neg hj]
    rw [this]
  have hu : i ≠ unsigned s.current_program_ := by
    rcases hw with ⟨hr, -⟩ | ⟨j, hr, hq, -⟩
    · rw [hr]
      have : unsigned (-1) = 65535 := by decide
      rw [this]
      omega
    · rw [hr, unsigned_of_small j (by have := hq.1; omega)]
      intro h
      apply hne
      rw [hr, h]
  have hrun : ProgramManager.run_program k
      { s with trace := s.trace ++ [Event.configSetProgram i (s.getProgram i)] } =
      s.current_program_ := by
    rw [ProgramManager.run_program_congr k s
      { s with trace := s.trace ++ [Event.configSetProgram i (s.getProgram i)] } rfl rfl rfl]
    exact (ProgramManager.run_program_isWinner k s hN hset).unique hw
  have hmain : ProgramManager.setProgram k i (s.getProgram i) s =
      { s with
        trace := s.trace ++ [Event.configSetProgram i (s.getProgram i),
          Event.publish (ProgramJob.sendProgram i),
          Event.publishIndex s.current_program_ s.getProgramSetIndex] } := by
    unfold ProgramManager.setProgram
    rw [if_neg (by omega), hstore]
    simp only []
    rw [if_neg hu, ProgramManager.run_of_same k
      { s with trace := s.trace ++ [Event.configSetProgram i (s.getProgram i)] } (Or.inr hrun)]
    simp [ProgramManager.publishProgram, ProgramManager.publishProgramIndex]
  refine ⟨hmain, by rw [hmain], ?_⟩
  intro mode h
  simp at h

theorem setProgram_same_data_keeps_active_witness :
    sampleConfig.MaxProgramCount ≤ 127 ∧
      sampleManagerRunning.getProgramSetIndex ≤ 7 ∧
      sampleManagerRunning.hasTime = true ∧
      sampleManagerRunning.current_program_ = 5 ∧
      ProgramManager.IsWinner sampleConfig sampleManagerRunning
        sampleManagerRunning.current_program_ ∧
      2 < sampleConfig.MaxProgramCount ∧
      ((2 : Nat) : Int) ≠ sampleManagerRunning.current_program_ ∧
      (ProgramManager.setProgram sampleConfig 2 (sampleManagerRunning.getProgram 2)
          sampleManagerRunning =
          { sampleManagerRunning with
            trace := sampleManagerRunning.trace ++
              [Event.configSetProgram 2 (sampleManagerRunning.getProgram 2),
                Event.publish (ProgramJob.sendProgram 2),
                Event.publishIndex sampleManagerRunning.current_program_
                  sampleManagerRunning.getProgramSetIndex] } ∧
        (ProgramManager.setProgram sampleConfig 2 (sampleManagerRunning.getProgram 2)
          sampleManagerRunning).current_program_ = sampleManagerRunning.current_program_ ∧
        ∀ mode, Event.setVentilationMode mode ∉
          [Event.configSetProgram 2 (sampleManagerRunning.getProgram 2),
            Event.publish (ProgramJob.sendProgram 2),
            Event.publishIndex sampleManagerRunning.current_program_
              sampleManagerRunning.getProgramSetIndex]) :=
  have hw : ProgramManager.IsWinner sampleConfig sampleManagerRunning
      sampleManagerRunning.current_program_ :=
    (show ProgramManager.run_program sampleConfig sampleManagerRunning =
        sampleManagerRunning.current_program_ by decide) ▸
      ProgramManager.run_program_isWinner sampleConfig sampleManagerRunning (by decide)
        (by decide)
  ⟨by decide, by decide, by decide, by decide, hw, by decide, by decide,
    setProgram_same_data_keeps_active sampleConfig sampleManagerRunning 2 (by decide)
      (by decide) hw (by decide) (by decide)⟩

/-! ## Program texts without the optional fields -/

theorem scan_u_last_digit (a : Nat) (ha : a < 10) : scan_u [digitChar a] = some (a, []) := by
  obtain ⟨a1, a2, a3, a4, a5, a6⟩ := digitChar_facts a ha
  unfold scan_u
  simp [List.dropWhile_cons, List.takeWhile_cons, a1, a2, a4, a5, digitsValue, a3, unsigned]
  omega

/-- What `sscanf` delivers for a text of the form `HH:MM HH:MM M`: five items. -/
theorem sscanf_FORMAT_programText (sh sm eh em mode : Nat)
    (hsh : sh ≤ 23) (hsm : sm ≤ 59) (heh : eh ≤ 23) (hem : em ≤ 59) (hmode : mode ≤ 9) :
    sscanf_FORMAT (programText sh sm eh em mode) = ⟨5, sh, sm, eh, em, mode, [], []⟩ := by
  have hcolon : isdigit ':' = false := by decide
  have hblank : isdigit ' ' = false := by decide
  have hsp : isspace ' ' = true := by decide
  have d1 := digitChar_facts (eh / 10) (by omega)
  have d2 := digitChar_facts mode (by omega)
  have hnone : scan_s 7 (([] : List Char).dropWhile isspace) = none := by decide
  unfold sscanf_FORMAT programText HMS.writeHM
  simp only [List.cons_append, List.nil_append]
  rw [scan_u_two_digits _ _ _ _ (by omega) (by omega) hcolon]
  simp only [ne_eq, not_true_eq_false, if_false]
  rw [scan_u_two_digits _ _ _ _ (by omega) (by omega) hblank]
  simp only [List.dropWhile_cons, hsp, if_true, d1.2.1, Bool.false_eq_true, if_false]
  rw [scan_u_two_digits _ _ _ _ (by omega) (by omega) hcolon]
  simp only [ne_eq, not_true_eq_false, if_false]
  rw [scan_u_two_digits _ _ _ _ (by omega) (by omega) hblank]
  simp only [List.dropWhile_cons, hsp, if_true, d2.2.1, Bool.false_eq_true, if_false]
  rw [scan_u_last_digit _ (by omega)]
  simp only []
  rw [hnone]
  simp only [two_digits]

/-- What `sscanf` delivers for a text of the form `HH:MM HH:MM M wwwwwww`: six
items, the last of them the weekday string. -/
theorem sscanf_FORMAT_programText_weekdays (sh sm eh em mode : Nat) (wd : List Char)
    (hsh : sh ≤ 23) (hsm : sm ≤ 59) (heh : eh ≤ 23) (hem : em ≤ 59) (hmode : mode ≤ 9)
    (hwd : IsMaskText wd 7) :
    sscanf_FORMAT (programText sh sm eh em mode ++ ' ' :: wd) =
      ⟨6, sh, sm, eh, em, mode, wd, []⟩ := by
  have hcolon : isdigit ':' = false := by decide
  have hblank : isdigit ' ' = false := by decide
  have hsp : isspace ' ' = true := by decide
  have d1 := digitChar_facts (eh / 10) (by omega)
  have d2 := digitChar_facts mode (by omega)
  have hnone : scan_s 8 (([] : List Char).dropWhile isspace) = none := by decide
  have hne : wd ≠ [] := by
    intro h
    have := hwd.1
    rw [h] at this
    simp at this
  have htok : ∀ c ∈ wd, isspace c = false := by
    intro c hc
    rcases hwd.2 c hc with h | h <;> rw [h] <;> decide
  have hdrop : (' ' :: wd).dropWhile isspace = wd ++ [] := by
    rw [List.dropWhile_cons, if_pos hsp]
    have := dropWhile_isspace_token wd [] hne htok
    rw [List.append_nil] at this ⊢
    exact this
  have hs7 := scan_s_token 7 wd [] hne (le_of_eq hwd.1) htok (Or.inl rfl)
  unfold sscanf_FORMAT programText HMS.writeHM
  simp only [List.cons_append, List.nil_append, List.append_assoc]
  rw [scan_u_two_digits _ _ _ _ (by omega) (by omega) hcolon]
  simp only [ne_eq, not_true_eq_false, if_false]
  rw [scan_u_two_digits _ _ _ _ (by omega) (by omega) hblank]
  simp only [List.dropWhile_cons, hsp, if_true, d1.2.1, Bool.false_eq_true, if_false]
  rw [scan_u_two_digits _ _ _ _ (by omega) (by omega) hcolon]
  simp only [ne_eq, not_true_eq_false, if_false]
  rw [scan_u_two_digits _ _ _ _ (by omega) (by omega) hblank]
  simp only [List.dropWhile_cons, hsp, if_true, d2.2.1, Bool.false_eq_true, if_false]
  rw [scan_u_one_digit _ _ _ (by omega) hblank]
  simp only []
  rw [hdrop, hs7]
  simp only []
  rw [hnone]
  simp only [two_digits]

/-- The mask parsed from `n` characters `0` and `1` has bit `i` set exactly when
character `i` is `1`, and no bit from `n` on. -/
theorem parse_mask_bits (buf : List Char) (n : Nat) (hn : n ≤ 8)
    (h : ∀ i, i < n → buf.getD i (Char.ofNat 0) = '0' ∨ buf.getD i (Char.ofNat 0) = '1') :
    ∃ w, parse_mask buf n = some w ∧ w < 2 ^ n ∧
      ∀ i, i < n → (w.testBit i = true ↔ buf.getD i (Char.ofNat 0) = '1') := by
  induction n with
  | zero => exact ⟨0, rfl, by decide, fun i hi => absurd hi (Nat.not_lt_zero i)⟩
  | succ n ih =>
    obtain ⟨w, hw, hlt, hbits⟩ := ih (by omega) (fun i hi => h i (by omega))
    rw [parse_mask_succ, hw]
    have hpow : (2 : Nat) ^ n < 2 ^ (n + 1) := Nat.pow_lt_pow_right (by decide) (by omega)
    have hwn : w.testBit n = false := Nat.testBit_lt_two_pow hlt
    rcases h n (by omega) with h0 | h1
    · refine ⟨w, by simp only [h0, if_true], by omega, ?_⟩
      intro i hi
      by_cases hin : i = n
      · rw [hin, hwn, h0]
        decide
      · exact hbits i (by omega)
    · have hne : buf.getD n (Char.ofNat 0) ≠ '0' := by rw [h1]; decide
      refine ⟨w ||| 2 ^ n, ?_, Nat.or_lt_two_pow (by omega) hpow, ?_⟩
      · rw [h1]
        show (if '1' = '0' then some w
          else if '1' = '1' then some (w ||| uint8_t (1 <<< n)) else none) = _
        rw [if_neg (by decide), if_pos rfl, uint8_t_bit n (by omega)]
      · intro i hi
        rw [Nat.testBit_or]
        by_cases hin : i = n
        · rw [hin, Nat.testBit_two_pow_self, h1]
          simp
        · rw [Nat.testBit_two_pow_of_ne (Ne.symm hin), Bool.or_false]
          exact hbits i (by omega)

theorem ProgramManager.setProgram_getProgram (k : KWLConfig) (index : Nat)
    (program : ProgramData) (s : ProgramManager) (hidx : index ≤ k.MaxProgramCount) :
    (ProgramManager.setProgram k index program s).getProgram index = program := by
  unfold ProgramManager.setProgram
  rw [if_neg (by omega)]
  simp only [ProgramManager.publishProgramIndex, ProgramManager.publishProgram]
  rw [ProgramManager.run_getProgram]
  split_ifs <;> simp [ProgramManager.config_setProgram]

/-- The record parsed from a text `HH:MM HH:MM M`: both masks are all-enabled. -/
theorem parse_program_programText (k : KWLConfig) (sh sm eh em mode : Nat)
    (hsh : sh ≤ 23) (hsm : sm ≤ 59) (heh : eh ≤ 23) (hem : em ≤ 59)
    (hmode : mode < k.StandardModeCnt) (hdigit : mode ≤ 9) :
    parse_program k true (programText sh sm eh em mode) =
      some ⟨sh, sm, eh, em, mode, 0x7f, 0xff, 0⟩ := by
  unfold parse_program
  simp only [sscanf_FORMAT_programText sh sm eh em mode hsh hsm heh hem hdigit]
  rw [if_neg (by simp), if_neg (by omega), if_neg (by omega), if_neg (by omega)]
  simp only [ge_iff_le, Nat.reduceLeDiff, if_false]
  rw [uint8_t_of_small _ (by omega), uint8_t_of_small _ (by omega),
    uint8_t_of_small _ (by omega), uint8_t_of_small _ (by omega),
    uint8_t_of_small _ (by omega)]

/-- The record parsed from a text `HH:MM HH:MM M wwwwwww`: the weekday mask is
the one parsed from the string, the program-set mask is all-enabled. -/
theorem parse_program_programText_weekdays (k : KWLConfig) (sh sm eh em mode : Nat)
    (wd : List Char) (w : Nat)
    (hsh : sh ≤ 23) (hsm : sm ≤ 59) (heh : eh ≤ 23) (hem : em ≤ 59)
    (hmode : mode < k.StandardModeCnt) (hdigit : mode ≤ 9)
    (hwd : IsMaskText wd 7) (hw : parse_mask wd 7 = some w) :
    parse_program k true (programText sh sm eh em mode ++ ' ' :: wd) =
      some ⟨sh, sm, eh, em, mode, w, 0xff, 0⟩ := by
  unfold parse_program
  simp only [sscanf_FORMAT_programText_weekdays sh sm eh em mode wd hsh hsm heh hem hdigit hwd]
  rw [if_neg (by simp), if_neg (by omega), if_neg (by omega), if_neg (by omega)]
  simp only [ge_iff_le, Nat.reduceLeDiff, if_false, le_refl, if_true, hw]
  rw [uint8_t_of_small _ (by omega), uint8_t_of_small _ (by omega),
    uint8_t_of_small _ (by omega), uint8_t_of_small _ (by omega),
    uint8_t_of_small _ (by omega)]

/-- The mask parsed from a string of 7 characters `0` and `1`. -/
theorem parse_mask_weekdays (wd : List Char) (hwd : IsMaskText wd 7) :
    ∃ w, parse_mask wd 7 = some w ∧ w < 128 ∧
      ∀ i, (w.testBit i = true ↔ wd[i]? = some '1') := by
  have hch : ∀ i, i < 7 → wd.getD i (Char.ofNat 0) = '0' ∨ wd.getD i (Char.ofNat 0) = '1' := by
    intro i hi
    have hlt : i < wd.length := by rw [hwd.1]; exact hi
    rw [List.getD_eq_getElem _ _ hlt]
    exact hwd.2 _ (List.getElem_mem _)
  obtain ⟨w, hw, hlt, hbits⟩ := parse_mask_bits wd 7 (by decide) hch
  refine ⟨w, hw, hlt, ?_⟩
  intro i
  by_cases hi : i < 7
  · have hlen : i < wd.length := by rw [hwd.1]; exact hi
    rw [hbits i hi, List.getD_eq_getElem _ _ hlen, List.getElem?_eq_getElem hlen]
    simp
  · have h1 : w.testBit i = false :=
      Nat.testBit_lt_two_pow (lt_of_lt_of_le hlt (Nat.pow_le_pow_right (by decide)
        (show 7 ≤ i by omega)))
    have h2 : wd[i]? = none := List.getElem?_eq_none_iff.mpr (by rw [hwd.1]; omega)
    rw [h1, h2]
    simp

/-- C24: on a program-data message for a valid slot index whose payload has the
form `HH:MM HH:MM M` (hours up to 23, minutes up to 59, a mode digit below
`StandardModeCnt`) and nothing after it, `mqttReceiveMsg` hands to `setProgram`,
which stores it in the slot, the program with these times and mode, weekday
mask 0x7f and program-set mask 0xff; when the payload continues with a blank
and 7 characters `0` and `1` and nothing after them, bit `i` of the stored
weekday mask is set exactly when character `i` of the string is `1`, and the
program-set mask is 0xff. -/
theorem mqttReceiveMsg_omitted_fields_all_enabled (k : KWLConfig) (t : MQTTTopic)
    (pm : ProgramManager) (index_str : List Char) (sh sm eh em mode : Nat) (wd : List Char)
    (hset : t.CmdSetProgram ++ index_str ++ '/' :: t.SubtopicProgramData ≠ t.CmdSetProgramSet)
    (hslash : '/' ∉ index_str)
    (hget : t.SubtopicProgramData ≠ t.SubtopicProgramGet)
    (hvalid : valid_index k (index_str ++ '/' :: t.SubtopicProgramData) index_str.length = true)
    (hsh : sh ≤ 23) (hsm : sm ≤ 59) (heh : eh ≤ 23) (hem : em ≤ 59)
    (hmode : mode < k.StandardModeCnt) (hdigit : mode ≤ 9)
    (hwd : IsMaskText wd 7) :
    (ProgramManager.mqttReceiveMsg k t
          (t.CmdSetProgram ++ index_str ++ '/' :: t.SubtopicProgramData)
          (programText sh sm eh em mode) pm =
        (true, pm.setProgram k (decode_index (index_str ++ '/' :: t.SubtopicProgramData))
          ⟨sh, sm, eh, em, mode, 0x7f, 0xff, 0⟩) ∧
      (ProgramManager.mqttReceiveMsg k t
          (t.CmdSetProgram ++ index_str ++ '/' :: t.SubtopicProgramData)
          (programText sh sm eh em mode) pm).2.getProgram
            (decode_index (index_str ++ '/' :: t.SubtopicProgramData)) =
        ⟨sh, sm, eh, em, mode, 0x7f, 0xff, 0⟩) ∧
    ∃ w, (∀ i, w.testBit i = true ↔ wd[i]? = some '1') ∧
      ProgramManager.mqttReceiveMsg k t
          (t.CmdSetProgram ++ index_str ++ '/' :: t.SubtopicProgramData)
          (programText sh sm eh em mode ++ ' ' :: wd) pm =
        (true, pm.setProgram k (decode_index (index_str ++ '/' :: t.SubtopicProgramData))
          ⟨sh, sm, eh, em, mode, w, 0xff, 0⟩) ∧
      (ProgramManager.mqttReceiveMsg k t
          (t.CmdSetProgram ++ index_str ++ '/' :: t.SubtopicProgramData)
          (programText sh sm eh em mode ++ ' ' :: wd) pm).2.getProgram
            (decode_index (index_str ++ '/' :: t.SubtopicProgramData)) =
        ⟨sh, sm, eh, em, mode, w, 0xff, 0⟩ := by
  have hidx : decode_index (index_str ++ '/' :: t.SubtopicProgramData) ≤ k.MaxProgramCount := by
    unfold valid_index at hvalid
    have := (of_decide_eq_true hvalid).2.2
    omega
  obtain ⟨w, hw, -, hbits⟩ := parse_mask_weekdays wd hwd
  have e1 := ProgramManager.mqttReceiveMsg_data k t pm index_str (programText sh sm eh em mode)
    hset hslash hget
  rw [hvalid, parse_program_programText k sh sm eh em mode hsh hsm heh hem hmode hdigit] at e1
  have e2 := ProgramManager.mqttReceiveMsg_data k t pm index_str
    (programText sh sm eh em mode ++ ' ' :: wd) hset hslash hget
  rw [hvalid, parse_program_programText_weekdays k sh sm eh em mode wd w hsh hsm heh hem hmode
    hdigit hwd hw] at e2
  refine ⟨⟨e1, ?_⟩, w, hbits, e2, ?_⟩
  · rw [e1]
    exact ProgramManager.setProgram_getProgram k _ _ pm hidx
  · rw [e2]
    exact ProgramManager.setProgram_getProgram k _ _ pm hidx

theorem mqttReceiveMsg_omitted_fields_all_enabled_witness :
    programText 8 5 23 59 3 = "08:05 23:59 3".toList ∧
      IsMaskText "1010100".toList 7 ∧
      ((ProgramManager.mqttReceiveMsg sampleConfig sampleTopics
          (sampleTopics.CmdSetProgram ++ ['0', '3'] ++ '/' :: sampleTopics.SubtopicProgramData)
          "08:05 23:59 3 1010100".toList sampleManager).2.getProgram 3).weekdays_ = 0x15 ∧
      ((ProgramManager.mqttReceiveMsg sampleConfig sampleTopics
            (sampleTopics.CmdSetProgram ++ ['0', '3'] ++ '/' :: sampleTopics.SubtopicProgramData)
            (programText 8 5 23 59 3) sampleManager =
          (true, sampleManager.setProgram sampleConfig
            (decode_index (['0', '3'] ++ '/' :: sampleTopics.SubtopicProgramData))
            ⟨8, 5, 23, 59, 3, 0x7f, 0xff, 0⟩) ∧
        (ProgramManager.mqttReceiveMsg sampleConfig sampleTopics
            (sampleTopics.CmdSetProgram ++ ['0', '3'] ++ '/' :: sampleTopics.SubtopicProgramData)
            (programText 8 5 23 59 3) sampleManager).2.getProgram
              (decode_index (['0', '3'] ++ '/' :: sampleTopics.SubtopicProgramData)) =
          ⟨8, 5, 23, 59, 3, 0x7f, 0xff, 0⟩) ∧
      ∃ w, (∀ i, w.testBit i = true ↔ "1010100".toList[i]? = some '1') ∧
        ProgramManager.mqttReceiveMsg sampleConfig sampleTopics
            (sampleTopics.CmdSetProgram ++ ['0', '3'] ++ '/' :: sampleTopics.SubtopicProgramData)
            (programText 8 5 23 59 3 ++ ' ' :: "1010100".toList) sampleManager =
          (true, sampleManager.setProgram sampleConfig
            (decode_index (['0', '3'] ++ '/' :: sampleTopics.SubtopicProgramData))
            ⟨8, 5, 23, 59, 3, w, 0xff, 0⟩) ∧
        (ProgramManager.mqttReceiveMsg sampleConfig sampleTopics
            (sampleTopics.CmdSetProgram ++ ['0', '3'] ++ '/' :: sampleTopics.SubtopicProgramData)
            (programText 8 5 23 59 3 ++ ' ' :: "1010100".toList) sampleManager).2.getProgram
              (decode_index (['0', '3'] ++ '/' :: sampleTopics.SubtopicProgramData)) =
          ⟨8, 5, 23, 59, 3, w, 0xff, 0⟩) :=
  ⟨by decide, by decide, by decide,
    mqttReceiveMsg_omitted_fields_all_enabled sampleConfig sampleTopics sampleManager ['0', '3']
      8 5 23 59 3 "1010100".toList (by decide) (by decide) (by decide) (by decide) (by decide)
      (by decide) (by decide) (by decide) (by decide) (by decide) (by decide)⟩

/-! ## `TempSensors::run`: round robin -/

theorem TempSensors.sendMQTT_next_sensor_ (k : TempMqttConfig) (r : PublishResults)
    (s : TempSensors) : (s.sendMQTT k r).next_sensor_ = s.next_sensor_ := by
  unfold TempSensors.sendMQTT
  dsimp only
  split_ifs <;> rfl

/-- The sensors and the round-robin position after `run` are the ones after
the sensor step. -/
theorem TempSensors.run_sensors (c : TempSensorConfig) (k : TempMqttConfig) (bus : SensorBus)
    (r : PublishResults) (s : TempSensors) :
    (s.run c k bus r).t1_ = (s.run_sensor c bus).2.t1_ ∧
      (s.run c k bus r).t2_ = (s.run_sensor c bus).2.t2_ ∧
      (s.run c k bus r).t3_ = (s.run_sensor c bus).2.t3_ ∧
      (s.run c k bus r).t4_ = (s.run_sensor c bus).2.t4_ ∧
      (s.run c k bus r).next_sensor_ = (s.run_sensor c bus).2.next_sensor_ := by
  unfold TempSensors.run
  simp only [TempSensors.sendMQTT_t1_, TempSensors.sendMQTT_t2_, TempSensors.sendMQTT_t3_,
    TempSensors.sendMQTT_t4_, TempSensors.sendMQTT_next_sensor_]
  split_ifs <;> exact ⟨rfl, rfl, rfl, rfl, rfl⟩

/-- The sensor step: the sensor selected by `next_sensor_` makes one step, the
position moves on. -/
theorem TempSensors.run_sensor_steps (c : TempSensorConfig) (bus : SensorBus)
    (s : TempSensors) :
    TempSensors.SteppedOnly c bus (if s.next_sensor_ ≤ 2 then s.next_sensor_ + 1 else 4) s
        (s.run_sensor c bus).2 ∧
      (s.run_sensor c bus).2.next_sensor_ =
        (if s.next_sensor_ ≤ 2 then s.next_sensor_ + 1 else 0) := by
  unfold TempSensors.run_sensor TempSensors.SteppedOnly
  match h : s.next_sensor_ with
  | 0 => exact ⟨⟨rfl, rfl, rfl, rfl⟩, rfl⟩
  | 1 => exact ⟨⟨rfl, rfl, rfl, rfl⟩, rfl⟩
  | 2 => exact ⟨⟨rfl, rfl, rfl, rfl⟩, rfl⟩
  | n + 3 =>
    have h3 : ¬ n + 3 ≤ 2 := by omega
    simp [h3]

/-- C25: for every state, one call of `run` makes exactly one sensor step:
sensor 1, 2 or 3 for `next_sensor_` 0, 1 or 2, sensor 4 for every other value,
the other three sensors are untouched, and `next_sensor_` is left in 0..3, one
further or back at 0; four consecutive calls starting with `next_sensor_ = 0`
step sensor 1, sensor 2, sensor 3 and sensor 4 in this order, each once with the
bus answers of its call, and leave `next_sensor_` at 0. -/
theorem run_round_robin (c : TempSensorConfig) (k : TempMqttConfig) (s : TempSensors)
    (b1 b2 b3 b4 : SensorBus) (r1 r2 r3 r4 : PublishResults) :
    TempSensors.SteppedOnly c b1 (if s.next_sensor_ ≤ 2 then s.next_sensor_ + 1 else 4) s
        (s.run c k b1 r1) ∧
      (s.run c k b1 r1).next_sensor_ = (if s.next_sensor_ ≤ 2 then s.next_sensor_ + 1 else 0) ∧
      (s.run c k b1 r1).next_sensor_ ≤ 3 ∧
      (s.next_sensor_ = 0 →
        TempSensors.SteppedOnly c b1 1 s (s.run c k b1 r1) ∧
        TempSensors.SteppedOnly c b2 2 (s.run c k b1 r1) ((s.run c k b1 r1).run c k b2 r2) ∧
        TempSensors.SteppedOnly c b3 3 ((s.run c k b1 r1).run c k b2 r2)
          (((s.run c k b1 r1).run c k b2 r2).run c k b3 r3) ∧
        TempSensors.SteppedOnly c b4 4 (((s.run c k b1 r1).run c k b2 r2).run c k b3 r3)
          ((((s.run c k b1 r1).run c k b2 r2).run c k b3 r3).run c k b4 r4) ∧
        ((((s.run c k b1 r1).run c k b2 r2).run c k b3 r3).run c k b4 r4).next_sensor_ = 0 ∧
        ((((s.run c k b1 r1).run c k b2 r2).run c k b3 r3).run c k b4 r4).t1_ =
          (s.t1_.loop c b1).2 ∧
        ((((s.run c k b1 r1).run c k b2 r2).run c k b3 r3).run c k b4 r4).t2_ =
          (s.t2_.loop c b2).2 ∧
        ((((s.run c k b1 r1).run c k b2 r2).run c k b3 r3).run c k b4 r4).t3_ =
          (s.t3_.loop c b3).2 ∧
        ((((s.run c k b1 r1).run c k b2 r2).run c k b3 r3).run c k b4 r4).t4_ =
          (s.t4_.loop c b4).2) := by
  have step : ∀ (s : TempSensors) (b : SensorBus) (r : PublishResults),
      TempSensors.SteppedOnly c b (if s.next_sensor_ ≤ 2 then s.next_sensor_ + 1 else 4) s
          (s.run c k b r) ∧
        (s.run c k b r).next_sensor_ = (if s.next_sensor_ ≤ 2 then s.next_sensor_ + 1 else 0) := by
    intro s b r
    obtain ⟨e1, e2, e3, e4, e5⟩ := TempSensors.run_sensors c k b r s
    obtain ⟨hs, hn⟩ := TempSensors.run_sensor_steps c b s
    unfold TempSensors.SteppedOnly at hs ⊢
    rw [e1, e2, e3, e4, e5]
    exact ⟨hs, hn⟩
  obtain ⟨hs1, hn1⟩ := step s b1 r1
  refine ⟨hs1, hn1, ?_, ?_⟩
  · rw [hn1]
    split_ifs <;> omega
  · intro h0
    rw [h0] at hs1 hn1
    simp only [Nat.zero_le, if_true, Nat.zero_add] at hs1 hn1
    obtain ⟨hs2, hn2⟩ := step (s.run c k b1 r1) b2 r2
    rw [hn1] at hs2 hn2
    simp only [show (1 : Nat) ≤ 2 by decide, if_true, Nat.reduceAdd] at hs2 hn2
    obtain ⟨hs3, hn3⟩ := step ((s.run c k b1 r1).run c k b2 r2) b3 r3
    rw [hn2] at hs3 hn3
    simp only [le_refl, if_true, Nat.reduceAdd] at hs3 hn3
    obtain ⟨hs4, hn4⟩ := step (((s.run c k b1 r1).run c k b2 r2).run c k b3 r3) b4 r4
    rw [hn3] at hs4 hn4
    simp only [show ¬ (3 : Nat) ≤ 2 by decide, if_false] at hs4 hn4
    refine ⟨hs1, hs2, hs3, hs4, hn4, ?_, ?_, ?_, ?_⟩
    · rw [hs4.1, hs3.1, hs2.1, hs1.1]; rfl
    · rw [hs4.2.1, hs3.2.1, hs2.2.1, hs1.2.1]; rfl
    · rw [hs4.2.2.1, hs3.2.2.1, hs2.2.2.1, hs1.2.2.1]; rfl
    · rw [hs4.2.2.2, hs3.2.2.2, hs2.2.2.2, hs1.2.2.2]; rfl

/-! ## `TempSensors::start` -/

/-- C28 (the code at the failing input): for every state and all bus answers,
`TempSensors::start` leaves sensor 3 exactly as it was, starts sensor 1 twice
and sensors 2 and 4 once; the round-robin position and the export bookkeeping
are untouched. -/
theorem start_skips_sensor_3 (c : TempSensorConfig) (a b d e : Bool × SensorBus)
    (s : TempSensors) :
    (s.start c a b d e).t3_ = s.t3_ ∧
      (s.start c a b d e).t1_ = (s.t1_.start c a.1 a.2).start c b.1 b.2 ∧
      (s.start c a b d e).t2_ = s.t2_.start c d.1 d.2 ∧
      (s.start c a b d e).t4_ = s.t4_.start c e.1 e.2 ∧
      (s.start c a b d e).next_sensor_ = s.next_sensor_ :=
  ⟨rfl, rfl, rfl, rfl, rfl⟩

/-- With every bus answering, the start leaves sensors 1, 2 and 4 waiting for
their first conversion, and sensor 3 in the state it was constructed with. -/
theorem start_example :
    (sampleSensors.start sampleSensorConfig (true, busConversionPending)
        (true, busConversionPending) (true, busConversionPending)
        (true, busConversionPending)).t3_ = sampleSensors.t3_ ∧
      ((sampleSensors.start sampleSensorConfig (true, busConversionPending)
        (true, busConversionPending) (true, busConversionPending)
        (true, busConversionPending)).t1_.state_,
       (sampleSensors.start sampleSensorConfig (true, busConversionPending)
        (true, busConversionPending) (true, busConversionPending)
        (true, busConversionPending)).t2_.state_,
       (sampleSensors.start sampleSensorConfig (true, busConversionPending)
        (true, busConversionPending) (true, busConversionPending)
        (true, busConversionPending)).t3_.state_,
       (sampleSensors.start sampleSensorConfig (true, busConversionPending)
        (true, busConversionPending) (true, busConversionPending)
        (true, busConversionPending)).t4_.state_) = (1, 1, 0, 1) := by
  refine ⟨rfl, by decide⟩

/-! ## The retry counter over the lifetime of a sensor -/

/-- The retry counter after one step: one more after a failure below
`MAX_RETRIES`, unchanged otherwise. -/
theorem TempSensor.loop_retry_count (c : TempSensorConfig) (bus : SensorBus) (s : TempSensor) :
    (s.loop c bus).2.retry_count_ =
      if TempSensor.Failure c bus s ∧ s.retry_count_ < c.MAX_RETRIES then s.retry_count_ + 1
      else s.retry_count_ := by
  unfold TempSensor.loop TempSensor.retry
  by_cases h0 : s.state_ = 0
  · have hnf : ¬ (TempSensor.Failure c bus s ∧ s.retry_count_ < c.MAX_RETRIES) := by
      intro h
      have := h.1.1
      omega
    rw [if_pos h0, if_neg hnf]
  rw [if_neg h0]
  by_cases hneg : s.state_ < 0
  · have hnf : ¬ (TempSensor.Failure c bus s ∧ s.retry_count_ < c.MAX_RETRIES) := by
      intro h
      have := h.1.1
      omega
    rw [if_pos hneg, if_neg hnf]
    split_ifs <;> rfl
  rw [if_neg hneg]
  have hpos : 0 < s.state_ := by omega
  by_cases hw : s.state_ ≤ c.MAX_WAIT_TIME
  · rw [if_pos hw]
    by_cases hc : bus.isConversionComplete = true
    · rw [if_pos hc]
      by_cases hr : bus.getTempC > c.DEVICE_DISCONNECTED_C
      · have hnf : ¬ (TempSensor.Failure c bus s ∧ s.retry_count_ < c.MAX_RETRIES) := by
          intro h
          rcases h.1.2 with h' | h'
          · exact absurd hr (not_lt.mpr h'.2.2)
          · omega
        simp only [hr, if_true]
        rw [if_neg hnf]
      · simp only [hr, if_false]
        have hle : bus.getTempC ≤ c.DEVICE_DISCONNECTED_C := not_lt.mp hr
        by_cases hm : s.retry_count_ < c.MAX_RETRIES
        · have hf : TempSensor.Failure c bus s ∧ s.retry_count_ < c.MAX_RETRIES :=
            ⟨⟨hpos, Or.inl ⟨hw, hc, hle⟩⟩, hm⟩
          have hge : ¬ s.retry_count_ ≥ c.MAX_RETRIES := by omega
          rw [if_neg hge, if_pos hf]
        · have hnf : ¬ (TempSensor.Failure c bus s ∧ s.retry_count_ < c.MAX_RETRIES) :=
            fun h => hm h.2
          have hge : s.retry_count_ ≥ c.MAX_RETRIES := by omega
          rw [if_pos hge, if_neg hnf]
    · have hnf : ¬ (TempSensor.Failure c bus s ∧ s.retry_count_ < c.MAX_RETRIES) := by
        intro h
        rcases h.1.2 with h' | h'
        · exact hc h'.2.1
        · omega
      rw [if_neg hc, if_neg hnf]
  · rw [if_neg hw]
    have hlt : c.MAX_WAIT_TIME < s.state_ := by omega
    by_cases hm : s.retry_count_ < c.MAX_RETRIES
    · have hf : TempSensor.Failure c bus s ∧ s.retry_count_ < c.MAX_RETRIES :=
        ⟨⟨hpos, Or.inr hlt⟩, hm⟩
      have hge : ¬ s.retry_count_ ≥ c.MAX_RETRIES := by omega
      rw [if_neg hge, if_pos hf]
    · have hnf : ¬ (TempSensor.Failure c bus s ∧ s.retry_count_ < c.MAX_RETRIES) :=
        fun h => hm h.2
      have hge : s.retry_count_ ≥ c.MAX_RETRIES := by omega
      rw [if_pos hge, if_neg hnf]

/-- A failure with the retry counter at `MAX_RETRIES` or above invalidates the
stored reading. -/
theorem TempSensor.loop_failure_invalidates (c : TempSensorConfig) (bus : SensorBus)
    (s : TempSensor) (hf : TempSensor.Failure c bus s) (hm : c.MAX_RETRIES ≤ s.retry_count_) :
    (s.loop c bus).2.t_ = c.INVALID := by
  obtain ⟨hpos, hcase⟩ := hf
  unfold TempSensor.loop TempSensor.retry
  rw [if_neg (by omega), if_neg (by omega)]
  rcases hcase with ⟨hw, hc, hr⟩ | hlt
  · rw [if_pos hw, if_pos hc]
    simp only [gt_iff_lt, not_lt.mpr hr, if_false]
    rw [if_pos (by omega)]
  · rw [if_neg (by omega), if_pos (by omega)]

/-- A step that delivers a reading is no failure. -/
theorem TempSensor.not_failure_of_new_data (c : TempSensorConfig) (bus : SensorBus)
    (s : TempSensor) (h : (s.loop c bus).1 = true) : ¬ TempSensor.Failure c bus s := by
  intro hf
  obtain ⟨hpos, hcase⟩ := hf
  unfold TempSensor.loop at h
  rw [if_neg (by omega), if_neg (by omega)] at h
  rcases hcase with ⟨hw, hc, hr⟩ | hlt
  · rw [if_pos hw, if_pos hc] at h
    simp only [gt_iff_lt, not_lt.mpr hr, if_false] at h
    exact Bool.noConfusion h
  · rw [if_neg (by omega)] at h
    exact Bool.noConfusion h

/-- The retry counter after a sequence of steps: the failures are counted up to
`MAX_RETRIES`. -/
theorem TempSensor.loops_retry_count (c : TempSensorConfig) (buses : List SensorBus)
    (s : TempSensor) (h : s.retry_count_ ≤ c.MAX_RETRIES) :
    (TempSensor.loops c buses s).retry_count_ =
      min c.MAX_RETRIES (s.retry_count_ + TempSensor.failures c buses s) := by
  induction buses generalizing s with
  | nil =>
    show s.retry_count_ = min c.MAX_RETRIES (s.retry_count_ + 0)
    omega
  | cons bus rest ih =>
    have hstep := TempSensor.loop_retry_count c bus s
    have hle : (s.loop c bus).2.retry_count_ ≤ c.MAX_RETRIES := by
      rw [hstep]; split_ifs <;> omega
    have := ih (s.loop c bus).2 hle
    show (TempSensor.loops c rest (s.loop c bus).2).retry_count_ =
      min c.MAX_RETRIES (s.retry_count_ +
        ((if TempSensor.Failure c bus s then 1 else 0) +
          TempSensor.failures c rest (s.loop c bus).2))
    rw [this, hstep]
    by_cases hf : TempSensor.Failure c bus s
    · by_cases hm : s.retry_count_ < c.MAX_RETRIES
      · rw [if_pos ⟨hf, hm⟩, if_pos hf]; omega
      · rw [if_neg (fun h => hm h.2), if_pos hf]; omega
    · rw [if_neg (fun h => hf h.1), if_neg hf]; omega

theorem TempSensor.loops_append (c : TempSensorConfig) (buses : List SensorBus)
    (bus : SensorBus) (s : TempSensor) :
    TempSensor.loops c (buses ++ [bus]) s = ((TempSensor.loops c buses s).loop c bus).2 := by
  unfold TempSensor.loops
  rw [List.foldl_append]
  rfl

/-- C29: for a sensor whose retry counter starts at 0 and every sequence of
`loop` steps with arbitrary bus answers, the retry counter is the number of
failures so far, capped at `MAX_RETRIES`: it stays in 0..`MAX_RETRIES`, a
further step never decreases it, and a step that delivers a reading leaves it
as it is; once `MAX_RETRIES` failures have accumulated, a further step that
fails sets the stored reading to `INVALID`. -/
theorem retry_count_accumulates (c : TempSensorConfig) (s : TempSensor)
    (buses : List SensorBus) (bus : SensorBus) (h0 : s.retry_count_ = 0) :
    (TempSensor.loops c buses s).retry_count_ =
        min c.MAX_RETRIES (TempSensor.failures c buses s) ∧
      (TempSensor.loops c buses s).retry_count_ ≤ c.MAX_RETRIES ∧
      (TempSensor.loops c buses s).retry_count_ ≤
        (TempSensor.loops c (buses ++ [bus]) s).retry_count_ ∧
      (((TempSensor.loops c buses s).loop c bus).1 = true →
        (TempSensor.loops c (buses ++ [bus]) s).retry_count_ =
          (TempSensor.loops c buses s).retry_count_) ∧
      (c.MAX_RETRIES ≤ TempSensor.failures c buses s →
        TempSensor.Failure c bus (TempSensor.loops c buses s) →
        (TempSensor.loops c (buses ++ [bus]) s).t_ = c.INVALID) := by
  have hcount := TempSensor.loops_retry_count c buses s (by omega)
  rw [h0, Nat.zero_add] at hcount
  have hstep := TempSensor.loop_retry_count c bus (TempSensor.loops c buses s)
  rw [TempSensor.loops_append]
  refine ⟨hcount, by rw [hcount]; exact Nat.min_le_left _ _, ?_, ?_, ?_⟩
  · rw [hstep]
    split_ifs <;> omega
  · intro hnew
    rw [hstep, if_neg (fun h => TempSensor.not_failure_of_new_data c bus _ hnew h.1)]
  · intro hmax hf
    apply TempSensor.loop_failure_invalidates c bus _ hf
    rw [hcount]
    omega

theorem retry_count_accumulates_witness :
    (TempSensor.mk 0 0 5).retry_count_ = 0 ∧
      TempSensor.loops sampleSingleRetryConfig busesOneFailure ⟨0, 0, 5⟩ = ⟨1, 1, 5⟩ ∧
      TempSensor.failures sampleSingleRetryConfig busesOneFailure ⟨0, 0, 5⟩ = 1 ∧
      TempSensor.Failure sampleSingleRetryConfig busReadFailure
        (TempSensor.loops sampleSingleRetryConfig busesOneFailure ⟨0, 0, 5⟩) ∧
      ((TempSensor.loops sampleSingleRetryConfig busesOneFailure ⟨0, 0, 5⟩).retry_count_ =
          min sampleSingleRetryConfig.MAX_RETRIES
            (TempSensor.failures sampleSingleRetryConfig busesOneFailure ⟨0, 0, 5⟩) ∧
        (TempSensor.loops sampleSingleRetryConfig busesOneFailure ⟨0, 0, 5⟩).retry_count_ ≤
          sampleSingleRetryConfig.MAX_RETRIES ∧
        (TempSensor.loops sampleSingleRetryConfig busesOneFailure ⟨0, 0, 5⟩).retry_count_ ≤
          (TempSensor.loops sampleSingleRetryConfig (busesOneFailure ++ [busReadFailure])
            ⟨0, 0, 5⟩).retry_count_ ∧
        (((TempSensor.loops sampleSingleRetryConfig busesOneFailure ⟨0, 0, 5⟩).loop
            sampleSingleRetryConfig busReadFailure).1 = true →
          (TempSensor.loops sampleSingleRetryConfig (busesOneFailure ++ [busReadFailure])
            ⟨0, 0, 5⟩).retry_count_ =
            (TempSensor.loops sampleSingleRetryConfig busesOneFailure ⟨0, 0, 5⟩).retry_count_) ∧
        (sampleSingleRetryConfig.MAX_RETRIES ≤
            TempSensor.failures sampleSingleRetryConfig busesOneFailure ⟨0, 0, 5⟩ →
          TempSensor.Failure sampleSingleRetryConfig busReadFailure
            (TempSensor.loops sampleSingleRetryConfig busesOneFailure ⟨0, 0, 5⟩) →
          (TempSensor.loops sampleSingleRetryConfig (busesOneFailure ++ [busReadFailure])
            ⟨0, 0, 5⟩).t_ = sampleSingleRetryConfig.INVALID)) :=
  ⟨rfl, by decide, by decide, by decide,
    retry_count_accumulates sampleSingleRetryConfig ⟨0, 0, 5⟩ busesOneFailure busReadFailure rfl⟩

/-! ## Console input: the line buffer -/

theorem NetworkClient.feed_append (p : NetworkConfig) (tick : Tick) (cs ds : List Char)
    (s : NetworkClient) : s.feed p tick (cs ++ ds) = (s.feed p tick cs).feed p tick ds := by
  unfold NetworkClient.feed
  rw [List.foldl_append]

/-- One console character leaves the fill level of the line buffer within
`SERIAL_BUFFER_SIZE - 1`. -/
theorem NetworkClient.loop_serial_bound (p : NetworkConfig) (tick : Tick) (s : NetworkClient)
    (h : s.serial_data_.length ≤ p.SERIAL_BUFFER_SIZE - 1) :
    (s.loop_serial p tick).serial_data_.length ≤ p.SERIAL_BUFFER_SIZE - 1 := by
  unfold NetworkClient.loop_serial
  cases tick.serial with
  | none => exact h
  | some c =>
    dsimp only
    split_ifs with h1 h2 h3
    · exact Nat.zero_le _
    · exact h
    · show (s.serial_data_ ++ [c]).length ≤ _
      rw [List.length_append, List.length_singleton]
      omega
    · exact h

theorem NetworkClient.resubscribe_serial_data_ (p : NetworkConfig) (r : Bool × Bool)
    (s : NetworkClient) : (s.resubscribe p r).serial_data_ = s.serial_data_ := by
  unfold NetworkClient.resubscribe NetworkClient.emit
  dsimp only
  split_ifs <;> rfl

theorem NetworkClient.mqttConnect_serial_data_ (p : NetworkConfig) (tick : Tick)
    (s : NetworkClient) : (s.mqttConnect p tick).2.serial_data_ = s.serial_data_ := by
  unfold NetworkClient.mqttConnect
  dsimp only
  split_ifs <;>
    simp only [NetworkClient.emit, NetworkClient.resubscribe_serial_data_]

theorem NetworkClient.loop_session_serial_data_ (p : NetworkConfig) (tick : Tick)
    (s : NetworkClient) : (s.loop_session p tick).serial_data_ = s.serial_data_ := by
  unfold NetworkClient.loop_session
  dsimp only
  split_ifs <;>
    simp only [NetworkClient.emit, NetworkClient.resubscribe_serial_data_,
      NetworkClient.mqttConnect_serial_data_]

/-- The link and session part of `loop` leaves the line buffer alone. -/
theorem NetworkClient.loop_serial_data_ (p : NetworkConfig) (tick : Tick) (s : NetworkClient) :
    (s.loop p tick).serial_data_ = (s.loop_serial p tick).serial_data_ := by
  unfold NetworkClient.loop
  dsimp only
  split_ifs <;>
    simp only [NetworkClient.emit, NetworkClient.loop_session_serial_data_]

/-- Any sequence of `loop` calls, whatever the collaborators answer, leaves the
fill level of the line buffer within `SERIAL_BUFFER_SIZE - 1`. -/
theorem NetworkClient.loops_bound (p : NetworkConfig) (ticks : List Tick) (s : NetworkClient)
    (h : s.serial_data_.length ≤ p.SERIAL_BUFFER_SIZE - 1) :
    (ticks.foldl (fun s tick => s.loop p tick) s).serial_data_.length ≤
      p.SERIAL_BUFFER_SIZE - 1 := by
  induction ticks generalizing s with
  | nil => exact h
  | cons tick ticks ih =>
    apply ih
    rw [NetworkClient.loop_serial_data_]
    exact NetworkClient.loop_serial_bound p tick s h

/-- Characters other than CR and LF are stored while there is room and dropped
afterwards; nothing is dispatched. -/
theorem NetworkClient.feed_line (p : NetworkConfig) (tick : Tick) (cs : List Char)
    (s : NetworkClient) (h : s.serial_data_.length ≤ p.SERIAL_BUFFER_SIZE - 1)
    (hline : ∀ x ∈ cs, x.toNat ≠ 10 ∧ x.toNat ≠ 13) :
    s.feed p tick cs =
      { s with serial_data_ := (s.serial_data_ ++ cs).take (p.SERIAL_BUFFER_SIZE - 1) } := by
  induction cs generalizing s with
  | nil =>
    show s = _
    rw [List.append_nil, List.take_of_length_le h]
  | cons c cs ih =>
    have hc := hline c (List.mem_cons_self _ _)
    have hstep : s.loop_serial p { tick with serial := some c } =
        { s with serial_data_ := (s.serial_data_ ++ [c]).take (p.SERIAL_BUFFER_SIZE - 1) } := by
      unfold NetworkClient.loop_serial
      dsimp only
      rw [if_neg (by intro h'; rcases h' with h' | h'; exact hc.1 h'; exact hc.2 h')]
      by_cases hroom : s.serial_data_.length < p.SERIAL_BUFFER_SIZE - 1
      · rw [if_pos hroom, List.take_of_length_le (by
          rw [List.length_append, List.length_singleton]; omega)]
      · rw [if_neg hroom, List.take_append_of_le_length (by omega),
          List.take_of_length_le (by omega)]
    show (s.loop_serial p { tick with serial := some c }).feed p tick cs = _
    rw [ih _ (NetworkClient.loop_serial_bound p _ s h)
      (fun x hx => hline x (List.mem_cons_of_mem _ hx)), hstep]
    dsimp only
    congr 1
    have e0 : s.serial_data_.take (p.SERIAL_BUFFER_SIZE - 1) = s.serial_data_ :=
      List.take_of_length_le h
    by_cases hroom : s.serial_data_.length < p.SERIAL_BUFFER_SIZE - 1
    · have e1 : (s.serial_data_ ++ [c]).take (p.SERIAL_BUFFER_SIZE - 1) = s.serial_data_ ++ [c] :=
        List.take_of_length_le (by rw [List.length_append, List.length_singleton]; omega)
      rw [e1]
      simp
    · have hfull : p.SERIAL_BUFFER_SIZE - 1 ≤ s.serial_data_.length := by omega
      have e1 : (s.serial_data_ ++ [c]).take (p.SERIAL_BUFFER_SIZE - 1) = s.serial_data_ := by
        rw [List.take_append_of_le_length hfull, e0]
      have e2 : (s.serial_data_ ++ cs).take (p.SERIAL_BUFFER_SIZE - 1) = s.serial_data_ := by
        rw [List.take_append_of_le_length hfull, e0]
      have e3 : (s.serial_data_ ++ c :: cs).take (p.SERIAL_BUFFER_SIZE - 1) = s.serial_data_ := by
        rw [List.take_append_of_le_length hfull, e0]
      rw [e1, e2, e3]

theorem take_indexOf (l : List Char) (c : Char) :
    l.take (l.indexOf c) = l.takeWhile (fun x => x ≠ c) ∧
      l.drop (l.indexOf c) = l.dropWhile (fun x => x ≠ c) := by
  induction l with
  | nil => exact ⟨rfl, rfl⟩
  | cons a l ih =>
    by_cases ha : a = c
    · rw [ha]
      simp [List.indexOf_cons, List.takeWhile_cons, List.dropWhile_cons]
    · have hb : (a == c) = false := by simpa using ha
      simp only [List.indexOf_cons, hb, cond_false, List.take_succ_cons, List.drop_succ_cons,
        List.takeWhile_cons, List.dropWhile_cons]
      rw [if_pos (by simpa using ha), if_pos (by simpa using ha), ih.1, ih.2]
      exact ⟨rfl, rfl⟩

/-! ## Counting the successful publish calls -/

theorem successes_le (outcome : Nat → Bool) (n m : Nat) (h : n ≤ m) :
    successes outcome n ≤ successes outcome m := by
  induction m with
  | zero =>
    have : n = 0 := by omega
    rw [this]
  | succ m ih =>
    by_cases hn : n = m + 1
    · rw [hn]
    · have := ih (by omega)
      have := successes_mono outcome m
      omega

/-- In a log that records the outcomes of the transport, the number of messages
published successfully is the number of successful outcomes so far. -/
theorem published_ok_length_of_outcomes (outcome : Nat → Bool) (log : List (Message × Bool))
    (h : ∀ j e, log[j]? = some e → e.2 = outcome j) :
    (published_ok log).length = successes outcome log.length := by
  induction log using List.reverseRecOn with
  | nil => rfl
  | append_singleton l x ih =>
    have hl : ∀ j e, l[j]? = some e → e.2 = outcome j := by
      intro j e hj
      have hlt : j < l.length := by
        by_contra hge
        rw [List.getElem?_eq_none_iff.mpr (by omega)] at hj
        exact Option.noConfusion hj
      exact h j e (by rw [List.getElem?_append_left hlt]; exact hj)
    have hx : x.2 = outcome l.length :=
      h l.length x (by rw [List.getElem?_append_right (le_refl _)]; simp)
    rw [published_ok_append, List.length_append, ih hl, List.length_append,
      List.length_singleton, successes_succ, ← hx]
    obtain ⟨m, ok⟩ := x
    rw [published_ok_singleton]
    cases ok <;> rfl

/-! ## `TempSensors::run`: the efficiency -/

/-- The truncation discards the fractional part: the result lies between 0 and
the value, less than 1 away from it. -/
theorem truncate_bounds (x : ℚ) :
    (0 ≤ x → ((truncate x : Int) : ℚ) ≤ x ∧ x < (truncate x : Int) + 1 ∧ 0 ≤ truncate x) ∧
    (x < 0 → x ≤ ((truncate x : Int) : ℚ) ∧ ((truncate x : Int) : ℚ) < x + 1 ∧
      truncate x ≤ 0) := by
  unfold truncate
  constructor
  · intro h
    rw [if_pos h]
    exact ⟨Int.floor_le x, Int.lt_floor_add_one x, Int.floor_nonneg.mpr h⟩
  · intro h
    rw [if_neg (not_le.mpr h)]
    refine ⟨Int.le_ceil x, Int.ceil_lt_add_one x, ?_⟩
    exact Int.ceil_le.mpr (by simpa using h.le)

/-- Within the range of `int` the conversion is the truncation. -/
theorem int_of_of_fits (x : ℚ) (h : FitsInt x) : int_of x = truncate x := by
  unfold FitsInt at h
  unfold int_of
  omega

/-- The efficiency computed by the code lies in 0..100, and is the one the
statements describe when the guard applies or the truncated quotient is in the
range of `int`. -/
theorem compute_efficiency_eq (outside inlet outlet : ℚ) :
    ((|outlet - outside| ≤ 1 / 10 ∨ FitsInt (100 * (inlet - outside) / (outlet - outside))) →
        TempSensors.compute_efficiency outside inlet outlet =
          efficiencySpec outside inlet outlet) ∧
      0 ≤ TempSensors.compute_efficiency outside inlet outlet ∧
      TempSensors.compute_efficiency outside inlet outlet ≤ 100 := by
  unfold TempSensors.compute_efficiency efficiencySpec
  by_cases h : |outlet - outside| ≤ 1 / 10
  · rw [if_pos h]
    simp only [gt_iff_lt, not_lt.mpr h, if_false]
    simp
  · rw [if_neg h]
    simp only [gt_iff_lt, not_le.mp h, if_true, constrain_eq_min_max]
    refine ⟨fun hf => ?_, ?_, ?_⟩
    · rcases hf with hf | hf
      · exact absurd hf h
      · rw [int_of_of_fits _ hf]
    · generalize int_of (100 * (inlet - outside) / (outlet - outside)) = e
      omega
    · generalize int_of (100 * (inlet - outside) / (outlet - outside)) = e
      omega

/-- When `run` recomputes the efficiency, the stored value is the one computed
from the readings after the sensor step. -/
theorem TempSensors.run_efficiency_of_recompute (c : TempSensorConfig) (k : TempMqttConfig)
    (bus : SensorBus) (r : PublishResults) (s : TempSensors)
    (h : (s.run_sensor c bus).1 = true ∨ s.force_send_ = true) :
    (s.run c k bus r).efficiency_ =
      TempSensors.compute_efficiency (s.run_sensor c bus).2.t1_.t_
        (s.run_sensor c bus).2.t2_.t_ (s.run_sensor c bus).2.t3_.t_ := by
  have h' : (s.run_sensor c bus).1 = true ∨ (s.run_sensor c bus).2.force_send_ = true := by
    rw [TempSensors.run_sensor_force_send]; exact h
  unfold TempSensors.run
  simp only [h', if_true, TempSensors.sendMQTT_efficiency]
  rfl

/-- A line without a space has none before its first NUL either. -/
theorem not_mem_takeWhile_of_not_mem (l : List Char) (c : Char) (q : Char → Bool)
    (h : c ∉ l) : c ∉ l.takeWhile q :=
  fun hc => h ((List.takeWhile_sublist q).subset hc)

/-- When no NUL stands before the first space of a line, the space is found in
the C string at the same place. -/
theorem indexOf_space_takeWhile (l : List Char) (hsp : ' ' ∈ l)
    (hnul : Char.ofNat 0 ∉ l.takeWhile (fun c => c ≠ ' ')) :
    ' ' ∈ l.takeWhile (fun c => c ≠ Char.ofNat 0) ∧
      (l.takeWhile (fun c => c ≠ Char.ofNat 0)).indexOf ' ' = l.indexOf ' ' := by
  induction l with
  | nil => simp at hsp
  | cons a l ih =>
    by_cases ha : a = ' '
    · rw [ha]
      rw [List.takeWhile_cons, if_pos (by decide)]
      simp [List.indexOf_cons]
    · have htw : (a :: l).takeWhile (fun c => c ≠ ' ') = a :: l.takeWhile (fun c => c ≠ ' ') := by
        rw [List.takeWhile_cons, if_pos (by simpa using ha)]
      rw [htw] at hnul
      have ha0 : a ≠ Char.ofNat 0 := fun h => hnul (by rw [h]; exact List.mem_cons_self _ _)
      have hsp' : ' ' ∈ l := by
        rcases List.mem_cons.mp hsp with h | h
        · exact absurd h.symm ha
        · exact h
      obtain ⟨i1, i2⟩ := ih hsp' (fun h => hnul (List.mem_cons_of_mem _ h))
      rw [List.takeWhile_cons, if_pos (by simpa using ha0)]
      have hb : (a == ' ') = false := by simpa using ha
      refine ⟨List.mem_cons_of_mem _ i1, ?_⟩
      simp only [List.indexOf_cons, hb, cond_false]
      rw [i2]

/-- A CR or LF on a line buffer in which no NUL stands before the first space:
the line is dispatched as the statements describe it and the buffer is
emptied. -/
theorem NetworkClient.loop_serial_newline (p : NetworkConfig) (tick : Tick)
    (s : NetworkClient) (c : Char) (hend : c.toNat = 10 ∨ c.toNat = 13)
    (hnul : ' ' ∈ s.serial_data_ →
      Char.ofNat 0 ∉ s.serial_data_.takeWhile (fun x => x ≠ ' ')) :
    s.loop_serial p { tick with serial := some c } =
      { s with serial_data_ := [], trace := s.trace ++ consoleDispatch s.serial_data_ } := by
  unfold NetworkClient.loop_serial consoleDispatch
  dsimp only
  rw [if_pos hend]
  by_cases hempty : s.serial_data_ = []
  · rw [if_neg (by rw [hempty]; simp), if_pos hempty, List.append_nil]
    cases s
    simp_all
  · rw [if_pos (by simpa using hempty), if_neg hempty]
    unfold strchr
    by_cases hsp : ' ' ∈ s.serial_data_
    · obtain ⟨i1, i2⟩ := indexOf_space_takeWhile s.serial_data_ hsp (hnul hsp)
      have hc : (s.serial_data_.takeWhile (fun x => x ≠ Char.ofNat 0)).contains ' ' = true := by
        simpa using i1
      rw [if_pos hc, if_pos hsp, i2]
      dsimp only
      rw [(take_indexOf s.serial_data_ ' ').1, ← List.drop_drop,
        (take_indexOf s.serial_data_ ' ').2]
      rfl
    · have hc : ¬ (s.serial_data_.takeWhile (fun x => x ≠ Char.ofNat 0)).contains ' ' = true := by
        have := not_mem_takeWhile_of_not_mem s.serial_data_ ' ' (fun x => x ≠ Char.ofNat 0) hsp
        simpa using this
      rw [if_neg hc, if_neg hsp]
      rfl

/-- C26 as stated fails for a line with a NUL character before its first
space: of the retained characters `a`, NUL, space, `b` the code dispatches the
topic `a` with the marker `<no value>`, although the line has a space and the
text after it is `b`. -/
theorem console_line_with_NUL_before_space :
    (sampleNetworkClient.feed sampleNetworkConfig tickLinkDown
        ['a', Char.ofNat 0, ' ', 'b', Char.ofNat 10]).trace =
      [NetEvent.mqttMessageReceived ['a'] "<no value>".toList] ∧
    consoleDispatch ['a', Char.ofNat 0, ' ', 'b'] =
      [NetEvent.mqttMessageReceived ['a', Char.ofNat 0] ['b']] ∧
    (sampleNetworkClient.feed sampleNetworkConfig tickLinkDown
        ['a', Char.ofNat 0, ' ', 'b', Char.ofNat 10]).trace ≠
      sampleNetworkClient.trace ++ consoleDispatch ['a', Char.ofNat 0, ' ', 'b'] := by
  refine ⟨by decide, by decide, by decide⟩

/-- C26 (amended): over every sequence of `loop` calls, whatever characters the
console delivers, the fill level of the line buffer stays within
`SERIAL_BUFFER_SIZE - 1`; in the console part of `loop`, a line typed into the
empty buffer (characters other than CR and LF) is retained up to
`SERIAL_BUFFER_SIZE - 1` characters, the rest is dropped, and nothing is
dispatched before its end; unless a NUL stands before the first space of the
retained characters, the CR or LF that ends the line dispatches nothing for an
empty line, the text before the first space as topic with the text after it,
leading spaces and tabs skipped, as value for a line with a space, and the line
(as a C string) as topic with the marker `<no value>` for a line without one;
the buffer is empty afterwards. -/
theorem console_line_dispatch (p : NetworkConfig) (tick : Tick) (s : NetworkClient)
    (cs : List Char) (c : Char)
    (hempty : s.serial_data_ = [])
    (hline : ∀ x ∈ cs, x.toNat ≠ 10 ∧ x.toNat ≠ 13)
    (hend : c.toNat = 10 ∨ c.toNat = 13)
    (hnul : ' ' ∈ cs.take (p.SERIAL_BUFFER_SIZE - 1) →
      Char.ofNat 0 ∉ (cs.take (p.SERIAL_BUFFER_SIZE - 1)).takeWhile (fun x => x ≠ ' ')) :
    (∀ (ticks : List Tick) (s0 : NetworkClient),
        s0.serial_data_.length ≤ p.SERIAL_BUFFER_SIZE - 1 →
        (ticks.foldl (fun s tick => s.loop p tick) s0).serial_data_.length ≤
          p.SERIAL_BUFFER_SIZE - 1) ∧
      (s.feed p tick cs).serial_data_ = cs.take (p.SERIAL_BUFFER_SIZE - 1) ∧
      (s.feed p tick cs).trace = s.trace ∧
      (s.feed p tick (cs ++ [c])).trace =
        s.trace ++ consoleDispatch (cs.take (p.SERIAL_BUFFER_SIZE - 1)) ∧
      (s.feed p tick (cs ++ [c])).serial_data_ = [] := by
  have hline' := NetworkClient.feed_line p tick cs s (by rw [hempty]; exact Nat.zero_le _) hline
  rw [hempty, List.nil_append] at hline'
  have hnl := NetworkClient.loop_serial_newline p tick (s.feed p tick cs) c hend
    (by rw [hline']; exact hnul)
  have hlast : s.feed p tick (cs ++ [c]) =
      (s.feed p tick cs).loop_serial p { tick with serial := some c } := by
    rw [NetworkClient.feed_append]
    rfl
  refine ⟨fun ticks s0 h0 => NetworkClient.loops_bound p ticks s0 h0, ?_, ?_, ?_, ?_⟩
  · rw [hline']
  · rw [hline']
  · rw [hlast, hnl, hline']
  · rw [hlast, hnl]

/-- The theorem `console_line_dispatch` on a line with a NUL after its first
space: the characters `a`, space, `b`, NUL, `c` and a CR dispatch the topic `a`
with the value `b`, NUL, `c`. -/
theorem console_line_dispatch_witness :
    sampleNetworkClient.serial_data_ = [] ∧
      (∀ x ∈ ['a', ' ', 'b', Char.ofNat 0, 'c'], x.toNat ≠ 10 ∧ x.toNat ≠ 13) ∧
      consoleDispatch (['a', ' ', 'b', Char.ofNat 0, 'c'].take
          (sampleNetworkConfig.SERIAL_BUFFER_SIZE - 1)) =
        [NetEvent.mqttMessageReceived ['a'] ['b', Char.ofNat 0, 'c']] ∧
      ((∀ (ticks : List Tick) (s0 : NetworkClient),
          s0.serial_data_.length ≤ sampleNetworkConfig.SERIAL_BUFFER_SIZE - 1 →
          (ticks.foldl (fun s tick => s.loop sampleNetworkConfig tick) s0).serial_data_.length ≤
            sampleNetworkConfig.SERIAL_BUFFER_SIZE - 1) ∧
        (sampleNetworkClient.feed sampleNetworkConfig tickLinkDown
            ['a', ' ', 'b', Char.ofNat 0, 'c']).serial_data_ =
          ['a', ' ', 'b', Char.ofNat 0, 'c'].take (sampleNetworkConfig.SERIAL_BUFFER_SIZE - 1) ∧
        (sampleNetworkClient.feed sampleNetworkConfig tickLinkDown
            ['a', ' ', 'b', Char.ofNat 0, 'c']).trace = sampleNetworkClient.trace ∧
        (sampleNetworkClient.feed sampleNetworkConfig tickLinkDown
            (['a', ' ', 'b', Char.ofNat 0, 'c'] ++ [Char.ofNat 13])).trace =
          sampleNetworkClient.trace ++
            consoleDispatch (['a', ' ', 'b', Char.ofNat 0, 'c'].take
              (sampleNetworkConfig.SERIAL_BUFFER_SIZE - 1)) ∧
        (sampleNetworkClient.feed sampleNetworkConfig tickLinkDown
            (['a', ' ', 'b', Char.ofNat 0, 'c'] ++ [Char.ofNat 13])).serial_data_ = []) :=
  ⟨rfl, by decide, by decide,
    console_line_dispatch sampleNetworkConfig tickLinkDown sampleNetworkClient
      ['a', ' ', 'b', Char.ofNat 0, 'c'] (Char.ofNat 13) rfl (by decide) (by decide)
      (by decide)⟩

/-- Console lines on the sample client: a line with several blanks before the
value; a line longer than a buffer of 4 characters, of which the first 3 are
retained; a line without a space. -/
theorem console_line_examples :
    (sampleNetworkClient.feed sampleNetworkConfig tickLinkDown
        ("mode   3".toList ++ [Char.ofNat 13])).trace =
      [NetEvent.mqttMessageReceived "mode".toList "3".toList] ∧
    (sampleNetworkClient.feed ⟨"/cmd/".toList, "/cmddebug/".toList, 4⟩ tickLinkDown
        ("a bcdef".toList ++ [Char.ofNat 10])).trace =
      [NetEvent.mqttMessageReceived "a".toList "b".toList] ∧
    (sampleNetworkClient.feed sampleNetworkConfig tickLinkDown
        ("status".toList ++ [Char.ofNat 10])).trace =
      [NetEvent.mqttMessageReceived "status".toList "<no value>".toList] := by
  refine ⟨by decide, by decide, by decide⟩

/-! ## The "send all programs" job: steps -/

theorem ProgramManager.sendAll_message_data (t : MQTTTopic) (KwlProgramData : List Char)
    (pm : ProgramManager) (i : Nat) :
    ProgramManager.sendAll_message t KwlProgramData pm (2 * i) =
      ⟨KwlProgramData ++ [digitChar (i / 10), digitChar (i % 10), '/'] ++ t.SubtopicProgramData,
        mqttSendProgram_buffer (pm.getProgram i)⟩ := by
  unfold ProgramManager.sendAll_message
  rw [if_pos (by omega), show 2 * i / 2 = i by omega]

theorem ProgramManager.sendAll_message_enable (t : MQTTTopic) (KwlProgramData : List Char)
    (pm : ProgramManager) (i : Nat) :
    ProgramManager.sendAll_message t KwlProgramData pm (2 * i + 1) =
      ⟨KwlProgramData ++ [digitChar (i / 10), digitChar (i % 10), '/'] ++
          t.SubtopicProgramEnable,
        maskChars (pm.getProgram i).enabled_progsets_ 8⟩ := by
  unfold ProgramManager.sendAll_message
  rw [if_neg (by omega), show (2 * i + 1) / 2 = i by omega]

/-- With subtopics that fit the topic array, one call of `mqttSendProgram` for
an existing slot publishes the message at the position of the job; the position
advances exactly when the publish succeeds, and the call returns true exactly
when the second phase succeeds. -/
theorem ProgramManager.mqttSendProgram_publishes (k : KWLConfig) (t : MQTTTopic)
    (KwlProgramData : List Char) (pm : ProgramManager) (job : ProgramManager.SendAllJob)
    (tr : Transport) (hfit : TopicsFit t) (hi : job.i < k.MaxProgramCount) :
    ProgramManager.mqttSendProgram k t KwlProgramData pm job.i job.all tr =
      some (job.all && tr.outcome tr.log.length, job.all || tr.outcome tr.log.length,
        { tr with log := tr.log ++
          [(ProgramManager.sendAll_message t KwlProgramData pm job.position,
            tr.outcome tr.log.length)] }) := by
  obtain ⟨hd, he⟩ := hfit
  unfold ProgramManager.mqttSendProgram ProgramManager.mqttSendProgram_topic
    ProgramManager.SendAllJob.position Transport.publish
  rw [if_neg (by omega)]
  cases hall : job.all
  · simp only [Bool.false_eq_true, if_false, Nat.add_zero,
      ProgramManager.sendAll_message_data, Bool.false_and, Bool.false_or]
    rw [if_pos (by omega)]
  · simp only [if_true, ProgramManager.sendAll_message_enable, Bool.true_and, Bool.true_or]
    rw [if_pos (by omega)]

/-- With subtopics that fit the topic array, a call of `mqttSendProgram` returns
and only adds to the log of the transport, which goes on recording the
outcomes. -/
theorem ProgramManager.mqttSendProgram_returns (k : KWLConfig) (t : MQTTTopic)
    (KwlProgramData : List Char) (pm : ProgramManager) (index : Nat) (all : Bool)
    (tr : Transport) (hfit : TopicsFit t) :
    ∃ r, ProgramManager.mqttSendProgram k t KwlProgramData pm index all tr = some r ∧
      r.2.2.outcome = tr.outcome ∧ (∃ l, r.2.2.log = tr.log ++ l) ∧
      ((∀ j e, tr.log[j]? = some e → e.2 = tr.outcome j) →
        ∀ j e, r.2.2.log[j]? = some e → e.2 = tr.outcome j) := by
  by_cases hi : index < k.MaxProgramCount
  · have h := ProgramManager.mqttSendProgram_publishes k t KwlProgramData pm ⟨index, all⟩ tr
      hfit hi
    exact ⟨_, h, rfl, ⟨_, rfl⟩, fun hlog => outcome_snoc hlog _⟩
  · refine ⟨(true, all, tr), ?_, rfl, ⟨[], (List.append_nil _).symm⟩, fun hlog => hlog⟩
    unfold ProgramManager.mqttSendProgram
    rw [if_pos (by omega)]

theorem ProgramManager.ExportLog.export_snoc {t : MQTTTopic} {KwlProgramData : List Char}
    {pms : List ProgramManager} {log : List (Message × Bool)}
    (h : ProgramManager.ExportLog t KwlProgramData pms log) (pm : ProgramManager)
    (hpm : pm ∈ pms) (ok : Bool) :
    ProgramManager.ExportLog t KwlProgramData pms
      (log ++ [(ProgramManager.sendAll_message t KwlProgramData pm (published_ok log).length,
        ok)]) := by
  intro j e hj
  by_cases hlt : j < log.length
  · rw [List.getElem?_append_left hlt] at hj
    rw [List.take_append_of_le_length (le_of_lt hlt)]
    exact h j e hj
  · have hge : log.length ≤ j := by omega
    rw [List.getElem?_append_right hge] at hj
    have hj0 : j - log.length = 0 := by
      by_contra hne
      rw [List.getElem?_eq_none_iff.mpr (by simp; omega)] at hj
      exact Option.noConfusion hj
    have hjl : j = log.length := by omega
    rw [hj0] at hj
    simp only [List.getElem?_cons_zero, Option.some.injEq] at hj
    rw [← hj, hjl, List.take_left]
    exact ⟨pm, hpm, rfl⟩

theorem ProgramManager.ExportLog.export_init {t : MQTTTopic} {KwlProgramData : List Char}
    {pms : List ProgramManager} {log : List (Message × Bool)} {x : Message × Bool}
    (h : ProgramManager.ExportLog t KwlProgramData pms (log ++ [x])) :
    ProgramManager.ExportLog t KwlProgramData pms log ∧
      ∃ pm ∈ pms,
        x.1 = ProgramManager.sendAll_message t KwlProgramData pm (published_ok log).length := by
  constructor
  · intro j e hj
    have hlt : j < log.length := by
      by_contra hge
      rw [List.getElem?_eq_none_iff.mpr (by omega)] at hj
      exact Option.noConfusion hj
    have := h j e (by rw [List.getElem?_append_left hlt]; exact hj)
    rw [List.take_append_of_le_length (le_of_lt hlt)] at this
    exact this
  · have := h log.length x (by rw [List.getElem?_append_right (le_refl _)]; simp)
    rw [List.take_left] at this
    exact this

theorem ProgramManager.ExportLog.export_mono {t : MQTTTopic} {KwlProgramData : List Char}
    {pms pms' : List ProgramManager} {log : List (Message × Bool)}
    (h : ProgramManager.ExportLog t KwlProgramData pms log) (hsub : ∀ pm ∈ pms, pm ∈ pms') :
    ProgramManager.ExportLog t KwlProgramData pms' log := by
  intro j e hj
  obtain ⟨pm, hpm, he⟩ := h j e hj
  exact ⟨pm, hsub pm hpm, he⟩

/-- An export log for a single program manager is a faithful log of the
messages of its table. -/
theorem ProgramManager.ExportLog.faithful {t : MQTTTopic} {KwlProgramData : List Char}
    {pm : ProgramManager} {log : List (Message × Bool)}
    (h : ProgramManager.ExportLog t KwlProgramData [pm] log) :
    FaithfulLog (ProgramManager.sendAll_message t KwlProgramData pm) log := by
  intro j e hj
  obtain ⟨pm', hpm, he⟩ := h j e hj
  rw [List.mem_singleton] at hpm
  rw [he, hpm]

/-- In an export log the messages published successfully are the first messages
of the export, in order, each once: number `p` is message `p` of the export. -/
theorem ProgramManager.ExportLog.export_published {t : MQTTTopic} {KwlProgramData : List Char}
    {pms : List ProgramManager} (log : List (Message × Bool))
    (h : ProgramManager.ExportLog t KwlProgramData pms log) :
    ∀ p, p < (published_ok log).length →
      ∃ pm ∈ pms, (published_ok log)[p]? =
        some (ProgramManager.sendAll_message t KwlProgramData pm p) := by
  induction log using List.reverseRecOn with
  | nil =>
    intro p hp
    exact absurd hp (by simp [published_ok])
  | append_singleton l x ih =>
    obtain ⟨hl, pm, hpm, hx⟩ := h.export_init
    intro p hp
    rw [published_ok_append] at hp ⊢
    by_cases hlt : p < (published_ok l).length
    · rw [List.getElem?_append_left hlt]
      exact ih hl p hlt
    · obtain ⟨m, ok⟩ := x
      rw [published_ok_singleton] at hp ⊢
      cases ok with
      | false =>
        simp only [Bool.false_eq_true, if_false, List.append_nil] at hp
        exact absurd hp hlt
      | true =>
        simp only [if_true, List.length_append, List.length_singleton] at hp
        have hpl : p = (published_ok l).length := by omega
        refine ⟨pm, hpm, ?_⟩
        rw [List.getElem?_append_right (by omega), hpl]
        simp only at hx
        simp [hx]

/-- With subtopics that fit the topic array the loop of the job returns, keeps
the invariant, reports completion only at the end of the table, and ends
without completion only after at least one publish call and at a slot of the
table. -/
theorem ProgramManager.sendAll_while_inv (k : KWLConfig) (t : MQTTTopic)
    (KwlProgramData : List Char) (pm : ProgramManager) (pms : List ProgramManager)
    (hfit : TopicsFit t) (hpm : pm ∈ pms) (remaining : Nat)
    (job : ProgramManager.SendAllJob) (tr : Transport)
    (hrem : remaining = k.MaxProgramCount - job.i)
    (hinv : ProgramManager.SendAllInv k t KwlProgramData pms job tr) :
    ∃ r, ProgramManager.sendAll_while k t KwlProgramData pm remaining job tr = some r ∧
      ProgramManager.SendAllInv k t KwlProgramData pms r.2.1 r.2.2 ∧
      r.2.2.outcome = tr.outcome ∧
      (r.1 = true → r.2.1.i = k.MaxProgramCount) ∧
      (r.1 = false → tr.log.length + 1 ≤ r.2.2.log.length ∧ r.2.1.i < k.MaxProgramCount) := by
  induction remaining generalizing job tr with
  | zero =>
    unfold ProgramManager.sendAll_while
    refine ⟨_, rfl, hinv, rfl, fun _ => ?_, fun h => Bool.noConfusion h⟩
    have := hinv.1
    show job.i = k.MaxProgramCount
    omega
  | succ r ih =>
    obtain ⟨h1, h2, h3, h4, h5⟩ := hinv
    have hi : job.i < k.MaxProgramCount := by omega
    have e := ProgramManager.mqttSendProgram_publishes k t KwlProgramData pm job tr hfit hi
    unfold ProgramManager.sendAll_while
    rw [e]
    have hf := h3.export_snoc pm hpm (tr.outcome tr.log.length)
    rw [h4] at hf
    have hlog := outcome_snoc h5 (ProgramManager.sendAll_message t KwlProgramData pm
      job.position)
    cases hall : job.all <;> cases hok : tr.outcome tr.log.length <;> rw [hok] at hf hlog
    · simp only [Bool.false_and, if_true, Bool.false_or]
      refine ⟨_, rfl, ⟨h1, fun h => Bool.noConfusion h, hf, ?_, hlog⟩, rfl,
        fun h => Bool.noConfusion h, fun _ => ⟨by simp, hi⟩⟩
      rw [published_ok_append, List.length_append, h4, published_ok_singleton]
      simp [ProgramManager.SendAllJob.position, hall]
    · simp only [Bool.false_and, if_true, Bool.false_or]
      refine ⟨_, rfl, ⟨h1, fun _ => hi, hf, ?_, hlog⟩, rfl,
        fun h => Bool.noConfusion h, fun _ => ⟨by simp, hi⟩⟩
      rw [published_ok_append, List.length_append, h4, published_ok_singleton]
      simp [ProgramManager.SendAllJob.position, hall]
    · simp only [Bool.true_and, if_true, Bool.true_or]
      refine ⟨_, rfl, ⟨h1, fun _ => hi, hf, ?_, hlog⟩, rfl,
        fun h => Bool.noConfusion h, fun _ => ⟨by simp, hi⟩⟩
      rw [published_ok_append, List.length_append, h4, published_ok_singleton]
      simp [ProgramManager.SendAllJob.position, hall]
    · simp only [Bool.true_and, Bool.true_eq_false, if_false]
      obtain ⟨r', g0, g1, g2, g3, g4⟩ := ih ⟨job.i + 1, false⟩
        { tr with log := tr.log ++
          [(ProgramManager.sendAll_message t KwlProgramData pm job.position, true)] }
        (by simp only; omega)
        ⟨by simp only; omega, fun h => Bool.noConfusion h, hf, by
          rw [published_ok_append, List.length_append, h4, published_ok_singleton]
          simp [ProgramManager.SendAllJob.position, hall]
          omega, hlog⟩
      refine ⟨r', g0, g1, g2, g3, fun h => ?_⟩
      obtain ⟨g5, g6⟩ := g4 h
      refine ⟨?_, g6⟩
      simp only [List.length_append, List.length_singleton] at g5
      omega

/-- With subtopics that fit the topic array the polled job returns after every
number of ticks with the invariant; a job that has reported completion stands
at the end of the table; a job that has not has made at least one publish call
per tick and, from the first tick on, stands at a slot of the table. -/
theorem ProgramManager.sendAll_poll_inv (k : KWLConfig) (t : MQTTTopic)
    (KwlProgramData : List Char) (pm : ProgramManager) (outcome : Nat → Bool)
    (hfit : TopicsFit t) (n : Nat) :
    ∃ r, ProgramManager.sendAll_poll k t KwlProgramData pm outcome n = some r ∧
      ProgramManager.SendAllInv k t KwlProgramData [pm] r.2.1 r.2.2 ∧
      r.2.2.outcome = outcome ∧
      (r.1 = true → r.2.1.i = k.MaxProgramCount) ∧
      (r.1 = false → n ≤ r.2.2.log.length ∧ (1 ≤ n → r.2.1.i < k.MaxProgramCount)) := by
  induction n with
  | zero =>
    refine ⟨_, rfl, ⟨Nat.zero_le _, fun h => Bool.noConfusion h, ?_, rfl, ?_⟩, rfl,
      fun h => Bool.noConfusion h, fun _ => ⟨Nat.zero_le _, fun h => absurd h (by decide)⟩⟩
    · intro j e hj
      exact Option.noConfusion hj
    · intro j e hj
      exact Option.noConfusion hj
  | succ n ih =>
    obtain ⟨r, h0, h1, h2, h3, h4⟩ := ih
    have hstep : ProgramManager.sendAll_poll k t KwlProgramData pm outcome (n + 1) =
        if r.1 = true then some r
        else ProgramManager.sendAll_step k t KwlProgramData pm r.2.1 r.2.2 := by
      show (match ProgramManager.sendAll_poll k t KwlProgramData pm outcome n with
        | none => none
        | some r => if r.1 = true then some r
          else ProgramManager.sendAll_step k t KwlProgramData pm r.2.1 r.2.2) = _
      rw [h0]
    rw [hstep]
    by_cases hd : r.1 = true
    · rw [if_pos hd]
      refine ⟨r, rfl, h1, h2, h3, fun h => ?_⟩
      rw [hd] at h
      exact Bool.noConfusion h
    · rw [if_neg hd]
      have hd' : r.1 = false := by simpa using hd
      obtain ⟨r', g0, g1, g2, g3, g4⟩ := ProgramManager.sendAll_while_inv k t KwlProgramData pm
        [pm] hfit (List.mem_singleton.mpr rfl) (k.MaxProgramCount - r.2.1.i) r.2.1 r.2.2 rfl h1
      refine ⟨r', g0, g1, g2.trans h2, g3, fun h => ?_⟩
      obtain ⟨g5, g6⟩ := g4 h
      have := (h4 hd').1
      exact ⟨by omega, fun _ => g6⟩

/-- A job that stands at the end of the table with the invariant has published
a message for every phase of every slot. -/
theorem ProgramManager.SendAllInv.length_published {k : KWLConfig} {t : MQTTTopic}
    {KwlProgramData : List Char} {pms : List ProgramManager}
    {job : ProgramManager.SendAllJob} {tr : Transport}
    (hinv : ProgramManager.SendAllInv k t KwlProgramData pms job tr)
    (hi : job.i = k.MaxProgramCount) :
    (published_ok tr.log).length = 2 * k.MaxProgramCount := by
  obtain ⟨h1, h2, h3, h4, h5⟩ := hinv
  have hall : job.all = false := by
    cases ha : job.all with
    | false => rfl
    | true =>
      have := h2 ha
      omega
  rw [h4]
  unfold ProgramManager.SendAllJob.position
  rw [hi, hall]
  simp

/-- A job that stands at a slot of the table with the invariant has had fewer
than `2 * MaxProgramCount` successful publish calls. -/
theorem ProgramManager.SendAllInv.successes_lt {k : KWLConfig} {t : MQTTTopic}
    {KwlProgramData : List Char} {pms : List ProgramManager}
    {job : ProgramManager.SendAllJob} {tr : Transport}
    (hinv : ProgramManager.SendAllInv k t KwlProgramData pms job tr)
    (hi : job.i < k.MaxProgramCount) :
    successes tr.outcome tr.log.length < 2 * k.MaxProgramCount := by
  obtain ⟨h1, h2, h3, h4, h5⟩ := hinv
  rw [← published_ok_length_of_outcomes tr.outcome tr.log h5, h4]
  unfold ProgramManager.SendAllJob.position
  split_ifs <;> omega

/-- A failed publish leaves the job where it was: the step returns false, slot
index and phase are unchanged, and the log has the failed call as its last
entry. -/
theorem ProgramManager.sendAll_step_of_failure (k : KWLConfig) (t : MQTTTopic)
    (KwlProgramData : List Char) (pm : ProgramManager) (job : ProgramManager.SendAllJob)
    (tr : Transport) (hfit : TopicsFit t) (hi : job.i < k.MaxProgramCount)
    (hfail : tr.outcome tr.log.length = false) :
    ProgramManager.sendAll_step k t KwlProgramData pm job tr =
      some (false, job, { tr with log := tr.log ++
        [(ProgramManager.sendAll_message t KwlProgramData pm job.position, false)] }) := by
  have e := ProgramManager.mqttSendProgram_publishes k t KwlProgramData pm job tr hfit hi
  unfold ProgramManager.sendAll_step
  obtain ⟨r, hr⟩ : ∃ r, k.MaxProgramCount - job.i = r + 1 :=
    ⟨k.MaxProgramCount - job.i - 1, by omega⟩
  rw [hr]
  unfold ProgramManager.sendAll_while
  rw [e, hfail]
  simp only [Bool.and_false, if_true, Bool.or_false]

/-- In a faithful log the call after a failed call sends the same message. -/
theorem FaithfulLog.resend {msg : Nat → Message} {log : List (Message × Bool)}
    (h : FaithfulLog msg log) (j : Nat) (m : Message) (e : Message × Bool)
    (hj : log[j]? = some (m, false)) (hj' : log[j + 1]? = some e) : e.1 = m := by
  have h1 := h j _ hj
  have h2 := h (j + 1) e hj'
  rw [List.take_succ, hj, published_ok_append] at h2
  simp only [Option.toList, published_ok_singleton, Bool.false_eq_true, if_false,
    List.append_nil] at h2
  rw [h2]
  exact h1.symm

theorem published_ok_take_mono (log : List (Message × Bool)) (a b : Nat) (h : a ≤ b) :
    (published_ok (log.take a)).length ≤ (published_ok (log.take b)).length := by
  obtain ⟨d, rfl⟩ : ∃ d, b = a + d := ⟨b - a, by omega⟩
  rw [List.take_add, published_ok_append, List.length_append]
  omega

/-- In a faithful log every call after a successful call sends a later message
of the export. -/
theorem FaithfulLog.later {msg : Nat → Message} {log : List (Message × Bool)}
    (h : FaithfulLog msg log) (j j' : Nat) (m : Message) (e : Message × Bool) (hlt : j < j')
    (hj : log[j]? = some (m, true)) (hj' : log[j']? = some e) :
    ∃ p p', p < p' ∧ m = msg p ∧ e.1 = msg p' := by
  refine ⟨_, _, ?_, h j _ hj, h j' e hj'⟩
  have hm := published_ok_take_mono log (j + 1) j' hlt
  rw [List.take_succ, hj, published_ok_append, List.length_append] at hm
  simp only [Option.toList, published_ok_singleton, if_true, List.length_singleton] at hm
  omega

/-- C20: with subtopics that fit the topic array of `mqttSendProgram`, for
every sequence of publish outcomes and every number `n` of ticks the "send all
programs" job returns; every publish call sent the message that follows the
ones published successfully before it, with the outcome of the transport; a
job that has reported completion has published, in this order and each once,
the data record and then the enabled-set mask of slot 0, of slot 1, and so on
up to slot `MaxProgramCount - 1`; a job that has not reported completion has
made at least one publish call per tick; the job has reported completion as
soon as `2 * MaxProgramCount` of the first `n` calls succeed; the call after a
failed call sends the message that failed, every call after a successful call
sends a later message of the export; and a failed publish ends the step with
slot index and phase unchanged. -/
theorem sendAll_completes_in_order (k : KWLConfig) (t : MQTTTopic)
    (KwlProgramData : List Char) (pm : ProgramManager) (outcome : Nat → Bool) (n : Nat)
    (hfit : TopicsFit t) :
    ∃ done job tr,
      ProgramManager.sendAll_poll k t KwlProgramData pm outcome n = some (done, job, tr) ∧
      FaithfulLog (ProgramManager.sendAll_message t KwlProgramData pm) tr.log ∧
      (∀ j e, tr.log[j]? = some e → e.2 = outcome j) ∧
      (done = true → published_ok tr.log =
        (List.range (2 * k.MaxProgramCount)).map
          (ProgramManager.sendAll_message t KwlProgramData pm)) ∧
      (done = false → n ≤ tr.log.length) ∧
      (1 ≤ n → 2 * k.MaxProgramCount ≤ successes outcome n → done = true) ∧
      (∀ (j : Nat) (m : Message) (e : Message × Bool),
        tr.log[j]? = some (m, false) → tr.log[j + 1]? = some e → e.1 = m) ∧
      (∀ (j j' : Nat) (m : Message) (e : Message × Bool),
        j < j' → tr.log[j]? = some (m, true) → tr.log[j']? = some e →
        ∃ p p', p < p' ∧ m = ProgramManager.sendAll_message t KwlProgramData pm p ∧
          e.1 = ProgramManager.sendAll_message t KwlProgramData pm p') ∧
      (∀ (job' : ProgramManager.SendAllJob) (tr' : Transport),
        job'.i < k.MaxProgramCount → tr'.outcome tr'.log.length = false →
        ProgramManager.sendAll_step k t KwlProgramData pm job' tr' =
          some (false, job', { tr' with log := tr'.log ++
            [(ProgramManager.sendAll_message t KwlProgramData pm job'.position, false)] })) := by
  obtain ⟨⟨done, job, tr⟩, h0, hinv, hout, hdone, hrun⟩ :=
    ProgramManager.sendAll_poll_inv k t KwlProgramData pm outcome hfit n
  simp only at hinv hout hdone hrun
  have hinv' := hinv
  obtain ⟨h1, h2, h3, h4, h5⟩ := hinv
  rw [hout] at h5
  have hf := h3.faithful
  refine ⟨done, job, tr, h0, hf, h5, fun hd => ?_, fun hd => (hrun hd).1,
    fun hn hs => ?_, fun j m e => hf.resend j m e, fun j j' m e => hf.later j j' m e,
    fun job' tr' hi hfail =>
      ProgramManager.sendAll_step_of_failure k t KwlProgramData pm job' tr' hfit hi hfail⟩
  · rw [FaithfulLog.published _ hf, hinv'.length_published (hdone hd)]
  · by_contra hd
    have hd' : done = false := by simpa using hd
    obtain ⟨hlen, hi⟩ := hrun hd'
    have hlt := hinv'.successes_lt (hi hn)
    rw [hout] at hlt
    have := successes_le outcome _ _ hlen
    omega

/-- The theorem `sendAll_completes_in_order` on an export of two slots on which
the second publish call fails once: after five ticks the job has reported
completion, with five publish calls made. -/
theorem sendAll_completes_in_order_witness :
    TopicsFit sampleShortTopics ∧
      ∃ done job tr,
        ProgramManager.sendAll_poll sampleConfigTwoSlots sampleShortTopics "prog/".toList
          sampleManager (fun n => decide (n ≠ 1)) 5 = some (done, job, tr) ∧
        done = true ∧
        tr.log.map (fun e => (String.mk e.1.topic, e.2)) =
          [("prog/00/data", true), ("prog/00/en", false), ("prog/00/en", true),
            ("prog/01/data", true), ("prog/01/en", true)] := by
  refine ⟨by decide, ?_⟩
  obtain ⟨done, job, tr, h0, -, -, -, -, h5, -⟩ :=
    sendAll_completes_in_order sampleConfigTwoSlots sampleShortTopics "prog/".toList sampleManager
      (fun n => decide (n ≠ 1)) 5 (by decide)
  refine ⟨done, job, tr, h0, h5 (by decide) (by decide), ?_⟩
  have h : (ProgramManager.sendAll_poll sampleConfigTwoSlots sampleShortTopics "prog/".toList
      sampleManager (fun n => decide (n ≠ 1)) 5).map
      (fun r => r.2.2.log.map (fun e => (String.mk e.1.topic, e.2))) =
      some [("prog/00/data", true), ("prog/00/en", false), ("prog/00/en", true),
        ("prog/01/data", true), ("prog/01/en", true)] := by decide
  rw [h0] at h
  simpa using h

/-- The topic array of `mqttSendProgram` holds subtopics of at most 4
characters: with the subtopic `enable` the polled job writes beyond the array
at the second message, in the second tick. -/
theorem sendAll_poll_topic_overflow :
    ¬ TopicsFit sampleTopics ∧
      ProgramManager.mqttSendProgram_topic "prog/".toList 0 "enable".toList = none ∧
      (ProgramManager.sendAll_poll sampleConfigTwoSlots sampleTopics "prog/".toList
        sampleManager (fun _ => true) 2).isNone = true := by
  decide

/-! ## The publish task of the program manager: the bulk job and per-slot requests -/

theorem ProgramManager.SendAllInv.inv_mono {k : KWLConfig} {t : MQTTTopic}
    {KwlProgramData : List Char} {pms pms' : List ProgramManager}
    {job : ProgramManager.SendAllJob} {tr : Transport}
    (hinv : ProgramManager.SendAllInv k t KwlProgramData pms job tr)
    (hsub : ∀ pm ∈ pms, pm ∈ pms') :
    ProgramManager.SendAllInv k t KwlProgramData pms' job tr :=
  ⟨hinv.1, hinv.2.1, hinv.2.2.1.export_mono hsub, hinv.2.2.2.1, hinv.2.2.2.2⟩

theorem PublishTask.run_snoc (k : KWLConfig) (t : MQTTTopic) (KwlProgramData : List Char)
    (acts : List PublisherAction) (a : PublisherAction) (st : PublishTask × Transport) :
    PublishTask.run k t KwlProgramData (acts ++ [a]) st =
      PublishTask.act k t KwlProgramData (PublishTask.run k t KwlProgramData acts st) a := by
  unfold PublishTask.run
  rw [List.foldl_append]
  rfl

/-- A request for the "send all programs" job installs it with `i = 0` and
`all = false`, whatever the task holds. -/
theorem PublishTask.publish_sendAll (task : PublishTask) :
    task.publish ProgramJob.sendAll = ⟨some (PublisherJob.sendAll ⟨0, false⟩)⟩ := by
  obtain ⟨j⟩ := task
  cases j with
  | none => rfl
  | some pj => cases pj <;> rfl

/-- A per-slot request to a task without a "send all programs" job in flight
installs the per-slot job. -/
theorem PublishTask.publish_sendProgram_free (task : PublishTask) (index : Nat)
    (h : task.sendAllInFlight = false) :
    task.publish (ProgramJob.sendProgram index) =
      ⟨some (PublisherJob.sendProgram index false)⟩ := by
  obtain ⟨j⟩ := task
  cases j with
  | none => rfl
  | some pj =>
    cases pj with
    | sendAll job => exact Bool.noConfusion (show true = false from h)
    | sendProgram i a => rfl

/-- A tick of a task with the "send all programs" job in flight is one step of
the job. -/
theorem PublishTask.poll_sendAll (k : KWLConfig) (t : MQTTTopic) (KwlProgramData : List Char)
    (pm : ProgramManager) (job : ProgramManager.SendAllJob) (tr : Transport)
    (r : Bool × ProgramManager.SendAllJob × Transport)
    (h : ProgramManager.sendAll_while k t KwlProgramData pm (k.MaxProgramCount - job.i) job tr =
      some r) :
    PublishTask.act k t KwlProgramData (some (⟨some (PublisherJob.sendAll job)⟩, tr))
        (PublisherAction.tick pm) =
      some (if r.1 = true then ⟨none⟩ else ⟨some (PublisherJob.sendAll r.2.1)⟩, r.2.2) := by
  show (match (PublisherJob.sendAll job).step k t KwlProgramData pm tr with
    | none => none
    | some r => some (if r.1 = true then (⟨none⟩ : PublishTask) else ⟨some r.2.1⟩, r.2.2)) = _
  have hs : (PublisherJob.sendAll job).step k t KwlProgramData pm tr =
      some (r.1, PublisherJob.sendAll r.2.1, r.2.2) := by
    show (match ProgramManager.sendAll_step k t KwlProgramData pm job tr with
      | none => none
      | some r => some (r.1, PublisherJob.sendAll r.2.1, r.2.2)) = _
    unfold ProgramManager.sendAll_step
    rw [h]
  rw [hs]

/-- With subtopics that fit the topic array, a tick of a task without a "send
all programs" job in flight returns, leaves the task without such a job and
only adds to the log of the transport, which goes on recording the outcomes. -/
theorem PublishTask.poll_free (k : KWLConfig) (t : MQTTTopic) (KwlProgramData : List Char)
    (pm : ProgramManager) (task : PublishTask) (tr : Transport) (hfit : TopicsFit t)
    (h : task.sendAllInFlight = false) :
    ∃ st, PublishTask.act k t KwlProgramData (some (task, tr)) (PublisherAction.tick pm) =
        some st ∧
      st.1.sendAllInFlight = false ∧ st.2.outcome = tr.outcome ∧
      (∃ l, st.2.log = tr.log ++ l) ∧
      ((∀ j e, tr.log[j]? = some e → e.2 = tr.outcome j) →
        ∀ j e, st.2.log[j]? = some e → e.2 = tr.outcome j) := by
  obtain ⟨j⟩ := task
  cases j with
  | none => exact ⟨_, rfl, rfl, rfl, ⟨[], (List.append_nil _).symm⟩, fun hl => hl⟩
  | some pj =>
    cases pj with
    | sendAll job => exact Bool.noConfusion (show true = false from h)
    | sendProgram index all =>
      obtain ⟨r, h0, h1, h2, h3⟩ :=
        ProgramManager.mqttSendProgram_returns k t KwlProgramData pm index all tr hfit
      have hs : (PublisherJob.sendProgram index all).step k t KwlProgramData pm tr =
          some (r.1, PublisherJob.sendProgram index r.2.1, r.2.2) := by
        show (match ProgramManager.mqttSendProgram k t KwlProgramData pm index all tr with
          | none => none
          | some r => some (r.1, PublisherJob.sendProgram index r.2.1, r.2.2)) = _
        rw [h0]
      have ha : PublishTask.act k t KwlProgramData
          (some (⟨some (PublisherJob.sendProgram index all)⟩, tr)) (PublisherAction.tick pm) =
          some (if r.1 = true then ⟨none⟩ else ⟨some (PublisherJob.sendProgram index r.2.1)⟩,
            r.2.2) := by
        show (match (PublisherJob.sendProgram index all).step k t KwlProgramData pm tr with
          | none => none
          | some r => some (if r.1 = true then (⟨none⟩ : PublishTask) else ⟨some r.2.1⟩,
              r.2.2)) = _
        rw [hs]
      refine ⟨_, ha, ?_, h1, h2, h3⟩
      by_cases hd : r.1 = true
      · rw [if_pos hd]; rfl
      · rw [if_neg hd]; rfl

theorem ticksOf_snoc_tick (acts : List PublisherAction) (pm : ProgramManager) :
    ticksOf (acts ++ [PublisherAction.tick pm]) = ticksOf acts ++ [pm] := by
  simp [ticksOf, List.filterMap_append]

theorem ticksOf_snoc_publish (acts : List PublisherAction) (job : ProgramJob) :
    ticksOf (acts ++ [PublisherAction.publish job]) = ticksOf acts := by
  simp [ticksOf, List.filterMap_append]

/-- With subtopics that fit the topic array: after a request for the "send all
programs" job and any sequence of ticks and per-slot requests the publish task
has returned, and either the job is in flight, with the invariant and exactly
as the ticks alone leave it, or the log begins with a complete export. -/
theorem PublishTask.run_sendAll (k : KWLConfig) (t : MQTTTopic) (KwlProgramData : List Char)
    (task : PublishTask) (outcome : Nat → Bool) (acts : List PublisherAction)
    (hfit : TopicsFit t)
    (hreq : ∀ a ∈ acts, a ≠ PublisherAction.publish ProgramJob.sendAll) :
    ∃ st, PublishTask.run k t KwlProgramData
        (PublisherAction.publish ProgramJob.sendAll :: acts) (task, ⟨outcome, []⟩) = some st ∧
      st.2.outcome = outcome ∧ (∀ j e, st.2.log[j]? = some e → e.2 = outcome j) ∧
      ((∃ job, st.1 = ⟨some (PublisherJob.sendAll job)⟩ ∧
          ProgramManager.SendAllInv k t KwlProgramData (ticksOf acts) job st.2 ∧
          (ticksOf acts).length ≤ st.2.log.length ∧
          (1 ≤ (ticksOf acts).length → job.i < k.MaxProgramCount) ∧
          PublishTask.run k t KwlProgramData
            (PublisherAction.publish ProgramJob.sendAll :: acts.filter PublisherAction.isTick)
            (task, ⟨outcome, []⟩) = some st) ∨
        (st.1.sendAllInFlight = false ∧ ∃ l1 l2, st.2.log = l1 ++ l2 ∧
          ProgramManager.ExportLog t KwlProgramData (ticksOf acts) l1 ∧
          (published_ok l1).length = 2 * k.MaxProgramCount)) := by
  induction acts using List.reverseRecOn with
  | nil =>
    have h0 : PublishTask.run k t KwlProgramData
        [PublisherAction.publish ProgramJob.sendAll] (task, ⟨outcome, []⟩) =
        some (⟨some (PublisherJob.sendAll ⟨0, false⟩)⟩, ⟨outcome, []⟩) := by
      show some (task.publish ProgramJob.sendAll, _) = _
      rw [PublishTask.publish_sendAll]
    refine ⟨_, h0, rfl, fun j e hj => Option.noConfusion hj,
      Or.inl ⟨⟨0, false⟩, rfl, ⟨Nat.zero_le _, fun h => Bool.noConfusion h,
        fun j e hj => Option.noConfusion hj, rfl, fun j e hj => Option.noConfusion hj⟩,
        Nat.zero_le _, fun h => absurd h (by decide), h0⟩⟩
  | append_singleton acts a ih =>
    have hreq' : ∀ b ∈ acts, b ≠ PublisherAction.publish ProgramJob.sendAll :=
      fun b hb => hreq b (List.mem_append_left _ hb)
    have ha : a ≠ PublisherAction.publish ProgramJob.sendAll := hreq a (by simp)
    obtain ⟨⟨task', tr'⟩, hrun, hout, hlog, hcase⟩ := ih hreq'
    simp only at hout hlog hcase
    have hsnoc : PublishTask.run k t KwlProgramData
        (PublisherAction.publish ProgramJob.sendAll :: (acts ++ [a])) (task, ⟨outcome, []⟩) =
        PublishTask.act k t KwlProgramData (some (task', tr')) a := by
      rw [← List.cons_append, PublishTask.run_snoc, hrun]
    rw [hsnoc]
    cases a with
    | publish job =>
      cases job with
      | sendAll => exact absurd rfl ha
      | sendProgram index =>
        have hfil : (acts ++ [PublisherAction.publish (ProgramJob.sendProgram index)]).filter
            PublisherAction.isTick = acts.filter PublisherAction.isTick := by
          simp [List.filter_append, PublisherAction.isTick]
        rw [ticksOf_snoc_publish, hfil]
        rcases hcase with ⟨job, hj, hinv, hlen, hi, hticks⟩ | ⟨hfree, hex⟩
        · subst hj
          exact ⟨_, rfl, hout, hlog, Or.inl ⟨job, rfl, hinv, hlen, hi, hticks⟩⟩
        · refine ⟨(⟨some (PublisherJob.sendProgram index false)⟩, tr'), ?_, hout, hlog,
            Or.inr ⟨rfl, hex⟩⟩
          show some (task'.publish (ProgramJob.sendProgram index), tr') = _
          rw [PublishTask.publish_sendProgram_free _ _ hfree]
    | tick pm =>
      have hfil : (acts ++ [PublisherAction.tick pm]).filter PublisherAction.isTick =
          acts.filter PublisherAction.isTick ++ [PublisherAction.tick pm] := by
        simp [List.filter_append, PublisherAction.isTick]
      rw [ticksOf_snoc_tick, hfil]
      have hsub : ∀ x ∈ ticksOf acts, x ∈ ticksOf acts ++ [pm] :=
        fun x hx => List.mem_append_left _ hx
      rcases hcase with ⟨job, hj, hinv, hlen, hi, hticks⟩ | ⟨hfree, l1, l2, hl, hexp, hfull⟩
      · subst hj
        obtain ⟨r, g0, g1, g2, g3, g4⟩ := ProgramManager.sendAll_while_inv k t KwlProgramData pm
          (ticksOf acts ++ [pm]) hfit (by simp) (k.MaxProgramCount - job.i) job tr' rfl
          (hinv.inv_mono hsub)
        have hact := PublishTask.poll_sendAll k t KwlProgramData pm job tr' r g0
        rw [hact]
        have hout' : r.2.2.outcome = outcome := g2.trans hout
        have hlog' : ∀ j e, r.2.2.log[j]? = some e → e.2 = outcome j := by
          intro j e hj
          rw [← hout']
          exact g1.2.2.2.2 j e hj
        by_cases hd : r.1 = true
        · rw [if_pos hd]
          exact ⟨_, rfl, hout', hlog', Or.inr ⟨rfl, r.2.2.log, [], (List.append_nil _).symm,
            g1.2.2.1, g1.length_published (g3 hd)⟩⟩
        · rw [if_neg hd]
          have hd' : r.1 = false := by simpa using hd
          obtain ⟨g5, g6⟩ := g4 hd'
          refine ⟨_, rfl, hout', hlog', Or.inl ⟨r.2.1, rfl, g1, ?_, fun _ => g6, ?_⟩⟩
          · simp only [List.length_append, List.length_singleton]
            omega
          · rw [← List.cons_append, PublishTask.run_snoc, hticks, hact, if_neg hd]
      · obtain ⟨st', p0, p1, p2, ⟨l, p3⟩, p4⟩ :=
          PublishTask.poll_free k t KwlProgramData pm task' tr' hfit hfree
        refine ⟨st', p0, p2.trans hout, ?_, Or.inr ⟨p1, l1, l2 ++ l, ?_, hexp.export_mono hsub, hfull⟩⟩
        · intro j e hj
          rw [← hout]
          exact p4 (by rw [hout]; exact hlog) j e hj
        · rw [p3, hl, List.append_assoc]

/-- The policy of the publish task of the program scheduler: a per-slot job in
flight is overwritten by a per-slot request, a "send all programs" job in
flight is kept, and a request for the "send all programs" job installs it. -/
theorem PublishTask.publish_policy (job : ProgramManager.SendAllJob) (index index' : Nat)
    (all : Bool) (task : PublishTask) :
    (⟨some (PublisherJob.sendProgram index all)⟩ : PublishTask).publish
        (ProgramJob.sendProgram index') = ⟨some (PublisherJob.sendProgram index' false)⟩ ∧
      (⟨some (PublisherJob.sendAll job)⟩ : PublishTask).publish
        (ProgramJob.sendProgram index') = ⟨some (PublisherJob.sendAll job)⟩ ∧
      (⟨none⟩ : PublishTask).publish (ProgramJob.sendProgram index') =
        ⟨some (PublisherJob.sendProgram index' false)⟩ ∧
      task.publish ProgramJob.sendAll = ⟨some (PublisherJob.sendAll ⟨0, false⟩)⟩ :=
  ⟨rfl, rfl, rfl, PublishTask.publish_sendAll task⟩

/-- C27: with the publish task of the program scheduler as the spec gives it
and subtopics that fit the topic array of `mqttSendProgram`: after a request
for the "send all programs" job, for every sequence of publish outcomes and
every sequence of ticks and per-slot requests the task returns with a log that
records the outcomes of the transport; while the job is in flight the task and
the transport are exactly as the ticks alone leave them, so that the per-slot
requests have not replaced or discarded the job, and at least one publish call
was made per tick; once the job is no longer in flight the log begins with a
complete export: `2 * MaxProgramCount` messages published successfully, number
`p` of them message `p` of the export (the data record, then the enabled-set
mask of slot 0, of slot 1, and so on) for the program table found at one of the
ticks; and the job is no longer in flight as soon as `2 * MaxProgramCount` of
the first `n` publish calls succeed, `n` the number of ticks. -/
theorem sendAll_job_not_interrupted (k : KWLConfig) (t : MQTTTopic)
    (KwlProgramData : List Char) (task : PublishTask) (outcome : Nat → Bool)
    (acts : List PublisherAction) (hfit : TopicsFit t)
    (hreq : ∀ a ∈ acts, a ≠ PublisherAction.publish ProgramJob.sendAll) :
    ∃ task' tr',
      PublishTask.run k t KwlProgramData (PublisherAction.publish ProgramJob.sendAll :: acts)
        (task, ⟨outcome, []⟩) = some (task', tr') ∧
      (∀ j e, tr'.log[j]? = some e → e.2 = outcome j) ∧
      (task'.sendAllInFlight = true →
        PublishTask.run k t KwlProgramData
            (PublisherAction.publish ProgramJob.sendAll :: acts.filter PublisherAction.isTick)
            (task, ⟨outcome, []⟩) = some (task', tr') ∧
          (ticksOf acts).length ≤ tr'.log.length) ∧
      (task'.sendAllInFlight = false →
        ∃ l1 l2, tr'.log = l1 ++ l2 ∧ (published_ok l1).length = 2 * k.MaxProgramCount ∧
          ∀ p, p < 2 * k.MaxProgramCount →
            ∃ pm ∈ ticksOf acts, (published_ok l1)[p]? =
              some (ProgramManager.sendAll_message t KwlProgramData pm p)) ∧
      (1 ≤ (ticksOf acts).length →
        2 * k.MaxProgramCount ≤ successes outcome (ticksOf acts).length →
        task'.sendAllInFlight = false) := by
  obtain ⟨⟨task', tr'⟩, hrun, hout, hlog, hcase⟩ :=
    PublishTask.run_sendAll k t KwlProgramData task outcome acts hfit hreq
  simp only at hout hlog hcase
  refine ⟨task', tr', hrun, hlog, ?_, ?_, ?_⟩
  · intro hin
    rcases hcase with ⟨job, hj, hinv, hlen, hi, hticks⟩ | ⟨hfree, hex⟩
    · exact ⟨hticks, hlen⟩
    · rw [hfree] at hin
      exact Bool.noConfusion hin
  · intro hfree
    rcases hcase with ⟨job, hj, hinv, hlen, hi, hticks⟩ | ⟨-, l1, l2, hl, hexp, hfull⟩
    · rw [hj] at hfree
      exact Bool.noConfusion (show true = false from hfree)
    · refine ⟨l1, l2, hl, hfull, fun p hp => ?_⟩
      exact ProgramManager.ExportLog.export_published l1 hexp p (by omega)
  · intro hn hs
    rcases hcase with ⟨job, hj, hinv, hlen, hi, hticks⟩ | ⟨hfree, hex⟩
    · have hlt := hinv.successes_lt (hi hn)
      rw [hout] at hlt
      have := successes_le outcome _ _ hlen
      omega
    · exact hfree

/-- The theorem `sendAll_job_not_interrupted` on an export of two slots on which
the second publish call fails once, with a per-slot request after the first and
after the second tick: after five ticks the job is no longer in flight and the
five publish calls made are those of the export. -/
theorem sendAll_job_not_interrupted_witness :
    TopicsFit sampleShortTopics ∧
      (∀ a ∈ sampleActions, a ≠ PublisherAction.publish ProgramJob.sendAll) ∧
      ∃ task' tr',
        PublishTask.run sampleConfigTwoSlots sampleShortTopics "prog/".toList
          (PublisherAction.publish ProgramJob.sendAll :: sampleActions)
          (⟨none⟩, ⟨fun n => decide (n ≠ 1), []⟩) = some (task', tr') ∧
        task'.sendAllInFlight = false ∧
        tr'.log.map (fun e => (String.mk e.1.topic, e.2)) =
          [("prog/00/data", true), ("prog/00/en", false), ("prog/00/en", true),
            ("prog/01/data", true), ("prog/01/en", true)] := by
  have hreq : ∀ a ∈ sampleActions, a ≠ PublisherAction.publish ProgramJob.sendAll := by
    intro a ha
    simp only [sampleActions, List.mem_cons, List.mem_singleton, List.not_mem_nil,
      or_false] at ha
    rcases ha with rfl | rfl | rfl | rfl | rfl | rfl | rfl <;> simp
  refine ⟨by decide, hreq, ?_⟩
  obtain ⟨task', tr', h0, -, -, -, h4⟩ :=
    sendAll_job_not_interrupted sampleConfigTwoSlots sampleShortTopics "prog/".toList ⟨none⟩
      (fun n => decide (n ≠ 1)) sampleActions (by decide) hreq
  refine ⟨task', tr', h0, h4 (by decide) (by decide), ?_⟩
  have h : (PublishTask.run sampleConfigTwoSlots sampleShortTopics "prog/".toList
      (PublisherAction.publish ProgramJob.sendAll :: sampleActions)
      (⟨none⟩, ⟨fun n => decide (n ≠ 1), []⟩)).map
      (fun st => st.2.log.map (fun e => (String.mk e.1.topic, e.2))) =
      some [("prog/00/data", true), ("prog/00/en", false), ("prog/00/en", true),
        ("prog/01/data", true), ("prog/01/en", true)] := by decide
  rw [h0] at h
  simpa using h

/-- A per-slot request while the "send all programs" job is in flight leaves the
job where it is: after a tick, a request for slot 1 and a second tick, on which
the publish fails, the job stands at the enabled-set mask of slot 0. A per-slot
request while a per-slot job is in flight replaces that job. -/
theorem sendAll_job_in_flight_example :
    (PublishTask.run sampleConfigTwoSlots sampleShortTopics "prog/".toList
        [PublisherAction.publish ProgramJob.sendAll, PublisherAction.tick sampleManager,
          PublisherAction.publish (ProgramJob.sendProgram 1), PublisherAction.tick sampleManager]
        (⟨none⟩, ⟨fun n => decide (n ≠ 1), []⟩)).map
        (fun st => (st.1, st.2.log.map (fun e => (String.mk e.1.topic, e.2)))) =
      some (⟨some (PublisherJob.sendAll ⟨0, true⟩)⟩,
        [("prog/00/data", true), ("prog/00/en", false)]) ∧
      (PublishTask.run sampleConfigTwoSlots sampleShortTopics "prog/".toList
        [PublisherAction.publish (ProgramJob.sendProgram 0), PublisherAction.tick sampleManager,
          PublisherAction.publish (ProgramJob.sendProgram 1), PublisherAction.tick sampleManager,
          PublisherAction.tick sampleManager]
        (⟨none⟩, ⟨fun _ => true, []⟩)).map
        (fun st => (st.1, st.2.log.map (fun e => (String.mk e.1.topic, e.2)))) =
      some (⟨none⟩, [("prog/00/data", true), ("prog/01/data", true), ("prog/01/en", true)]) := by
  decide

end KWL
